import Mathlib

/-!
# MLX Ruby binding (`ext/mlx/native.cpp`): marshaling layer

A shallow embedding of the value-marshaling and dispatch code of the native
extension, and theorems relating it to the written specification.

Conventions of the embedding

* A host `VALUE` is a term of `RValue`. Host Floats carry a value of an
  abstract type `D` of C doubles; elements held by the engine have an abstract
  type `E`. The conversions between C++ arithmetic types and the element-wise
  behaviour of the engine are the fields of `Numerics`; general theorems hold
  for every choice of them.
* `rb_raise` and C++ exceptions are the two constructors of `Raised`; a
  function that can raise returns `Except Raised _`.
* The engine (`mlx::core`) is an external library. An engine array is modelled
  by its shape, dtype and row-major data (`MxArray`); where only the fact that
  an engine operation is invoked matters, the invocation is recorded as data
  (`EngineOp`, `ReduceCall`).
-/

namespace MlxRuby

/-! ## Errors -/

/-- Host exception classes used by the extension. -/
inductive ErrClass where
  | ArgumentError
  | TypeError
  | IndexError
  | RangeError
  | RuntimeError
  | NotImplementedError
  deriving DecidableEq, Repr

/-- A host exception: class and message, as passed to `rb_raise`. -/
structure RubyError where
  cls : ErrClass
  msg : String
  deriving DecidableEq, Repr

/-- Abnormal exits of native code: a host exception raised with `rb_raise`,
or a C++ `std::exception` in flight (identified by `what()`). -/
inductive Raised where
  | ruby (e : RubyError)
  | cpp (what : String)
  deriving DecidableEq, Repr

/-- The call `rb_raise(cls, msg)`. -/
def rb_raise {α : Type} (cls : ErrClass) (msg : String) : Except Raised α :=
  .error (.ruby ⟨cls, msg⟩)

/-- `raise_std_exception`: re-raise a caught C++ exception as `RuntimeError`
carrying `error.what()`. -/
def raise_std_exception {α : Type} (what : String) : Except Raised α :=
  rb_raise .RuntimeError what

/-- The pattern `try { body } catch (const std::exception& error)
{ raise_std_exception(error); }` that wraps an entry point. A host exception
raised by `rb_raise` unwinds past the handler unchanged. -/
def try_catch {α : Type} (body : Except Raised α) : Except Raised α :=
  match body with
  | .error (.cpp what) => raise_std_exception what
  | r => r

/-! ## Engine value types -/

/-- The closed set of element types (`mx::Dtype`). -/
inductive Dtype where
  | bool_ | uint8 | uint16 | uint32 | uint64
  | int8 | int16 | int32 | int64
  | float16 | float32 | float64 | bfloat16 | complex64
  deriving DecidableEq, Repr

/-- Device kinds (`mx::Device::DeviceType`). -/
inductive DeviceType where
  | cpu
  | gpu
  deriving DecidableEq, Repr

/-- A compute target (`mx::Device`). -/
structure Device where
  type : DeviceType
  index : Int
  deriving DecidableEq, Repr

/-- An execution queue on a device (`mx::Stream`). -/
structure Stream where
  index : Int
  device : Device
  deriving DecidableEq, Repr

/-- An engine array (`mx::array`): shape, element type and row-major data. -/
structure MxArray (E : Type) where
  shape : List Int
  dtype : Dtype
  data : List E
  deriving DecidableEq, Repr

/-- Number of dimensions, `array.ndim()`. -/
def MxArray.ndim {E : Type} (a : MxArray E) : Nat := a.shape.length

/-- Number of elements of an array of the given shape. -/
def shape_size (shape : List Int) : Nat := (shape.foldl (fun acc d => acc * d) 1).toNat

/-- Number of elements, `array.size()`. -/
def MxArray.size {E : Type} (a : MxArray E) : Nat := shape_size a.shape

/-! ## Host values -/

/-- A host value (`VALUE`). `ary` is `T_ARRAY`, `hash` is `T_HASH` with its
entries in insertion order; `array`, `dtype`, `device`, `stream` are instances
of the handle classes `MLX::Core::Array`, `Dtype`, `Device`, `Stream`. -/
inductive RValue (D E : Type) where
  | nil
  | bool (b : Bool)
  | int (n : Int)
  | float (x : D)
  | str (s : String)
  | sym (s : String)
  | ary (xs : List (RValue D E))
  | hash (kvs : List (RValue D E × RValue D E))
  | array (a : MxArray E)
  | dtype (d : Dtype)
  | device (d : Device)
  | stream (s : Stream)

/-- The test `RB_INTEGER_TYPE_P(value)`. -/
def RB_INTEGER_TYPE_P {D E : Type} : RValue D E → Bool
  | .int _ => true
  | _ => false

/-- The test `is_numeric_scalar(value)`: Integer, Float, true or false. -/
def is_numeric_scalar {D E : Type} : RValue D E → Bool
  | .int _ => true
  | .float _ => true
  | .bool _ => true
  | _ => false

/-- The conversion `NUM2LL` on an Integer: the value when it fits a signed
64-bit integer, `RangeError` otherwise. -/
def NUM2LL (n : Int) : Except Raised Int :=
  if -(2 : Int) ^ 63 ≤ n ∧ n < (2 : Int) ^ 63 then .ok n
  else rb_raise .RangeError "integer out of range of long long"

/-- The conversion `NUM2INT` on an Integer: the value when it fits a signed
32-bit `int`, `RangeError` otherwise. -/
def NUM2INT (n : Int) : Except Raised Int :=
  if -(2 : Int) ^ 31 ≤ n ∧ n < (2 : Int) ^ 31 then .ok n
  else rb_raise .RangeError "integer out of range of int"

/-- The cast `static_cast<mx::ShapeElem>(len)` of a `long` to the 32-bit signed
shape element type: reduction modulo `2^32` into `[-2^31, 2^31)`. -/
def to_ShapeElem (len : Int) : Int :=
  (len + (2 : Int) ^ 31) % (2 : Int) ^ 32 - (2 : Int) ^ 31

/-! ## Numeric conversions -/

/-- The numeric conversions the marshaling code relies on. `D` is the type of
C `double` values, `F` of C `float` values and `E` of engine elements.

* `llToFloat`, `llToDouble`, `dblToFloat` are `static_cast<float>(long long)`,
  `static_cast<double>(long long)` and `static_cast<float>(double)`;
* `one`, `zero` are the doubles `1.0` and `0.0`;
* `fromFloat dt`, `fromDouble dt` give the element the engine stores when an
  array of dtype `dt` is constructed from a `float` / `double` buffer;
* `astype src dst` is the element-wise action of `mx::astype`;
* `toBool`, `toInt dt`, `toDouble dt` read an element of an evaluated array
  as `bool`, as the integer type of `dt`, and as
  `static_cast<double>` of the floating type of `dt`;
* `scalarBool`, `scalarLL`, `scalarDbl` give the element of the rank-0 arrays
  `mx::array(bool)`, `mx::array(long long)`, `mx::array(double)`, whose dtypes
  are bool_, `llDtype` and `dblDtype`;
* `dblToInt` is `NUM2INT` applied to a host Float. -/
structure Numerics (D F E : Type) where
  llToFloat : Int → F
  llToDouble : Int → D
  dblToFloat : D → F
  one : D
  zero : D
  fromFloat : Dtype → F → E
  fromDouble : Dtype → D → E
  astype : Dtype → Dtype → E → E
  toBool : E → Bool
  toInt : Dtype → E → Int
  toDouble : Dtype → E → D
  scalarBool : Bool → E
  scalarLL : Int → E
  scalarDbl : D → E
  llDtype : Dtype
  dblDtype : Dtype
  dblToInt : D → Except Raised Int

/-- The conversion `static_cast<T>` from `long long` and from `double`, for the
template parameter `T` of the flattening code. -/
structure ScalarCast (D T : Type) where
  ofLL : Int → T
  ofDbl : D → T

/-- The instance `T = float`. -/
def float_cast {D F E : Type} (N : Numerics D F E) : ScalarCast D F :=
  ⟨N.llToFloat, N.dblToFloat⟩

/-- The instance `T = double`. -/
def double_cast {D F E : Type} (N : Numerics D F E) : ScalarCast D D :=
  ⟨N.llToDouble, fun x => x⟩

/-! ## Host sequence to array -/

/-- The template `scalar_value_from_ruby<T>`. -/
def scalar_value_from_ruby {D F E T : Type} (N : Numerics D F E) (c : ScalarCast D T) :
    RValue D E → Except Raised T
  | .int n =>
    match NUM2LL n with
    | .ok v => .ok (c.ofLL v)
    | .error e => .error e
  | .float x => .ok (c.ofDbl x)
  | .bool b => .ok (c.ofDbl (if b then N.one else N.zero))
  | _ => rb_raise .TypeError "expected numeric/boolean scalar"

mutual
/-- The template `infer_shape_and_flatten_typed<T>`, with the two in-out
parameters `shape` and `flat` threaded as state. The read `shape[depth]` is
only reached with `depth < shape.size()` when the traversal starts at depth 0
with an empty shape. -/
def infer_shape_and_flatten_typed {D F E T : Type} (N : Numerics D F E) (c : ScalarCast D T) :
    RValue D E → Nat → List Int × List T → Except Raised (List Int × List T)
  | .ary xs, depth, (shape, flat) =>
    let len : Int := (xs.length : Int)
    if shape.length = depth then
      infer_entries N c xs (depth + 1) (shape ++ [to_ShapeElem len], flat)
    else if shape.getD depth 0 ≠ len then
      rb_raise .ArgumentError "ragged array input is not supported"
    else
      infer_entries N c xs (depth + 1) (shape, flat)
  | value, depth, (shape, flat) =>
    if !is_numeric_scalar value then
      rb_raise .TypeError "nested arrays must contain only numeric/boolean scalars"
    else if shape.length ≠ depth then
      rb_raise .ArgumentError "inconsistent nested array depth"
    else
      match scalar_value_from_ruby N c value with
      | .ok t => .ok (shape, flat ++ [t])
      | .error e => .error e
/-- The loop `for (long i = 0; i < len; ++i)` of
`infer_shape_and_flatten_typed` over the entries of one host array. -/
def infer_entries {D F E T : Type} (N : Numerics D F E) (c : ScalarCast D T) :
    List (RValue D E) → Nat → List Int × List T → Except Raised (List Int × List T)
  | [], _, st => .ok st
  | x :: rest, depth, st =>
    match infer_shape_and_flatten_typed N c x depth st with
    | .ok st1 => infer_entries N c rest depth st1
    | .error e => .error e
end

/-- The engine constructor `mx::array(data.begin(), shape, dtype)`: the array
of the given shape whose elements are the first `size` buffer entries, each
stored as an element of `dtype`. A buffer shorter than `size` would be read
past its end; the model then holds the entries that exist. -/
def mx_array_from_buffer {T E : Type} (store : T → E) (data : List T) (shape : List Int)
    (dtype : Dtype) : MxArray E :=
  ⟨shape, dtype, (data.take (shape_size shape)).map store⟩

/-- The engine operation `mx::astype(a, dtype)`. -/
def mx_astype {D F E : Type} (N : Numerics D F E) (a : MxArray E) (dtype : Dtype) : MxArray E :=
  ⟨a.shape, dtype, a.data.map (N.astype a.dtype dtype)⟩

/-- The function `tensor_array_from_ruby(value, dtype)`. -/
def tensor_array_from_ruby {D F E : Type} (N : Numerics D F E) (value : RValue D E)
    (dtype : Option Dtype) : Except Raised (MxArray E) :=
  let target_dtype := dtype.getD .float32
  let build_dtype := if target_dtype = .float64 then Dtype.float32 else target_dtype
  if build_dtype = .float32 then
    match infer_shape_and_flatten_typed N (float_cast N) value 0 ([], []) with
    | .error e => .error e
    | .ok (shape, data) =>
      let a := mx_array_from_buffer (N.fromFloat build_dtype) data shape build_dtype
      if target_dtype ≠ build_dtype then .ok (mx_astype N a target_dtype) else .ok a
  else
    match infer_shape_and_flatten_typed N (double_cast N) value 0 ([], []) with
    | .error e => .error e
    | .ok (shape, data) =>
      let a := mx_array_from_buffer (N.fromDouble build_dtype) data shape build_dtype
      if target_dtype ≠ build_dtype then .ok (mx_astype N a target_dtype) else .ok a

/-! ## Array to host sequence -/

/-- The loop `for (long i = 0; i < n; ++i) rb_ary_push(out, ...)` of
`build_nested_ruby_array`; `body` is the recursive call at `dim + 1`, taking
and returning the running `flat_index`. -/
def build_entries {D E : Type} (body : Nat → RValue D E × Nat) :
    Nat → Nat → List (RValue D E) → List (RValue D E) × Nat
  | 0, flat_index, out => (out, flat_index)
  | n + 1, flat_index, out =>
    let r := body flat_index
    build_entries body n r.2 (out ++ [r.1])

/-- The body of `build_nested_ruby_array` on the dimensions from `dim` on. -/
def build_nested_from {D E : Type} (value_at : Nat → RValue D E) :
    List Int → Nat → RValue D E × Nat
  | [], flat_index => (value_at flat_index, flat_index + 1)
  | n :: rest, flat_index =>
    let r := build_entries (build_nested_from value_at rest) n.toNat flat_index []
    (.ary r.1, r.2)

/-- The template `build_nested_ruby_array(shape, dim, flat_index, value_at)`;
the in-out `flat_index` is returned next to the built value. -/
def build_nested_ruby_array {D E : Type} (shape : List Int) (dim : Nat) (flat_index : Nat)
    (value_at : Nat → RValue D E) : RValue D E × Nat :=
  build_nested_from value_at (shape.drop dim) flat_index

/-- The per-dtype element reader of `array_to_a` and `ruby_scalar_from_array`
(the bodies of the `switch` cases); `none` is the `default:` case. -/
def element_to_ruby {D F E : Type} (N : Numerics D F E) : Dtype → Option (E → RValue D E)
  | .bool_ => some (fun e => .bool (N.toBool e))
  | .uint8 => some (fun e => .int (N.toInt .uint8 e))
  | .uint16 => some (fun e => .int (N.toInt .uint16 e))
  | .uint32 => some (fun e => .int (N.toInt .uint32 e))
  | .uint64 => some (fun e => .int (N.toInt .uint64 e))
  | .int8 => some (fun e => .int (N.toInt .int8 e))
  | .int16 => some (fun e => .int (N.toInt .int16 e))
  | .int32 => some (fun e => .int (N.toInt .int32 e))
  | .int64 => some (fun e => .int (N.toInt .int64 e))
  | .float16 => some (fun e => .float (N.toDouble .float16 e))
  | .bfloat16 => some (fun e => .float (N.toDouble .bfloat16 e))
  | .float32 => some (fun e => .float (N.toDouble .float32 e))
  | .float64 => some (fun e => .float (N.toDouble .float64 e))
  | .complex64 => none

/-- The read `data[i]` through `conv`; an index past the data (never produced
by `build_nested_ruby_array` on an array whose data has `size` entries) gives
`nil`. -/
def read_at {D E : Type} (data : List E) (conv : E → RValue D E) (i : Nat) : RValue D E :=
  match data[i]? with
  | some e => conv e
  | none => .nil

/-- The function `ruby_scalar_from_array(array)`. -/
def ruby_scalar_from_array {D F E : Type} (N : Numerics D F E) (a : MxArray E) :
    Except Raised (RValue D E) :=
  match element_to_ruby N a.dtype with
  | some conv => .ok (read_at a.data conv 0)
  | none => rb_raise .TypeError "unsupported dtype for scalar conversion"

/-! ## Host value to array -/

/-- The function `cast_if_needed(a, dtype)`. -/
def cast_if_needed {D F E : Type} (N : Numerics D F E) (a : MxArray E) (dtype : Option Dtype) :
    MxArray E :=
  match dtype with
  | some d => if a.dtype ≠ d then mx_astype N a d else a
  | none => a

/-- The function `scalar_array_from_ruby(value, dtype)`. -/
def scalar_array_from_ruby {D F E : Type} (N : Numerics D F E) (value : RValue D E)
    (dtype : Option Dtype) : Except Raised (MxArray E) :=
  match value with
  | .bool b => .ok (cast_if_needed N ⟨[], .bool_, [N.scalarBool b]⟩ dtype)
  | .int n =>
    match NUM2LL n with
    | .ok v => .ok (cast_if_needed N ⟨[], N.llDtype, [N.scalarLL v]⟩ dtype)
    | .error e => .error e
  | .float x => .ok (cast_if_needed N ⟨[], N.dblDtype, [N.scalarDbl x]⟩ dtype)
  | _ => rb_raise .TypeError "expected boolean, integer, or float"

/-- The function `array_from_ruby(value, dtype)`. -/
def array_from_ruby {D F E : Type} (N : Numerics D F E) (value : RValue D E)
    (dtype : Option Dtype) : Except Raised (MxArray E) :=
  match value with
  | .array a => .ok (cast_if_needed N a dtype)
  | .ary xs => tensor_array_from_ruby N (.ary xs) dtype
  | v => scalar_array_from_ruby N v dtype

/-- The function `array_unwrap(object)`. -/
def array_unwrap {D E : Type} : RValue D E → Except Raised (MxArray E)
  | .array a => .ok a
  | _ => rb_raise .TypeError "expected MLX::Core::Array"

/-- The function `array_wrap(array)`. -/
def array_wrap {D E : Type} (a : MxArray E) : RValue D E := .array a

/-- The conversion `NUM2INT(value)` on an arbitrary host value: an Integer is
range-checked, a Float is converted by the host, and a value without an
integer conversion raises `TypeError`. -/
def NUM2INT_value {D F E : Type} (N : Numerics D F E) : RValue D E → Except Raised Int
  | .int n => NUM2INT n
  | .float x => N.dblToInt x
  | _ => rb_raise .TypeError "no implicit conversion into Integer"

/-- The test `RTEST(value)`: every value but `nil` and `false` is true. -/
def RTEST {D E : Type} : RValue D E → Bool
  | .nil => false
  | .bool b => b
  | _ => true

/-- The test `NIL_P(value)`. -/
def NIL_P {D E : Type} : RValue D E → Bool
  | .nil => true
  | _ => false

/-- The function `int_vector_from_ruby(value)`: the loop over the entries. -/
def int_vector_entries {D E : Type} : List (RValue D E) → Except Raised (List Int)
  | [] => .ok []
  | .int n :: rest =>
    match NUM2INT n with
    | .error e => .error e
    | .ok v =>
      match int_vector_entries rest with
      | .ok out => .ok (v :: out)
      | .error e => .error e
  | _ :: _ => rb_raise .TypeError "array entries must be integers"

/-- The function `int_vector_from_ruby(value)`. -/
def int_vector_from_ruby {D E : Type} : RValue D E → Except Raised (List Int)
  | .ary xs => int_vector_entries xs
  | _ => rb_raise .TypeError "expected Array of integers"

/-- The loop of `shape_from_ruby(value)` over the entries. -/
def shape_entries {D E : Type} : List (RValue D E) → Except Raised (List Int)
  | [] => .ok []
  | .int n :: rest =>
    match NUM2INT n with
    | .error e => .error e
    | .ok v =>
      if v < 0 then rb_raise .ArgumentError "shape dimensions must be non-negative"
      else
        match shape_entries rest with
        | .ok out => .ok (v :: out)
        | .error e => .error e
  | _ :: _ => rb_raise .TypeError "shape dimensions must be integers"

/-- The function `shape_from_ruby(value)`. -/
def shape_from_ruby {D E : Type} : RValue D E → Except Raised (List Int)
  | .ary xs => shape_entries xs
  | _ => rb_raise .TypeError "shape must be an Array of integers"

/-! ## Indexing -/

/-- The arguments of the engine calls made by a successful `Array#[]`:
`mx::slice(array, start, stop)` followed by `mx::squeeze(_, 0)`. -/
structure RowSlice where
  start : List Int
  stop : List Int
  deriving DecidableEq, Repr

/-- The method `Array#[]` (`array_aref`), up to the arguments handed to the
engine. -/
def array_aref {D E : Type} (self : MxArray E) (index : RValue D E) : Except Raised RowSlice :=
  try_catch <|
    match index with
    | .int idx =>
      if self.ndim = 0 then rb_raise .ArgumentError "cannot index a scalar array"
      else
        match NUM2INT idx with
        | .error e => .error e
        | .ok i0 =>
          let axis_size := self.shape.headD 0
          let i := if i0 < 0 then i0 + axis_size else i0
          if i < 0 ∨ i ≥ axis_size then rb_raise .IndexError "index out of range"
          else
            .ok ⟨(List.replicate self.ndim 0).set 0 i, self.shape.set 0 (i + 1)⟩
    | _ => rb_raise .TypeError "index must be an integer in this phase"

/-- The slice that selects row `r` of an array of the given shape: `r` to
`r + 1` on the first axis, the full extent on every other axis. -/
def row_slice (shape : List Int) (r : Int) : RowSlice :=
  ⟨r :: List.replicate (shape.length - 1) 0, (r + 1) :: shape.tail⟩

/-! ## Default device and stream -/

/-- The process-wide engine state read and written by the stream helpers: the
default device, and for every device the index of its default stream. -/
structure EngineState where
  default_device : Device
  default_stream_index : Device → Int

/-- The engine query `mx::default_device()`. -/
def mx_default_device (st : EngineState) : Device := st.default_device

/-- The engine query `mx::default_stream(device)`. -/
def mx_default_stream (st : EngineState) (d : Device) : Stream := ⟨st.default_stream_index d, d⟩

/-- The engine call `mx::set_default_device(device)`. -/
def mx_set_default_device (st : EngineState) (d : Device) : EngineState :=
  { st with default_device := d }

/-- The engine call `mx::set_default_stream(stream)`: it replaces the default
stream of the device of `stream` only. -/
def mx_set_default_stream (st : EngineState) (s : Stream) : EngineState :=
  { st with default_stream_index := fun d => if d = s.device then s.index
                                            else st.default_stream_index d }

/-- The function `device_type_from_value(value)`. -/
def device_type_from_value {D E : Type} : RValue D E → Except Raised DeviceType
  | .str s => if s = "cpu" then .ok .cpu else if s = "gpu" then .ok .gpu
              else rb_raise .ArgumentError "device type must be :cpu or :gpu"
  | .sym s => if s = "cpu" then .ok .cpu else if s = "gpu" then .ok .gpu
              else rb_raise .ArgumentError "device type must be :cpu or :gpu"
  | _ => rb_raise .ArgumentError "device type must be :cpu or :gpu"

/-- The function `device_from_object_or_type(object)`. -/
def device_from_object_or_type {D E : Type} : RValue D E → Except Raised Device
  | .device d => .ok d
  | v =>
    match device_type_from_value v with
    | .ok t => .ok ⟨t, 0⟩
    | .error e => .error e

/-- The saved defaults of `core_stream` (`StreamRestoreContext`). -/
structure StreamRestoreContext where
  device : Device
  stream : Stream

/-- The function `core_stream_restore`. -/
def core_stream_restore (restore : StreamRestoreContext) (st : EngineState) : EngineState :=
  mx_set_default_stream (mx_set_default_device st restore.device) restore.stream

/-- A host block: run on the engine state, it returns a value or raises a host
exception, and leaves the engine state as its body made it. -/
abbrev Block (D E : Type) := EngineState → Except RubyError (RValue D E) × EngineState

/-- The host function `rb_ensure(body, ensure)`: `ensure` runs after `body` on
every exit of `body`, whose value or exception is then passed on. -/
def rb_ensure {D E : Type} (body : Block D E) (ensure : EngineState → EngineState)
    (st : EngineState) : Except Raised (RValue D E) × EngineState :=
  let r := body st
  (match r.1 with
   | .ok v => .ok v
   | .error e => .error (.ruby e),
   ensure r.2)

/-- The target resolution at the head of `core_stream`: the device and stream
that become the defaults. -/
def core_stream_target {D E : Type} (stream_or_device : RValue D E) (st : EngineState) :
    Except Raised (Device × Stream) :=
  match stream_or_device with
  | .stream s => .ok (s.device, s)
  | v =>
    match device_from_object_or_type v with
    | .ok d => .ok (d, mx_default_stream st d)
    | .error e => .error e

/-- The part of `core_stream` that runs before the block: resolve the target,
save the current defaults, install the target. It returns the saved defaults
and the state in which the block starts. -/
def core_stream_enter {D E : Type} (stream_or_device : RValue D E) (st : EngineState) :
    Except Raised (StreamRestoreContext × EngineState) :=
  match core_stream_target stream_or_device st with
  | .error e => .error e
  | .ok (target_device, target_stream) =>
    let restore : StreamRestoreContext :=
      ⟨mx_default_device st, mx_default_stream st (mx_default_device st)⟩
    let st1 := mx_set_default_device st target_device
    let st2 := mx_set_default_stream st1 target_stream
    .ok (restore, st2)

/-- The function `core_stream(stream_or_device)`; `block` is the block given
to the call, if any. -/
def core_stream {D E : Type} (stream_or_device : RValue D E) (block : Option (Block D E))
    (st : EngineState) : Except Raised (RValue D E) × EngineState :=
  match core_stream_enter stream_or_device st with
  | .error e => (try_catch (.error e), st)
  | .ok (restore, st2) =>
    match block with
    | some blk =>
      let r := rb_ensure blk (core_stream_restore restore) st2
      (try_catch r.1, r.2)
    | none => (.ok .nil, st2)

/-! ## Argument lists -/

/-- The host function `rb_scan_args(argc, argv, fmt, ...)` for a format of
`req` required and `opt` optional arguments: the arguments with every absent
optional one set to `nil`, or `ArgumentError` on a wrong count. -/
def rb_scan_args {D E : Type} (req opt : Nat) (argv : List (RValue D E)) :
    Except Raised (List (RValue D E)) :=
  if argv.length < req ∨ req + opt < argv.length then
    rb_raise .ArgumentError "wrong number of arguments"
  else .ok (argv ++ List.replicate (req + opt - argv.length) .nil)

/-- The `i`-th output variable of `rb_scan_args`. -/
def scanned {D E : Type} (args : List (RValue D E)) (i : Nat) : RValue D E := args.getD i .nil

/-- The string holds a null byte. -/
def has_null_byte (s : String) : Bool := s.data.any (fun c => c.toNat == 0)

/-- The conversion `StringValueCStr(value)`: the text of a String without a
null byte; `ArgumentError` on a null byte, `TypeError` on a value with no
implicit conversion to String. -/
def StringValueCStr {D E : Type} : RValue D E → Except Raised String
  | .str s =>
    if has_null_byte s then rb_raise .ArgumentError "string contains null byte"
    else .ok s
  | _ => rb_raise .TypeError "no implicit conversion into String"

/-! ## Engine operations -/

/-- The argument type `mx::StreamOrDevice`. -/
inductive StreamOrDevice where
  | default
  | stream (s : Stream)
  | device (d : Device)
  deriving DecidableEq, Repr

/-- The engine operations called by the entry points modelled below. Each
returns its result or throws a `std::exception`, given by its `what()`.
The field `reshape` is `mx::reshape(a, shape)` together with the evaluation
of its result. -/
structure Engine (E : Type) where
  add : MxArray E → MxArray E → Except String (MxArray E)
  subtract : MxArray E → MxArray E → Except String (MxArray E)
  multiply : MxArray E → MxArray E → Except String (MxArray E)
  divide : MxArray E → MxArray E → Except String (MxArray E)
  split_parts : MxArray E → Int → Option Int → Except String (List (MxArray E))
  split_indices : MxArray E → List Int → Option Int → Except String (List (MxArray E))
  quantize : MxArray E → Option Int → Option Int → String → Except String (List (MxArray E))
  qr : MxArray E → StreamOrDevice → Except String (MxArray E × MxArray E)
  svd : MxArray E → Bool → StreamOrDevice → Except String (List (MxArray E))
  reshape : MxArray E → List Int → Except String (MxArray E)

/-- A call into the engine from native code: a thrown `std::exception` is a
C++ exception in flight. -/
def engine_call {α : Type} (r : Except String α) : Except Raised α :=
  match r with
  | .ok v => .ok v
  | .error what => .error (.cpp what)

/-! ## Array to nested host sequence -/

/-- The method `Array#to_a` (`array_to_a`). An array of rank zero is read as a
scalar. Otherwise the engine is asked for `mx::reshape(array,
{static_cast<mx::ShapeElem>(array.size())})`; the element count goes through
the 32-bit cast, the call is outside any `try`/`catch`, so a thrown
`std::exception` leaves the method in flight. The `switch` is on the dtype of
the flat array, the readers index the data of the flat array, and the nesting
follows the shape of the original array. -/
def array_to_a {D F E : Type} (N : Numerics D F E) (eng : Engine E) (self : MxArray E) :
    Except Raised (RValue D E) :=
  if self.ndim = 0 then ruby_scalar_from_array N self
  else
    match engine_call (eng.reshape self [to_ShapeElem (self.size : Int)]) with
    | .error e => .error e
    | .ok flat =>
      match element_to_ruby N flat.dtype with
      | some conv => .ok (build_nested_ruby_array self.shape 0 0 (read_at flat.data conv)).1
      | none => rb_raise .TypeError "to_a unsupported for current dtype in this phase"

/-- The part of the contract of `mx::reshape` that `to_a` relies on: asked for
the one-dimensional shape holding the element count of `a`, the engine
returns the array of that shape with the dtype and the row-major data of
`a`. -/
def reshape_flattens {E : Type} (eng : Engine E) (a : MxArray E) : Prop :=
  eng.reshape a [(a.size : Int)] = .ok ⟨[(a.size : Int)], a.dtype, a.data⟩

/-! ## Array operators and `add` -/

/-- The function `array_binary_op(self, other, op)`. Its body has no
`try`/`catch`. -/
def array_binary_op {D F E : Type} (N : Numerics D F E) (self : MxArray E)
    (other : RValue D E) (op : MxArray E → MxArray E → Except String (MxArray E)) :
    Except Raised (RValue D E) :=
  match array_from_ruby N other none with
  | .error e => .error e
  | .ok rhs =>
    match engine_call (op self rhs) with
    | .error e => .error e
    | .ok out => .ok (array_wrap out)

/-- The method `Array#+` (`array_add`). -/
def array_add {D F E : Type} (N : Numerics D F E) (eng : Engine E) (self : MxArray E)
    (other : RValue D E) : Except Raised (RValue D E) :=
  array_binary_op N self other eng.add

/-- The method `Array#-` (`array_subtract`). -/
def array_subtract {D F E : Type} (N : Numerics D F E) (eng : Engine E) (self : MxArray E)
    (other : RValue D E) : Except Raised (RValue D E) :=
  array_binary_op N self other eng.subtract

/-- The method `Array#*` (`array_multiply`). -/
def array_multiply {D F E : Type} (N : Numerics D F E) (eng : Engine E) (self : MxArray E)
    (other : RValue D E) : Except Raised (RValue D E) :=
  array_binary_op N self other eng.multiply

/-- The method `Array#/` (`array_divide`). -/
def array_divide {D F E : Type} (N : Numerics D F E) (eng : Engine E) (self : MxArray E)
    (other : RValue D E) : Except Raised (RValue D E) :=
  array_binary_op N self other eng.divide

/-- The function `core_add(a, b)`. -/
def core_add {D F E : Type} (N : Numerics D F E) (eng : Engine E) (a b : RValue D E) :
    Except Raised (RValue D E) :=
  try_catch <|
    match array_from_ruby N a none with
    | .error e => .error e
    | .ok lhs =>
      match array_from_ruby N b none with
      | .error e => .error e
      | .ok rhs =>
        match engine_call (eng.add lhs rhs) with
        | .error e => .error e
        | .ok out => .ok (array_wrap out)

/-! ## Convolution -/

/-- An engine operation invoked by `core_convolve`, with the arguments the
binding computes. -/
inductive EngineOp where
  | slice (start stop strides : List Int)
  | reshape (shape : List Int)
  | pad (low high : Int)
  | conv1d (input_len weight_len stride padding dilation groups : Int)
  deriving DecidableEq, Repr

/-- Length of the output of the engine operation `mx::conv1d` along the
spatial axis. -/
def mx_conv1d_length (input_len weight_len stride padding dilation : Int) : Int :=
  (input_len + 2 * padding - dilation * (weight_len - 1) - 1) / stride + 1

/-- The tail of `core_convolve`: the call of `mx::conv1d` and the final
reshape; the value is the length of the returned one-dimensional array. -/
def convolve_finish (ops : List EngineOp) (input_len weight_len padding : Int) :
    List EngineOp × Except Raised Int :=
  (ops ++ [.conv1d input_len weight_len 1 padding 1 1, .reshape [-1]],
   .ok (mx_conv1d_length input_len weight_len 1 padding 1))

/-- The function `core_convolve(a, v, mode = nil)`. The first component lists,
in order, the engine operations `slice`, `reshape`, `pad`, `conv1d` invoked
before the call returned or raised; the second is the exception raised or the
length of the returned array. The conversions `array_from_ruby` of the two
inputs are not listed. -/
def core_convolve {D F E : Type} (N : Numerics D F E) (argv : List (RValue D E)) :
    List EngineOp × Except Raised Int :=
  match rb_scan_args 2 1 argv with
  | .error e => ([], try_catch (.error e))
  | .ok args =>
    match (if NIL_P (scanned args 2) then .ok "full" else StringValueCStr (scanned args 2)) with
    | .error e => ([], try_catch (.error e))
    | .ok mode_v =>
      match array_from_ruby N (scanned args 0) none with
      | .error e => ([], try_catch (.error e))
      | .ok lhs =>
        match array_from_ruby N (scanned args 1) none with
        | .error e => ([], try_catch (.error e))
        | .ok rhs =>
          if lhs.ndim ≠ 1 ∨ rhs.ndim ≠ 1 then
            ([], rb_raise .ArgumentError "convolve inputs must be 1D")
          else if lhs.size = 0 ∨ rhs.size = 0 then
            ([], rb_raise .ArgumentError "convolve inputs cannot be empty")
          else
            let input := if lhs.size < rhs.size then rhs else lhs
            let wt := if lhs.size < rhs.size then lhs else rhs
            let wt_size : Int := wt.shape.headD 0
            let ops : List EngineOp :=
              [.slice [wt_size - 1] [-wt_size - 1] [-1], .reshape [1, -1, 1],
               .reshape [1, -1, 1]]
            let input_len : Int := (input.size : Int)
            let weight_len : Int := (wt.size : Int)
            if mode_v = "full" then
              convolve_finish ops input_len weight_len (weight_len - 1)
            else if mode_v = "valid" then
              convolve_finish ops input_len weight_len 0
            else if mode_v = "same" then
              if wt.size % 2 ≠ 0 then
                convolve_finish ops input_len weight_len ((wt.size / 2 : Nat) : Int)
              else
                let pad_l : Int := ((wt.size / 2 : Nat) : Int)
                let pad_r : Int := max 0 (pad_l - 1)
                convolve_finish (ops ++ [.pad pad_l pad_r]) (input_len + pad_l + pad_r)
                  weight_len 0
            else
              (ops, rb_raise .ArgumentError "convolve mode must be one of: full, valid, same")

/-! ## Reductions -/

/-- The reduction operations of the dispatch table. -/
inductive ReduceOp where
  | sum | mean | prod | max | min | all | any | var | std | median | logsumexp
  | argmax | argmin
  deriving DecidableEq, Repr

/-- The axis argument of an engine reduction: the overload without axis, with
one `int` axis, or with a `std::vector<int>` of axes. -/
inductive AxisArg where
  | all
  | one (axis : Int)
  | many (axes : List Int)
  deriving DecidableEq, Repr

/-- The engine reduction call an entry point makes. -/
structure ReduceCall (E : Type) where
  op : ReduceOp
  a : MxArray E
  axes : AxisArg
  keepdims : Bool
  ddof : Int

/-- The value `NIL_P(keepdims) ? false : RTEST(keepdims)`. -/
def keepdims_value {D E : Type} (keepdims : RValue D E) : Bool :=
  if NIL_P keepdims then false else RTEST keepdims

/-- The common body of `core_sum` and `core_mean`: format `"11"`, the axis
converted with `NUM2INT` without a type test. -/
def reduce_single_axis {D F E : Type} (N : Numerics D F E) (op : ReduceOp)
    (argv : List (RValue D E)) : Except Raised (ReduceCall E) :=
  try_catch <|
    match rb_scan_args 1 1 argv with
    | .error e => .error e
    | .ok args =>
      match array_unwrap (scanned args 0) with
      | .error e => .error e
      | .ok a =>
        if NIL_P (scanned args 1) then .ok ⟨op, a, .all, false, 0⟩
        else
          match NUM2INT_value N (scanned args 1) with
          | .error e => .error e
          | .ok axis => .ok ⟨op, a, .one axis, false, 0⟩

/-- The axis dispatch shared by the reductions that take an Integer or an
Array of Integers. -/
def axis_int_or_list {D E : Type} (axis : RValue D E) : Except Raised AxisArg :=
  match axis with
  | .nil => .ok .all
  | .int n =>
    match NUM2INT n with
    | .ok v => .ok (.one v)
    | .error e => .error e
  | v =>
    match int_vector_from_ruby v with
    | .ok axes => .ok (.many axes)
    | .error e => .error e

/-- The common body of `core_all`, `core_any`, `core_max`, `core_min`,
`core_prod`, `core_median` and `core_logsumexp`: format `"12"`. -/
def reduce_int_or_list {D E : Type} (op : ReduceOp) (argv : List (RValue D E)) :
    Except Raised (ReduceCall E) :=
  try_catch <|
    match rb_scan_args 1 2 argv with
    | .error e => .error e
    | .ok args =>
      let keepdims_v := keepdims_value (scanned args 2)
      match array_unwrap (scanned args 0) with
      | .error e => .error e
      | .ok a =>
        match axis_int_or_list (scanned args 1) with
        | .error e => .error e
        | .ok axes => .ok ⟨op, a, axes, keepdims_v, 0⟩

/-- The common body of `core_var` and `core_std`: format `"13"` with `ddof`. -/
def reduce_with_ddof {D F E : Type} (N : Numerics D F E) (op : ReduceOp)
    (argv : List (RValue D E)) : Except Raised (ReduceCall E) :=
  try_catch <|
    match rb_scan_args 1 3 argv with
    | .error e => .error e
    | .ok args =>
      let keepdims_v := keepdims_value (scanned args 2)
      match (if NIL_P (scanned args 3) then .ok 0 else NUM2INT_value N (scanned args 3)) with
      | .error e => .error e
      | .ok ddof_v =>
        match array_unwrap (scanned args 0) with
        | .error e => .error e
        | .ok a =>
          match axis_int_or_list (scanned args 1) with
          | .error e => .error e
          | .ok axes => .ok ⟨op, a, axes, keepdims_v, ddof_v⟩

/-- The common body of `core_argmax` and `core_argmin`: format `"12"`, an axis
that is not an Integer is refused. -/
def reduce_int_only {D E : Type} (op : ReduceOp) (msg : String) (argv : List (RValue D E)) :
    Except Raised (ReduceCall E) :=
  try_catch <|
    match rb_scan_args 1 2 argv with
    | .error e => .error e
    | .ok args =>
      let keepdims_v := keepdims_value (scanned args 2)
      match array_unwrap (scanned args 0) with
      | .error e => .error e
      | .ok a =>
        match scanned args 1 with
        | .nil => .ok ⟨op, a, .all, keepdims_v, 0⟩
        | .int n =>
          match NUM2INT n with
          | .ok v => .ok ⟨op, a, .one v, keepdims_v, 0⟩
          | .error e => .error e
        | _ => rb_raise .TypeError msg

/-- The function `core_sum`. -/
def core_sum {D F E : Type} (N : Numerics D F E) (argv : List (RValue D E)) :
    Except Raised (ReduceCall E) := reduce_single_axis N .sum argv

/-- The function `core_mean`. -/
def core_mean {D F E : Type} (N : Numerics D F E) (argv : List (RValue D E)) :
    Except Raised (ReduceCall E) := reduce_single_axis N .mean argv

/-- The function `core_all`. -/
def core_all {D E : Type} (argv : List (RValue D E)) : Except Raised (ReduceCall E) :=
  reduce_int_or_list .all argv

/-- The function `core_any`. -/
def core_any {D E : Type} (argv : List (RValue D E)) : Except Raised (ReduceCall E) :=
  reduce_int_or_list .any argv

/-- The function `core_max`. -/
def core_max {D E : Type} (argv : List (RValue D E)) : Except Raised (ReduceCall E) :=
  reduce_int_or_list .max argv

/-- The function `core_min`. -/
def core_min {D E : Type} (argv : List (RValue D E)) : Except Raised (ReduceCall E) :=
  reduce_int_or_list .min argv

/-- The function `core_prod`. -/
def core_prod {D E : Type} (argv : List (RValue D E)) : Except Raised (ReduceCall E) :=
  reduce_int_or_list .prod argv

/-- The function `core_median`. -/
def core_median {D E : Type} (argv : List (RValue D E)) : Except Raised (ReduceCall E) :=
  reduce_int_or_list .median argv

/-- The function `core_logsumexp`. -/
def core_logsumexp {D E : Type} (argv : List (RValue D E)) : Except Raised (ReduceCall E) :=
  reduce_int_or_list .logsumexp argv

/-- The function `core_var`. -/
def core_var {D F E : Type} (N : Numerics D F E) (argv : List (RValue D E)) :
    Except Raised (ReduceCall E) := reduce_with_ddof N .var argv

/-- The function `core_std`. -/
def core_std {D F E : Type} (N : Numerics D F E) (argv : List (RValue D E)) :
    Except Raised (ReduceCall E) := reduce_with_ddof N .std argv

/-- The function `core_argmax`. -/
def core_argmax {D E : Type} (argv : List (RValue D E)) : Except Raised (ReduceCall E) :=
  reduce_int_only .argmax "axis must be an integer for argmax" argv

/-- The function `core_argmin`. -/
def core_argmin {D E : Type} (argv : List (RValue D E)) : Except Raised (ReduceCall E) :=
  reduce_int_only .argmin "axis must be an integer for argmin" argv

/-- The dispatch table restricted to the reductions: the entry point
registered for each operation name. -/
def core_reduce {D F E : Type} (N : Numerics D F E) :
    ReduceOp → List (RValue D E) → Except Raised (ReduceCall E)
  | .sum => core_sum N
  | .mean => core_mean N
  | .prod => core_prod
  | .max => core_max
  | .min => core_min
  | .all => core_all
  | .any => core_any
  | .var => core_var N
  | .std => core_std N
  | .median => core_median
  | .logsumexp => core_logsumexp
  | .argmax => core_argmax
  | .argmin => core_argmin

/-! ## Results made of several arrays -/

/-- The function `ruby_array_of_arrays(arrays)`. -/
def ruby_array_of_arrays {D E : Type} (arrays : List (MxArray E)) : RValue D E :=
  .ary (arrays.map array_wrap)

/-- The function `ruby_from_array_vector_auto(arrays)`: the bare array when
`arrays.size() == 1`, else the host array of all of them. -/
def ruby_from_array_vector_auto {D E : Type} (arrays : List (MxArray E)) : RValue D E :=
  match arrays with
  | [a] => array_wrap a
  | _ => ruby_array_of_arrays arrays

/-- The function `stream_or_device_from_value(value)`. -/
def stream_or_device_from_value {D E : Type} : RValue D E → Except Raised StreamOrDevice
  | .nil => .ok .default
  | .stream s => .ok (.stream s)
  | v =>
    match device_from_object_or_type v with
    | .ok d => .ok (.device d)
    | .error e => .error e

/-- The optional axis of `core_split`: absent when `nil`, else `NUM2INT`. -/
def optional_axis {D F E : Type} (N : Numerics D F E) (axis : RValue D E) :
    Except Raised (Option Int) :=
  if NIL_P axis then .ok none
  else
    match NUM2INT_value N axis with
    | .ok v => .ok (some v)
    | .error e => .error e

/-- The body of `core_split` up to the return of `mx::split`: the arrays the
engine produced. -/
def core_split_outputs {D F E : Type} (N : Numerics D F E) (eng : Engine E)
    (argv : List (RValue D E)) : Except Raised (List (MxArray E)) :=
  match rb_scan_args 2 1 argv with
  | .error e => .error e
  | .ok args =>
    match array_unwrap (scanned args 0) with
    | .error e => .error e
    | .ok a =>
      match scanned args 1 with
      | .int p =>
        match NUM2INT p with
        | .error e => .error e
        | .ok parts =>
          match optional_axis N (scanned args 2) with
          | .error e => .error e
          | .ok axis => engine_call (eng.split_parts a parts axis)
      | split_spec =>
        match shape_from_ruby split_spec with
        | .error e => .error e
        | .ok indices =>
          match optional_axis N (scanned args 2) with
          | .error e => .error e
          | .ok axis => engine_call (eng.split_indices a indices axis)

/-- The function `core_split`. -/
def core_split {D F E : Type} (N : Numerics D F E) (eng : Engine E)
    (argv : List (RValue D E)) : Except Raised (RValue D E) :=
  try_catch <|
    match core_split_outputs N eng argv with
    | .error e => .error e
    | .ok outs => .ok (ruby_array_of_arrays outs)

/-- An optional `int` argument of `core_quantize` at position `i`: absent when
the argument is missing or `nil`. -/
def optional_int_arg {D F E : Type} (N : Numerics D F E) (argv : List (RValue D E)) (i : Nat) :
    Except Raised (Option Int) :=
  if i < argv.length ∧ !NIL_P (argv.getD i .nil) then
    match NUM2INT_value N (argv.getD i .nil) with
    | .ok v => .ok (some v)
    | .error e => .error e
  else .ok none

/-- The body of `core_quantize` up to the return of `mx::quantize`. -/
def core_quantize_outputs {D F E : Type} (N : Numerics D F E) (eng : Engine E)
    (argv : List (RValue D E)) : Except Raised (List (MxArray E)) :=
  if argv.length < 1 ∨ argv.length > 4 then
    rb_raise .ArgumentError "quantize expects 1 to 4 arguments"
  else
    match array_from_ruby N (argv.getD 0 .nil) none with
    | .error e => .error e
    | .ok w =>
      match optional_int_arg N argv 1 with
      | .error e => .error e
      | .ok group_size =>
        match optional_int_arg N argv 2 with
        | .error e => .error e
        | .ok bits =>
          match (if 3 < argv.length ∧ !NIL_P (argv.getD 3 .nil)
                 then StringValueCStr (argv.getD 3 .nil) else .ok "affine") with
          | .error e => .error e
          | .ok mode => engine_call (eng.quantize w group_size bits mode)

/-- The function `core_quantize`. -/
def core_quantize {D F E : Type} (N : Numerics D F E) (eng : Engine E)
    (argv : List (RValue D E)) : Except Raised (RValue D E) :=
  try_catch <|
    match core_quantize_outputs N eng argv with
    | .error e => .error e
    | .ok outs => .ok (ruby_array_of_arrays outs)

/-- The body of `core_qr` up to the return of `mlx::core::linalg::qr`. -/
def core_qr_outputs {D F E : Type} (N : Numerics D F E) (eng : Engine E)
    (argv : List (RValue D E)) : Except Raised (MxArray E × MxArray E) :=
  match rb_scan_args 1 1 argv with
  | .error e => .error e
  | .ok args =>
    match stream_or_device_from_value (scanned args 1) with
    | .error e => .error e
    | .ok stream_v =>
      match array_from_ruby N (scanned args 0) none with
      | .error e => .error e
      | .ok a => engine_call (eng.qr a stream_v)

/-- The function `core_qr`. -/
def core_qr {D F E : Type} (N : Numerics D F E) (eng : Engine E)
    (argv : List (RValue D E)) : Except Raised (RValue D E) :=
  try_catch <|
    match core_qr_outputs N eng argv with
    | .error e => .error e
    | .ok result => .ok (.ary [array_wrap result.1, array_wrap result.2])

/-- The body of `core_svd` up to the return of `mlx::core::linalg::svd`. -/
def core_svd_outputs {D F E : Type} (N : Numerics D F E) (eng : Engine E)
    (argv : List (RValue D E)) : Except Raised (List (MxArray E)) :=
  match rb_scan_args 1 2 argv with
  | .error e => .error e
  | .ok args =>
    let compute_uv_v := if NIL_P (scanned args 1) then true else RTEST (scanned args 1)
    match stream_or_device_from_value (scanned args 2) with
    | .error e => .error e
    | .ok stream_v =>
      match array_from_ruby N (scanned args 0) none with
      | .error e => .error e
      | .ok a => engine_call (eng.svd a compute_uv_v stream_v)

/-- The function `core_svd`. -/
def core_svd {D F E : Type} (N : Numerics D F E) (eng : Engine E)
    (argv : List (RValue D E)) : Except Raised (RValue D E) :=
  try_catch <|
    match core_svd_outputs N eng argv with
    | .error e => .error e
    | .ok result =>
      match result with
      | [a] => .ok (array_wrap a)
      | _ => .ok (ruby_array_of_arrays result)

/-! ## Function handles -/

/-- The keyword arguments `mx::Kwargs`, a map from names to arrays. -/
abbrev Kwargs (E : Type) := String → Option (MxArray E)

/-- The struct `FunctionWrapper`: the three callables (`none` is an empty
`std::function`) and the flags. The keep-alive list `refs` takes no part in a
call and is left out. -/
structure FunctionWrapper (E : Type) where
  vector_fn : Option (List (MxArray E) → Except String (List (MxArray E)))
  args_kwargs_fn : Option (List (MxArray E) → Kwargs E → Except String (List (MxArray E)))
  value_grad_fn :
    Option (List (MxArray E) → Except String (List (MxArray E) × List (MxArray E)))
  accepts_args_kwargs : Bool
  returns_value_and_grad : Bool
  always_array_output : Bool
  release_gvl : Bool

/-- The call of a `std::function`: an empty one throws
`std::bad_function_call`. -/
def call_std_function {α β : Type} (fn : Option (α → Except String β)) (x : α) :
    Except Raised β :=
  match fn with
  | some f => engine_call (f x)
  | none => .error (.cpp "bad_function_call")

/-- The call of the `std::function` `args_kwargs_fn` on positional and keyword
arguments. -/
def call_args_kwargs_fn {E : Type}
    (fn : Option (List (MxArray E) → Kwargs E → Except String (List (MxArray E))))
    (args : List (MxArray E)) (kwargs : Kwargs E) : Except Raised (List (MxArray E)) :=
  match fn with
  | some f => engine_call (f args kwargs)
  | none => .error (.cpp "bad_function_call")

/-- The host function `rb_thread_call_without_gvl` followed by
`rethrow_captured_exception`: the computation runs with the lock released, an
exception it throws is captured and thrown again after the lock is taken
back. The outcome is that of the computation. -/
def call_without_gvl {β : Type} (r : Except Raised β) : Except Raised β := r

/-- The function `string_from_ruby(value)`; `to_s` is the host method
`to_s` on values that are neither String nor Symbol. -/
def string_from_ruby {D E : Type} (to_s : RValue D E → String) (value : RValue D E) :
    Except Raised String :=
  let text := match value with
    | .str s => s
    | .sym s => s
    | v => to_s v
  if has_null_byte text then rb_raise .ArgumentError "string contains null byte"
  else .ok text

/-- The iteration of `hash_to_array_map_iter` over the entries of a hash,
`insert_or_assign` into the map built so far. -/
def array_map_entries {D E : Type} (to_s : RValue D E → String) :
    List (RValue D E × RValue D E) → Kwargs E → Except Raised (Kwargs E)
  | [], m => .ok m
  | (key, value) :: rest, m =>
    match string_from_ruby to_s key with
    | .error e => .error e
    | .ok k =>
      match array_unwrap value with
      | .error e => .error e
      | .ok a => array_map_entries to_s rest (fun name => if name = k then some a else m name)

/-- The function `array_map_from_ruby_hash(value)`. -/
def array_map_from_ruby_hash {D E : Type} (to_s : RValue D E → String) :
    RValue D E → Except Raised (Kwargs E)
  | .hash kvs => array_map_entries to_s kvs (fun _ => none)
  | _ => rb_raise .TypeError "expected Hash mapping String/Symbol keys to MLX::Core::Array"

/-- The loop `for (int i = 0; i < n; ++i) out.push_back(array_from_ruby(argv[i]))`. -/
def arrays_from_args {D F E : Type} (N : Numerics D F E) :
    List (RValue D E) → Except Raised (List (MxArray E))
  | [] => .ok []
  | x :: rest =>
    match array_from_ruby N x none with
    | .error e => .error e
    | .ok a =>
      match arrays_from_args N rest with
      | .ok out => .ok (a :: out)
      | .error e => .error e

/-- The test `RB_TYPE_P(value, T_HASH)`. -/
def is_hash {D E : Type} : RValue D E → Bool
  | .hash _ => true
  | _ => false

/-- The argument parsing of `function_call` for a handle that accepts
positional and keyword arguments: a trailing hash is the keyword map. -/
def function_call_args_kwargs {D F E : Type} (N : Numerics D F E)
    (to_s : RValue D E → String) (argv : List (RValue D E)) :
    Except Raised (List (MxArray E) × Kwargs E) :=
  let trailing := argv.getLast?.getD .nil
  let has_kwargs := decide (0 < argv.length) && is_hash trailing
  let positional := if has_kwargs then argv.dropLast else argv
  let kwargs_hash : RValue D E := if has_kwargs then trailing else .nil
  match arrays_from_args N positional with
  | .error e => .error e
  | .ok args =>
    match (if NIL_P kwargs_hash then .ok (fun _ => none)
           else array_map_from_ruby_hash to_s kwargs_hash) with
    | .error e => .error e
    | .ok kwargs => .ok (args, kwargs)

/-- The method `Function#call` (`function_call`). -/
def function_call {D F E : Type} (N : Numerics D F E) (to_s : RValue D E → String)
    (wrapper : FunctionWrapper E) (argv : List (RValue D E)) : Except Raised (RValue D E) :=
  try_catch <|
    if wrapper.accepts_args_kwargs then
      match function_call_args_kwargs N to_s argv with
      | .error e => .error e
      | .ok (args, kwargs) =>
        match (if wrapper.release_gvl then
                 call_without_gvl (call_args_kwargs_fn wrapper.args_kwargs_fn args kwargs)
               else call_args_kwargs_fn wrapper.args_kwargs_fn args kwargs) with
        | .error e => .error e
        | .ok outputs =>
          if wrapper.always_array_output then .ok (ruby_array_of_arrays outputs)
          else .ok (ruby_from_array_vector_auto outputs)
    else
      match arrays_from_args N argv with
      | .error e => .error e
      | .ok inputs =>
        if wrapper.returns_value_and_grad then
          match (if wrapper.release_gvl then
                   call_without_gvl (call_std_function wrapper.value_grad_fn inputs)
                 else call_std_function wrapper.value_grad_fn inputs) with
          | .error e => .error e
          | .ok result =>
            .ok (.ary [ruby_from_array_vector_auto result.1,
                       ruby_from_array_vector_auto result.2])
        else
          match (if wrapper.release_gvl then
                   call_without_gvl (call_std_function wrapper.vector_fn inputs)
                 else call_std_function wrapper.vector_fn inputs) with
          | .error e => .error e
          | .ok outputs => .ok (ruby_from_array_vector_auto outputs)

/-- The host result the auto-unwrap rule prescribes for `k` output arrays: the
bare array for `k = 1`, the sequence of all of them in order otherwise. -/
def unwrap_rule {D E : Type} (outs : List (MxArray E)) : RValue D E :=
  if h : outs.length = 1 then .array (outs.get ⟨0, by omega⟩)
  else .ary (outs.map .array)

/-! ## A sample engine -/

/-- An engine instance for concrete evaluation. Element-wise operations
require equal shapes and throw otherwise; `split` into `parts` pieces returns
that many arrays; `quantize` returns the packed weights, scales and biases;
`qr` returns two factors; `svd` returns `U`, `S`, `Vt`, or `S` alone when
`compute_uv` is false; the values of those arrays are immaterial. As in the
engine, `reshape` keeps the dtype and the row-major data, takes the shape
`(-1)` as the element count, and throws when the target shape has a negative
dimension or another element count than the array. -/
def sample_engine : Engine Int where
  add := fun a b =>
    if a.shape = b.shape then .ok ⟨a.shape, a.dtype, List.zipWith (· + ·) a.data b.data⟩
    else .error "Shapes cannot be broadcast"
  subtract := fun a b =>
    if a.shape = b.shape then .ok ⟨a.shape, a.dtype, List.zipWith (· - ·) a.data b.data⟩
    else .error "Shapes cannot be broadcast"
  multiply := fun a b =>
    if a.shape = b.shape then .ok ⟨a.shape, a.dtype, List.zipWith (· * ·) a.data b.data⟩
    else .error "Shapes cannot be broadcast"
  divide := fun a b =>
    if a.shape = b.shape then .ok ⟨a.shape, a.dtype, List.zipWith (· / ·) a.data b.data⟩
    else .error "Shapes cannot be broadcast"
  split_parts := fun a parts _ => .ok (List.replicate parts.toNat a)
  split_indices := fun a indices _ => .ok (List.replicate (indices.length + 1) a)
  quantize := fun w _ _ _ => .ok [w, w, w]
  qr := fun a _ => .ok (a, a)
  svd := fun a compute_uv _ => if compute_uv then .ok [a, a, a] else .ok [a]
  reshape := fun a shape =>
    if shape = [-1] then .ok ⟨[(a.size : Int)], a.dtype, a.data⟩
    else if shape.all (fun d => decide (0 ≤ d)) ∧ shape_size shape = a.size then
      .ok ⟨shape, a.dtype, a.data⟩
    else .error "[reshape] Cannot reshape array into the given shape"

/-! ## Dtype and category tags -/

/-- The function `dtype_from_symbol(symbol)`; a symbol is compared by name
with the fourteen cached ids. -/
def dtype_from_symbol {D E : Type} : RValue D E → Except Raised Dtype
  | .sym s =>
    if s = "bool_" then .ok .bool_
    else if s = "uint8" then .ok .uint8
    else if s = "uint16" then .ok .uint16
    else if s = "uint32" then .ok .uint32
    else if s = "uint64" then .ok .uint64
    else if s = "int8" then .ok .int8
    else if s = "int16" then .ok .int16
    else if s = "int32" then .ok .int32
    else if s = "int64" then .ok .int64
    else if s = "float16" then .ok .float16
    else if s = "float32" then .ok .float32
    else if s = "float64" then .ok .float64
    else if s = "bfloat16" then .ok .bfloat16
    else if s = "complex64" then .ok .complex64
    else rb_raise .ArgumentError "unsupported dtype symbol"
  | _ => rb_raise .ArgumentError "unsupported dtype symbol"

/-- The function `symbol_is_dtype(symbol)`. -/
def symbol_is_dtype {D E : Type} : RValue D E → Bool
  | .sym s =>
    s = "bool_" || s = "uint8" || s = "uint16" || s = "uint32" || s = "uint64" ||
    s = "int8" || s = "int16" || s = "int32" || s = "int64" || s = "float16" ||
    s = "float32" || s = "float64" || s = "bfloat16" || s = "complex64"
  | _ => false

/-- The step `if (RB_TYPE_P(value, T_STRING)) symbol = rb_str_intern(value)`:
a String is replaced by the Symbol of the same name. -/
def intern_if_string {D E : Type} : RValue D E → RValue D E
  | .str s => .sym s
  | v => v

/-- The test `SYMBOL_P(value)`. -/
def SYMBOL_P {D E : Type} : RValue D E → Bool
  | .sym _ => true
  | _ => false

/-- The function `value_looks_like_dtype(value)`. -/
def value_looks_like_dtype {D E : Type} (value : RValue D E) : Bool :=
  match value with
  | .dtype _ => true
  | v => symbol_is_dtype (intern_if_string v)

/-- The function `optional_dtype_from_value(value)`. -/
def optional_dtype_from_value {D E : Type} (value : RValue D E) :
    Except Raised (Option Dtype) :=
  match value with
  | .nil => .ok none
  | .dtype d => .ok (some d)
  | v =>
    if SYMBOL_P (intern_if_string v) then
      match dtype_from_symbol (intern_if_string v) with
      | .ok d => .ok (some d)
      | .error e => .error e
    else rb_raise .ArgumentError "dtype must be nil, MLX::Core::Dtype, symbol, or string"

/-- The dtype categories (`mx::Dtype::Category`). -/
inductive Category where
  | complexfloating | floating | inexact | signedinteger | unsignedinteger
  | integer | number | generic
  deriving DecidableEq, Repr

/-- The function `category_from_symbol(symbol)`. -/
def category_from_symbol {D E : Type} : RValue D E → Except Raised Category
  | .sym s =>
    if s = "complexfloating" then .ok .complexfloating
    else if s = "floating" then .ok .floating
    else if s = "inexact" then .ok .inexact
    else if s = "signedinteger" then .ok .signedinteger
    else if s = "unsignedinteger" then .ok .unsignedinteger
    else if s = "integer" then .ok .integer
    else if s = "number" then .ok .number
    else if s = "generic" then .ok .generic
    else rb_raise .ArgumentError "unsupported dtype category symbol"
  | _ => rb_raise .ArgumentError "unsupported dtype category symbol"

/-- The variant `DtypeOrCategory`. -/
inductive DtypeOrCategory where
  | dtype (d : Dtype)
  | category (c : Category)
  deriving DecidableEq, Repr

/-- The function `dtype_or_category_from_value(value)`. -/
def dtype_or_category_from_value {D E : Type} (value : RValue D E) :
    Except Raised DtypeOrCategory :=
  match value with
  | .dtype d => .ok (.dtype d)
  | v =>
    if !SYMBOL_P (intern_if_string v) then
      rb_raise .ArgumentError "expected dtype or dtype category symbol"
    else if symbol_is_dtype (intern_if_string v) then
      match dtype_from_symbol (intern_if_string v) with
      | .ok d => .ok (.dtype d)
      | .error e => .error e
    else
      match category_from_symbol (intern_if_string v) with
      | .ok c => .ok (.category c)
      | .error e => .error e

/-- The fourteen dtype tags with the dtype each names. -/
def dtype_tags : List (String × Dtype) :=
  [("bool_", .bool_), ("uint8", .uint8), ("uint16", .uint16), ("uint32", .uint32),
   ("uint64", .uint64), ("int8", .int8), ("int16", .int16), ("int32", .int32),
   ("int64", .int64), ("float16", .float16), ("float32", .float32),
   ("float64", .float64), ("bfloat16", .bfloat16), ("complex64", .complex64)]

/-- The eight category tags with the category each names. -/
def category_tags : List (String × Category) :=
  [("complexfloating", .complexfloating), ("floating", .floating), ("inexact", .inexact),
   ("signedinteger", .signedinteger), ("unsignedinteger", .unsignedinteger),
   ("integer", .integer), ("number", .number), ("generic", .generic)]

/-! ## Scalar extraction -/

/-- The method `Array#item` (`array_item`). -/
def array_item {D F E : Type} (N : Numerics D F E) (self : MxArray E) :
    Except Raised (RValue D E) :=
  if self.size ≠ 1 then rb_raise .RuntimeError "item is only available for size-1 arrays"
  else ruby_scalar_from_array N self

/-- The dtype is one of the eight integer dtypes. -/
def is_integer_dtype : Dtype → Bool
  | .uint8 | .uint16 | .uint32 | .uint64 | .int8 | .int16 | .int32 | .int64 => true
  | _ => false

/-- The dtype is one of the four real floating dtypes. -/
def is_float_dtype : Dtype → Bool
  | .float16 | .float32 | .float64 | .bfloat16 => true
  | _ => false

/-! ## Shape, slice and stride arguments -/

/-- The loop of `strides_from_ruby(value)` over the entries. -/
def strides_entries {D E : Type} : List (RValue D E) → Except Raised (List Int)
  | [] => .ok []
  | .int n :: rest =>
    match NUM2LL n with
    | .error e => .error e
    | .ok v =>
      match strides_entries rest with
      | .ok out => .ok (v :: out)
      | .error e => .error e
  | _ :: _ => rb_raise .TypeError "array entries must be integers"

/-- The function `strides_from_ruby(value)`. -/
def strides_from_ruby {D E : Type} : RValue D E → Except Raised (List Int)
  | .ary xs => strides_entries xs
  | _ => rb_raise .TypeError "expected Array of integers"

/-- The arguments of the engine call `mx::reshape(a, shape)`. -/
structure ReshapeCall (E : Type) where
  a : MxArray E
  shape : List Int
  deriving DecidableEq, Repr

/-- The function `core_reshape(array, shape)`, up to the arguments handed to
the engine. The two argument expressions of the engine call are evaluated here
in the order written. -/
def core_reshape {D E : Type} (array shape : RValue D E) : Except Raised (ReshapeCall E) :=
  try_catch <|
    match array_unwrap array with
    | .error e => .error e
    | .ok a =>
      match shape_from_ruby shape with
      | .error e => .error e
      | .ok sh => .ok ⟨a, sh⟩

/-- The arguments of the engine call `mx::slice(a, start, stop)` (`strides` is
`none`) or `mx::slice(a, start, stop, strides)`. -/
structure SliceCall (E : Type) where
  a : MxArray E
  start : List Int
  stop : List Int
  strides : Option (List Int)
  deriving DecidableEq, Repr

/-- The function `core_slice(array, start, stop, strides = nil)`, up to the
arguments handed to the engine. -/
def core_slice {D E : Type} (argv : List (RValue D E)) : Except Raised (SliceCall E) :=
  try_catch <|
    match rb_scan_args 3 1 argv with
    | .error e => .error e
    | .ok args =>
      match array_unwrap (scanned args 0) with
      | .error e => .error e
      | .ok a =>
        match shape_from_ruby (scanned args 1) with
        | .error e => .error e
        | .ok start_shape =>
          match shape_from_ruby (scanned args 2) with
          | .error e => .error e
          | .ok stop_shape =>
            if NIL_P (scanned args 3) then .ok ⟨a, start_shape, stop_shape, none⟩
            else
              match shape_from_ruby (scanned args 3) with
              | .error e => .error e
              | .ok stride_shape => .ok ⟨a, start_shape, stop_shape, some stride_shape⟩

/-- The arguments of the engine call `mx::slice_update(src, update, start,
stop)` (`strides` is `none`) or the same with `strides`. -/
structure SliceUpdateCall (E : Type) where
  src : MxArray E
  update : MxArray E
  start : List Int
  stop : List Int
  strides : Option (List Int)
  deriving DecidableEq, Repr

/-- The function `core_slice_update(src, update, start, stop, strides = nil)`,
up to the arguments handed to the engine. -/
def core_slice_update {D E : Type} (argv : List (RValue D E)) :
    Except Raised (SliceUpdateCall E) :=
  try_catch <|
    match rb_scan_args 4 1 argv with
    | .error e => .error e
    | .ok args =>
      match array_unwrap (scanned args 0) with
      | .error e => .error e
      | .ok src_a =>
        match array_unwrap (scanned args 1) with
        | .error e => .error e
        | .ok update_a =>
          match shape_from_ruby (scanned args 2) with
          | .error e => .error e
          | .ok start_shape =>
            match shape_from_ruby (scanned args 3) with
            | .error e => .error e
            | .ok stop_shape =>
              if NIL_P (scanned args 4) then
                .ok ⟨src_a, update_a, start_shape, stop_shape, none⟩
              else
                match shape_from_ruby (scanned args 4) with
                | .error e => .error e
                | .ok stride_shape =>
                  .ok ⟨src_a, update_a, start_shape, stop_shape, some stride_shape⟩

/-- The conversion `NUM2ULL(value)` followed by `static_cast<size_t>`: an
Integer from `-2^63` up to `2^64 - 1` is reduced modulo `2^64`, an Integer
outside that range raises `RangeError`; `dbl_to_ull` is the host conversion of
a Float; a value without an integer conversion raises `TypeError`. -/
def NUM2ULL {D E : Type} (dbl_to_ull : D → Except Raised Nat) : RValue D E → Except Raised Nat
  | .int n =>
    if -(2 : Int) ^ 63 ≤ n ∧ n < (2 : Int) ^ 64 then .ok (n % (2 : Int) ^ 64).toNat
    else rb_raise .RangeError "integer out of range of unsigned long long"
  | .float x => dbl_to_ull x
  | _ => rb_raise .TypeError "no implicit conversion into Integer"

/-- The arguments of the engine call `mx::as_strided(a, shape, strides,
offset)`. -/
structure AsStridedCall (E : Type) where
  a : MxArray E
  shape : List Int
  strides : List Int
  offset : Nat
  deriving DecidableEq, Repr

/-- The function `core_as_strided(array, shape, strides, offset = nil)`, up to
the arguments handed to the engine. The offset is converted first; the three
argument expressions of the engine call are evaluated here in the order
written. -/
def core_as_strided {D E : Type} (dbl_to_ull : D → Except Raised Nat)
    (argv : List (RValue D E)) : Except Raised (AsStridedCall E) :=
  try_catch <|
    match rb_scan_args 3 1 argv with
    | .error e => .error e
    | .ok args =>
      match (if NIL_P (scanned args 3) then .ok 0 else NUM2ULL dbl_to_ull (scanned args 3)) with
      | .error e => .error e
      | .ok offset_v =>
        match array_unwrap (scanned args 0) with
        | .error e => .error e
        | .ok a =>
          match shape_from_ruby (scanned args 1) with
          | .error e => .error e
          | .ok sh =>
            match strides_from_ruby (scanned args 2) with
            | .error e => .error e
            | .ok st => .ok ⟨a, sh, st, offset_v⟩

/-! ## Array factories with a dtype-or-positional slot -/

/-- The conversion `NUM2DBL(value)`: a Float is taken as it is, an Integer is
converted by the host (`num2dbl`), and a value that is neither (`nil`, a
boolean, a String, a Symbol, a sequence, a handle) raises `TypeError`. -/
def NUM2DBL {D E : Type} (num2dbl : Int → D) : RValue D E → Except Raised D
  | .int n => .ok (num2dbl n)
  | .float x => .ok x
  | _ => rb_raise .TypeError "can't convert into Float"

/-- The arguments of the engine call `mx::arange(start, stop, step, dtype)`. -/
structure ArangeCall (D : Type) where
  start : D
  stop : D
  step : D
  dtype : Dtype

/-- The function `core_arange(*args)`, up to the arguments handed to the
engine; `N.zero` and `N.one` are the doubles `0.0` and `1.0`. -/
def core_arange {D F E : Type} (N : Numerics D F E) (num2dbl : Int → D)
    (argv : List (RValue D E)) : Except Raised (ArangeCall D) :=
  try_catch <|
    match argv with
    | [a0] =>
      match NUM2DBL num2dbl a0 with
      | .error e => .error e
      | .ok stop => .ok ⟨N.zero, stop, N.one, .float32⟩
    | [a0, a1] =>
      if value_looks_like_dtype a1 then
        match NUM2DBL num2dbl a0 with
        | .error e => .error e
        | .ok stop =>
          match optional_dtype_from_value a1 with
          | .error e => .error e
          | .ok dtype => .ok ⟨N.zero, stop, N.one, dtype.getD .float32⟩
      else
        match NUM2DBL num2dbl a0 with
        | .error e => .error e
        | .ok start =>
          match NUM2DBL num2dbl a1 with
          | .error e => .error e
          | .ok stop => .ok ⟨start, stop, N.one, .float32⟩
    | [a0, a1, a2] =>
      if value_looks_like_dtype a2 then
        match NUM2DBL num2dbl a0 with
        | .error e => .error e
        | .ok start =>
          match NUM2DBL num2dbl a1 with
          | .error e => .error e
          | .ok stop =>
            match optional_dtype_from_value a2 with
            | .error e => .error e
            | .ok dtype => .ok ⟨start, stop, N.one, dtype.getD .float32⟩
      else
        match NUM2DBL num2dbl a0 with
        | .error e => .error e
        | .ok start =>
          match NUM2DBL num2dbl a1 with
          | .error e => .error e
          | .ok stop =>
            match NUM2DBL num2dbl a2 with
            | .error e => .error e
            | .ok step => .ok ⟨start, stop, step, .float32⟩
    | [a0, a1, a2, a3] =>
      match NUM2DBL num2dbl a0 with
      | .error e => .error e
      | .ok start =>
        match NUM2DBL num2dbl a1 with
        | .error e => .error e
        | .ok stop =>
          match NUM2DBL num2dbl a2 with
          | .error e => .error e
          | .ok step =>
            match optional_dtype_from_value a3 with
            | .error e => .error e
            | .ok dtype => .ok ⟨start, stop, step, dtype.getD .float32⟩
    | _ => rb_raise .ArgumentError "arange expects 1 to 4 arguments"

/-- The arguments of the engine call `mx::linspace(start, stop, num, dtype)`. -/
structure LinspaceCall (D : Type) where
  start : D
  stop : D
  num : Int
  dtype : Dtype

/-- The tail of `core_linspace` once `start` and `stop` are converted. -/
def linspace_finish {D F E : Type} (N : Numerics D F E) (start stop : D)
    (argv : List (RValue D E)) : Except Raised (LinspaceCall D) :=
  match argv with
  | [_, _, a2] =>
    if value_looks_like_dtype a2 then
      match optional_dtype_from_value a2 with
      | .error e => .error e
      | .ok dtype => .ok ⟨start, stop, 50, dtype.getD .float32⟩
    else
      match NUM2INT_value N a2 with
      | .error e => .error e
      | .ok num => .ok ⟨start, stop, num, .float32⟩
  | [_, _, a2, a3] =>
    match NUM2INT_value N a2 with
    | .error e => .error e
    | .ok num =>
      match optional_dtype_from_value a3 with
      | .error e => .error e
      | .ok dtype => .ok ⟨start, stop, num, dtype.getD .float32⟩
  | _ => .ok ⟨start, stop, 50, .float32⟩

/-- The function `core_linspace(*args)`, up to the arguments handed to the
engine. -/
def core_linspace {D F E : Type} (N : Numerics D F E) (num2dbl : Int → D)
    (argv : List (RValue D E)) : Except Raised (LinspaceCall D) :=
  try_catch <|
    if argv.length < 2 ∨ argv.length > 4 then
      rb_raise .ArgumentError "linspace expects 2 to 4 arguments"
    else
      match NUM2DBL num2dbl (argv.getD 0 .nil) with
      | .error e => .error e
      | .ok start =>
        match NUM2DBL num2dbl (argv.getD 1 .nil) with
        | .error e => .error e
        | .ok stop => linspace_finish N start stop argv

/-- The arguments `(n, m, k, dtype)` of the engine calls `mx::eye` and
`mx::tri`. -/
structure EyeCall where
  n : Int
  m : Int
  k : Int
  dtype : Dtype
  deriving DecidableEq, Repr

/-- The part of `core_eye` and of `core_tri` after the conversion of `n`: the
two functions have the same body up to the engine operation called. -/
def eye_finish {D F E : Type} (N : Numerics D F E) (n : Int) (argv : List (RValue D E)) :
    Except Raised EyeCall :=
  match argv with
  | [_, a1] =>
    if value_looks_like_dtype a1 then
      match optional_dtype_from_value a1 with
      | .error e => .error e
      | .ok dtype => .ok ⟨n, n, 0, dtype.getD .float32⟩
    else
      match NUM2INT_value N a1 with
      | .error e => .error e
      | .ok m => .ok ⟨n, m, 0, .float32⟩
  | [_, a1, a2] =>
    if value_looks_like_dtype a2 then
      match NUM2INT_value N a1 with
      | .error e => .error e
      | .ok m =>
        match optional_dtype_from_value a2 with
        | .error e => .error e
        | .ok dtype => .ok ⟨n, m, 0, dtype.getD .float32⟩
    else
      match NUM2INT_value N a1 with
      | .error e => .error e
      | .ok m =>
        match NUM2INT_value N a2 with
        | .error e => .error e
        | .ok k => .ok ⟨n, m, k, .float32⟩
  | [_, a1, a2, a3] =>
    match NUM2INT_value N a1 with
    | .error e => .error e
    | .ok m =>
      match NUM2INT_value N a2 with
      | .error e => .error e
      | .ok k =>
        match optional_dtype_from_value a3 with
        | .error e => .error e
        | .ok dtype => .ok ⟨n, m, k, dtype.getD .float32⟩
  | _ => .ok ⟨n, n, 0, .float32⟩

/-- The function `core_eye(*args)`, up to the arguments handed to `mx::eye`. -/
def core_eye {D F E : Type} (N : Numerics D F E) (argv : List (RValue D E)) :
    Except Raised EyeCall :=
  try_catch <|
    if argv.length < 1 ∨ argv.length > 4 then
      rb_raise .ArgumentError "eye expects 1 to 4 arguments"
    else
      match NUM2INT_value N (argv.getD 0 .nil) with
      | .error e => .error e
      | .ok n => eye_finish N n argv

/-- The function `core_tri(*args)`, up to the arguments handed to `mx::tri`. -/
def core_tri {D F E : Type} (N : Numerics D F E) (argv : List (RValue D E)) :
    Except Raised EyeCall :=
  try_catch <|
    if argv.length < 1 ∨ argv.length > 4 then
      rb_raise .ArgumentError "tri expects 1 to 4 arguments"
    else
      match NUM2INT_value N (argv.getD 0 .nil) with
      | .error e => .error e
      | .ok n => eye_finish N n argv

/-! ## Function exporters -/

/-- The loop behind `std::string::find_last_of(c)`: the index of the last
occurrence of `c` at or after position `i`, or the one found before. -/
def find_last_of_from (c : Char) : List Char → Nat → Option Nat → Option Nat
  | [], _, found => found
  | x :: rest, i, found => find_last_of_from c rest (i + 1) (if x = c then some i else found)

/-- The call `file.find_last_of(c)`; `none` is `std::string::npos`. -/
def find_last_of (file : String) (c : Char) : Option Nat :=
  find_last_of_from c file.data 0 none

/-- The function `infer_load_format(file)`. Positions count characters where
the source counts bytes; the test on the position of the last `.` and the
suffix taken after it are the same in both units. -/
def infer_load_format (file : String) : Except Raised String :=
  match find_last_of file '.' with
  | none => rb_raise .ArgumentError "could not infer load format from file extension"
  | some dot =>
    if dot + 1 = file.data.length then
      rb_raise .ArgumentError "could not infer load format from file extension"
    else .ok (String.mk (file.data.drop (dot + 1)))

/-- The engine call a successful `core_load` makes: `mx::load(file)`,
`mx::load_safetensors(file)` or `mx::load_gguf(file)`, with the flag that
decides whether the metadata is returned next to the arrays. -/
inductive LoadCall where
  | npy (file : String)
  | safetensors (file : String) (return_metadata : Bool)
  | gguf (file : String) (return_metadata : Bool)
  deriving DecidableEq, Repr

/-- The function `core_load(file, format = nil, return_metadata = nil)`, up to
the engine call made. -/
def core_load {D E : Type} (to_s : RValue D E → String) (argv : List (RValue D E)) :
    Except Raised LoadCall :=
  try_catch <|
    match rb_scan_args 1 2 argv with
    | .error e => .error e
    | .ok args =>
      match string_from_ruby to_s (scanned args 0) with
      | .error e => .error e
      | .ok file_v =>
        match (if NIL_P (scanned args 1) then infer_load_format file_v
               else string_from_ruby to_s (scanned args 1)) with
        | .error e => .error e
        | .ok format_v =>
          let return_metadata_v :=
            if NIL_P (scanned args 2) then false else RTEST (scanned args 2)
          if format_v = "npy" then
            if return_metadata_v then
              rb_raise .ArgumentError "metadata not supported for format npy"
            else .ok (.npy file_v)
          else if format_v = "npz" then
            rb_raise .NotImplementedError "npz load is not yet supported in the Ruby binding"
          else if format_v = "safetensors" then .ok (.safetensors file_v return_metadata_v)
          else if format_v = "gguf" then .ok (.gguf file_v return_metadata_v)
          else rb_raise .ArgumentError "unknown load format"

/-- The function `core_savez(*args)`. -/
def core_savez {D E : Type} (_argv : List (RValue D E)) : Except Raised (RValue D E) :=
  rb_raise .NotImplementedError "savez is not yet supported in the Ruby binding"

/-- The function `core_savez_compressed(*args)`. -/
def core_savez_compressed {D E : Type} (_argv : List (RValue D E)) :
    Except Raised (RValue D E) :=
  rb_raise .NotImplementedError "savez_compressed is not yet supported in the Ruby binding"

/-! ## Creation of Function handles -/

/-- The callable of the array-list shape. -/
abbrev VectorFn (E : Type) := List (MxArray E) → Except String (List (MxArray E))

/-- The callable of the value-and-gradient shape. -/
abbrev ValueGradFn (E : Type) :=
  List (MxArray E) → Except String (List (MxArray E) × List (MxArray E))

/-- The callable of the positional-and-keyword shape. -/
abbrev ArgsKwargsFn (E : Type) :=
  List (MxArray E) → Kwargs E → Except String (List (MxArray E))

/-- The function `function_alloc(klass)`, the allocator registered for the
class `Function`: a wrapper built by the constructor `FunctionWrapper()`, with
three empty callables and all flags false. -/
def function_alloc {E : Type} : FunctionWrapper E :=
  ⟨none, none, none, false, false, false, false⟩

/-- The function `function_wrap_vector(fn, refs)`. -/
def function_wrap_vector {E : Type} (fn : VectorFn E) : FunctionWrapper E :=
  { (function_alloc : FunctionWrapper E) with
    vector_fn := some fn
    accepts_args_kwargs := false
    returns_value_and_grad := false
    always_array_output := false }

/-- The function `function_wrap_args_kwargs(fn, refs, always_array_output)`. -/
def function_wrap_args_kwargs {E : Type} (fn : ArgsKwargsFn E) (always_array_output : Bool) :
    FunctionWrapper E :=
  { (function_alloc : FunctionWrapper E) with
    args_kwargs_fn := some fn
    accepts_args_kwargs := true
    returns_value_and_grad := false
    always_array_output := always_array_output }

/-- The function `function_wrap_value_grad(fn, refs)`. -/
def function_wrap_value_grad {E : Type} (fn : ValueGradFn E) : FunctionWrapper E :=
  { (function_alloc : FunctionWrapper E) with
    value_grad_fn := some fn
    accepts_args_kwargs := false
    returns_value_and_grad := true
    always_array_output := false }

/-- The host objects handed over as callables: whether an object responds to
`call`, and the function on arrays that calling it amounts to
(`call_ruby_callable_as_array_vector`). -/
structure Host (D E : Type) where
  respond_to_call : RValue D E → Bool
  call_as_array_vector : RValue D E → VectorFn E

/-- The function `vector_function_from_callable(callable)`. -/
def vector_function_from_callable {D E : Type} (H : Host D E) (callable : RValue D E) :
    Except Raised (VectorFn E) :=
  if !H.respond_to_call callable then rb_raise .TypeError "expected callable object"
  else .ok (H.call_as_array_vector callable)

/-- The engine's function transforms; each may throw. -/
structure Transforms (E : Type) where
  compile : VectorFn E → Bool → Except String (VectorFn E)
  checkpoint : VectorFn E → Except String (VectorFn E)
  grad : (List (MxArray E) → Except String (MxArray E)) → List Int →
    Except String (VectorFn E)
  value_and_grad : (List (MxArray E) → Except String (MxArray E)) → List Int →
    Except String (List (MxArray E) → Except String (MxArray E × List (MxArray E)))
  vmap : VectorFn E → List Int → List Int → Except String (VectorFn E)
  import_function : String → Except String (ArgsKwargsFn E)

/-- The function `argnums_from_value(value)`. -/
def argnums_from_value {D E : Type} : RValue D E → Except Raised (List Int)
  | .nil => .ok [0]
  | .int n =>
    match NUM2INT n with
    | .ok v => .ok [v]
    | .error e => .error e
  | v => int_vector_from_ruby v

/-- The function `vmap_axes_from_value(value)`. -/
def vmap_axes_from_value {D E : Type} : RValue D E → Except Raised (List Int)
  | .nil => .ok []
  | .int n =>
    match NUM2INT n with
    | .ok v => .ok [v]
    | .error e => .error e
  | v => int_vector_from_ruby v

/-- The lambda `scalar_fun` of `core_grad` and `core_value_and_grad`: the first
output of the callable; `what` is the message thrown on no output. -/
def scalar_fun {E : Type} (vector_fun : VectorFn E) (what : String)
    (inputs : List (MxArray E)) : Except String (MxArray E) :=
  match vector_fun inputs with
  | .error e => .error e
  | .ok [] => .error what
  | .ok (x :: _) => .ok x

/-- The function `core_compile(fun, inputs = nil, outputs = nil, shapeless =
nil)`, up to the wrapper behind the returned handle. -/
def core_compile {D E : Type} (H : Host D E) (T : Transforms E) (argv : List (RValue D E)) :
    Except Raised (FunctionWrapper E) :=
  try_catch <|
    match rb_scan_args 1 3 argv with
    | .error e => .error e
    | .ok args =>
      match vector_function_from_callable H (scanned args 0) with
      | .error e => .error e
      | .ok f =>
        match engine_call (T.compile f (RTEST (scanned args 3))) with
        | .error e => .error e
        | .ok compiled => .ok (function_wrap_vector compiled)

/-- The function `core_checkpoint(fun)`. -/
def core_checkpoint {D E : Type} (H : Host D E) (T : Transforms E) (callable : RValue D E) :
    Except Raised (FunctionWrapper E) :=
  try_catch <|
    match vector_function_from_callable H callable with
    | .error e => .error e
    | .ok f =>
      match engine_call (T.checkpoint f) with
      | .error e => .error e
      | .ok checkpointed => .ok (function_wrap_vector checkpointed)

/-- The function `core_grad(fun, argnums = nil)`. -/
def core_grad {D E : Type} (H : Host D E) (T : Transforms E) (argv : List (RValue D E)) :
    Except Raised (FunctionWrapper E) :=
  try_catch <|
    match rb_scan_args 1 1 argv with
    | .error e => .error e
    | .ok args =>
      match vector_function_from_callable H (scanned args 0) with
      | .error e => .error e
      | .ok vector_fun =>
        match argnums_from_value (scanned args 1) with
        | .error e => .error e
        | .ok argnums =>
          match engine_call (T.grad
              (scalar_fun vector_fun "[grad] callable must return at least one array")
              argnums) with
          | .error e => .error e
          | .ok grad_fn => .ok (function_wrap_vector grad_fn)

/-- The function `core_value_and_grad(fun, argnums = nil)`. -/
def core_value_and_grad {D E : Type} (H : Host D E) (T : Transforms E)
    (argv : List (RValue D E)) : Except Raised (FunctionWrapper E) :=
  try_catch <|
    match rb_scan_args 1 1 argv with
    | .error e => .error e
    | .ok args =>
      match vector_function_from_callable H (scanned args 0) with
      | .error e => .error e
      | .ok vector_fun =>
        match argnums_from_value (scanned args 1) with
        | .error e => .error e
        | .ok argnums =>
          match engine_call (T.value_and_grad
              (scalar_fun vector_fun
                "[value_and_grad] callable must return at least one array")
              argnums) with
          | .error e => .error e
          | .ok value_grad_fn =>
            .ok (function_wrap_value_grad (fun inputs =>
              match value_grad_fn inputs with
              | .error e => .error e
              | .ok result => .ok ([result.1], result.2)))

/-- The function `core_vmap(fun, in_axes = nil, out_axes = nil)`. The three
argument expressions of the engine call are evaluated here in the order
written. -/
def core_vmap {D E : Type} (H : Host D E) (T : Transforms E) (argv : List (RValue D E)) :
    Except Raised (FunctionWrapper E) :=
  try_catch <|
    match rb_scan_args 1 2 argv with
    | .error e => .error e
    | .ok args =>
      match vector_function_from_callable H (scanned args 0) with
      | .error e => .error e
      | .ok f =>
        match vmap_axes_from_value (scanned args 1) with
        | .error e => .error e
        | .ok in_axes =>
          match vmap_axes_from_value (scanned args 2) with
          | .error e => .error e
          | .ok out_axes =>
            match engine_call (T.vmap f in_axes out_axes) with
            | .error e => .error e
            | .ok vmapped => .ok (function_wrap_vector vmapped)

/-- The function `core_import_function(file)`. -/
def core_import_function {D E : Type} (to_s : RValue D E → String) (T : Transforms E)
    (file : RValue D E) : Except Raised (FunctionWrapper E) :=
  try_catch <|
    match string_from_ruby to_s file with
    | .error e => .error e
    | .ok file_v =>
      match engine_call (T.import_function file_v) with
      | .error e => .error e
      | .ok imported => .ok (function_wrap_args_kwargs imported false)

/-- Number of populated callables of a wrapper. -/
def populated_count {E : Type} (w : FunctionWrapper E) : Nat :=
  (if w.vector_fn.isSome then 1 else 0) + (if w.args_kwargs_fn.isSome then 1 else 0) +
    (if w.value_grad_fn.isSome then 1 else 0)

/-- The callable `function_call` invokes, as selected by the two shape flags,
is populated. -/
def selected_callable_populated {E : Type} (w : FunctionWrapper E) : Bool :=
  if w.accepts_args_kwargs then w.args_kwargs_fn.isSome
  else if w.returns_value_and_grad then w.value_grad_fn.isSome
  else w.vector_fn.isSome

/-- Whether `function_call` reaches one of its three calls of
`rb_thread_call_without_gvl`: the arguments convert and the flag `release_gvl`
of the wrapper is set. -/
def function_call_releases_gvl {D F E : Type} (N : Numerics D F E)
    (to_s : RValue D E → String) (wrapper : FunctionWrapper E) (argv : List (RValue D E)) :
    Bool :=
  if wrapper.accepts_args_kwargs then
    match function_call_args_kwargs N to_s argv with
    | .error _ => false
    | .ok _ => wrapper.release_gvl
  else
    match arrays_from_args N argv with
    | .error _ => false
    | .ok _ => wrapper.release_gvl

/-- A host for concrete evaluation: the String `"identity"` carries a singleton
method `call` that returns its arguments; no other value responds to `call`. -/
def sample_host : Host Int Int where
  respond_to_call := fun v =>
    match v with
    | .str s => decide (s = "identity")
    | _ => false
  call_as_array_vector := fun _ inputs => .ok inputs

/-- Function transforms for concrete evaluation: `compile`, `checkpoint` and
`vmap` return the function they are given, `grad` and `value_and_grad` return
the first output as its own gradient, and `import_function` finds no file. -/
def sample_transforms : Transforms Int where
  compile := fun f _ => .ok f
  checkpoint := fun f => .ok f
  grad := fun sf _ => .ok (fun inputs =>
    match sf inputs with
    | .ok x => .ok [x]
    | .error e => .error e)
  value_and_grad := fun sf _ => .ok (fun inputs =>
    match sf inputs with
    | .ok x => .ok (x, [x])
    | .error e => .error e)
  vmap := fun f _ _ => .ok f
  import_function := fun _ => .error "no such file"

/-! ## Dtype handles: equality and hash -/

/-- The method `Dtype#==` and `Dtype#eql?` (`dtype_equal`). -/
def dtype_equal {D E : Type} (self : Dtype) (other : RValue D E) : Bool :=
  match other with
  | .dtype d => decide (self = d)
  | _ => false

/-- The method `Dtype#hash` (`dtype_hash`); `val` gives the value of the
engine's enumerator `Dtype::Val` of each dtype, an `int`. -/
def dtype_hash (val : Dtype → Int) (self : Dtype) : Int := val self

/-! ## Scalar, pair or triple of integers -/

/-- The function `int_pair_from_ruby_or_scalar(value, default_value, name)`. -/
def int_pair_from_ruby_or_scalar {D E : Type} (value : RValue D E)
    (default_value : Int × Int) (name : String) : Except Raised (Int × Int) :=
  match value with
  | .nil => .ok default_value
  | .int n =>
    match NUM2INT n with
    | .error e => .error e
    | .ok v => .ok (v, v)
  | .ary [first, second] =>
    match first, second with
    | .int a, .int b =>
      match NUM2INT a with
      | .error e => .error e
      | .ok x =>
        match NUM2INT b with
        | .error e => .error e
        | .ok y => .ok (x, y)
    | _, _ => rb_raise .TypeError (name ++ " entries must be integers")
  | _ => rb_raise .TypeError (name ++ " must be an integer or a 2-element Array")

/-- The function `int_triple_from_ruby_or_scalar(value, default_value, name)`. -/
def int_triple_from_ruby_or_scalar {D E : Type} (value : RValue D E)
    (default_value : Int × Int × Int) (name : String) : Except Raised (Int × Int × Int) :=
  match value with
  | .nil => .ok default_value
  | .int n =>
    match NUM2INT n with
    | .error e => .error e
    | .ok v => .ok (v, v, v)
  | .ary [x, y, z] =>
    match x, y, z with
    | .int a, .int b, .int c =>
      match NUM2INT a with
      | .error e => .error e
      | .ok x1 =>
        match NUM2INT b with
        | .error e => .error e
        | .ok y1 =>
          match NUM2INT c with
          | .error e => .error e
          | .ok z1 => .ok (x1, y1, z1)
    | _, _, _ => rb_raise .TypeError (name ++ " entries must be integers")
  | _ => rb_raise .TypeError (name ++ " must be an integer or a 3-element Array")

/-! ## Kernel calls -/

/-- The host function `rb_hash_lookup2(hash, key, Qundef)` for the Symbol key
named `key`: the value stored under it, `none` (for `Qundef`) when the hash has
no such key. The keys of a hash are pairwise distinct. -/
def hash_lookup_symbol {D E : Type} (kvs : List (RValue D E × RValue D E)) (key : String) :
    Option (RValue D E) :=
  (kvs.find? (fun kv =>
    match kv.1 with
    | .sym s => decide (s = key)
    | _ => false)).map Prod.snd

/-- The host function `rb_hash_lookup2(hash, key, Qundef)` for the String key
with text `key`. -/
def hash_lookup_string {D E : Type} (kvs : List (RValue D E × RValue D E)) (key : String) :
    Option (RValue D E) :=
  (kvs.find? (fun kv =>
    match kv.1 with
    | .str s => decide (s = key)
    | _ => false)).map Prod.snd

/-- The function `hash_fetch_optional(hash, key)`; `none` is `Qundef`. -/
def hash_fetch_optional {D E : Type} (hash : RValue D E) (key : String) :
    Except Raised (Option (RValue D E)) :=
  match hash with
  | .hash kvs =>
    match hash_lookup_symbol kvs key with
    | some value => .ok (some value)
    | none => .ok (hash_lookup_string kvs key)
  | _ => rb_raise .TypeError "expected Hash"

/-- The function `hash_fetch_required(hash, key)`. -/
def hash_fetch_required {D E : Type} (hash : RValue D E) (key : String) :
    Except Raised (RValue D E) :=
  match hash_fetch_optional hash key with
  | .error e => .error e
  | .ok none => rb_raise .ArgumentError ("missing required keyword: " ++ key)
  | .ok (some value) =>
    if NIL_P value then rb_raise .ArgumentError ("missing required keyword: " ++ key)
    else .ok value

/-- The function `array_inputs_from_ruby(value)`. -/
def array_inputs_from_ruby {D F E : Type} (N : Numerics D F E) :
    RValue D E → Except Raised (List (MxArray E))
  | .ary xs => arrays_from_args N xs
  | _ => rb_raise .TypeError "inputs must be an Array"

/-- The loop of `shape_vector_from_ruby(value)` over the entries. -/
def shape_vector_entries {D E : Type} : List (RValue D E) → Except Raised (List (List Int))
  | [] => .ok []
  | x :: rest =>
    match shape_from_ruby x with
    | .error e => .error e
    | .ok sh =>
      match shape_vector_entries rest with
      | .ok out => .ok (sh :: out)
      | .error e => .error e

/-- The function `shape_vector_from_ruby(value)`. -/
def shape_vector_from_ruby {D E : Type} : RValue D E → Except Raised (List (List Int))
  | .ary xs => shape_vector_entries xs
  | _ => rb_raise .TypeError "output_shapes must be an Array of shape Arrays"

/-- The loop of `dtype_vector_from_ruby(value)` over the entries. -/
def dtype_vector_entries {D E : Type} : List (RValue D E) → Except Raised (List Dtype)
  | [] => .ok []
  | x :: rest =>
    match optional_dtype_from_value x with
    | .error e => .error e
    | .ok none => rb_raise .ArgumentError "dtype entries cannot be nil"
    | .ok (some d) =>
      match dtype_vector_entries rest with
      | .ok out => .ok (d :: out)
      | .error e => .error e

/-- The function `dtype_vector_from_ruby(value)`. -/
def dtype_vector_from_ruby {D E : Type} : RValue D E → Except Raised (List Dtype)
  | .ary xs => dtype_vector_entries xs
  | _ => rb_raise .TypeError "output_dtypes must be an Array of dtypes"

/-- The variant `mxfast::TemplateArg`. -/
inductive TemplateArg where
  | bool (b : Bool)
  | int (n : Int)
  | dtype (d : Dtype)
  deriving DecidableEq, Repr

/-- One iteration of the loop of `template_args_from_ruby`. -/
def template_arg_entry {D E : Type} (to_s : RValue D E → String) (pair : RValue D E) :
    Except Raised (String × TemplateArg) :=
  match pair with
  | .ary [name, val] =>
    match val with
    | .bool b =>
      match string_from_ruby to_s name with
      | .error e => .error e
      | .ok s => .ok (s, .bool b)
    | .int n =>
      match string_from_ruby to_s name with
      | .error e => .error e
      | .ok s =>
        match NUM2INT n with
        | .error e => .error e
        | .ok v => .ok (s, .int v)
    | v =>
      match optional_dtype_from_value v with
      | .error e => .error e
      | .ok (some d) =>
        match string_from_ruby to_s name with
        | .error e => .error e
        | .ok s => .ok (s, .dtype d)
      | .ok none => rb_raise .TypeError "template values must be bool, int, or dtype"
  | _ => rb_raise .TypeError "template entries must be 2-element Arrays"

/-- The loop of `template_args_from_ruby(value)` over the entries. -/
def template_arg_entries {D E : Type} (to_s : RValue D E → String) :
    List (RValue D E) → Except Raised (List (String × TemplateArg))
  | [] => .ok []
  | x :: rest =>
    match template_arg_entry to_s x with
    | .error e => .error e
    | .ok t =>
      match template_arg_entries to_s rest with
      | .ok out => .ok (t :: out)
      | .error e => .error e

/-- The function `template_args_from_ruby(value)`; `none` is `Qundef`. -/
def template_args_from_ruby {D E : Type} (to_s : RValue D E → String) :
    Option (RValue D E) → Except Raised (List (String × TemplateArg))
  | none => .ok []
  | some .nil => .ok []
  | some (.ary xs) => template_arg_entries to_s xs
  | some _ => rb_raise .TypeError "template must be an Array of [name, value] pairs"

/-- The arguments of the call `wrapper->kernel(...)` made by `kernel_call`. -/
structure KernelCall (F E : Type) where
  inputs : List (MxArray E)
  output_shapes : List (List Int)
  output_dtypes : List Dtype
  grid : Int × Int × Int
  threadgroup : Int × Int × Int
  template_args : List (String × TemplateArg)
  init_value : Option F
  verbose : Bool
  stream : StreamOrDevice

/-- The part of `kernel_call` after the five required keywords: the optional
keywords `template`, `init_value`, `verbose` and `stream`. -/
def kernel_call_optional {D F E : Type} (N : Numerics D F E) (num2dbl : Int → D)
    (to_s : RValue D E → String) (kwargs : RValue D E) (inputs : List (MxArray E))
    (output_shapes : List (List Int)) (output_dtypes : List Dtype)
    (grid threadgroup : Int × Int × Int) : Except Raised (KernelCall F E) :=
  match hash_fetch_optional kwargs "template" with
  | .error e => .error e
  | .ok template =>
    match template_args_from_ruby to_s template with
    | .error e => .error e
    | .ok template_args =>
      match hash_fetch_optional kwargs "init_value" with
      | .error e => .error e
      | .ok init_value =>
        match hash_fetch_optional kwargs "verbose" with
        | .error e => .error e
        | .ok verbose =>
          match hash_fetch_optional kwargs "stream" with
          | .error e => .error e
          | .ok stream =>
            let init_value_r : Except Raised (Option F) :=
              match init_value with
              | none => .ok none
              | some .nil => .ok none
              | some v =>
                match NUM2DBL num2dbl v with
                | .error e => .error e
                | .ok x => .ok (some (N.dblToFloat x))
            match init_value_r with
            | .error e => .error e
            | .ok init_value_v =>
              let verbose_v : Bool :=
                match verbose with
                | none => false
                | some v => RTEST v
              let stream_r : Except Raised StreamOrDevice :=
                match stream with
                | none => .ok .default
                | some v => stream_or_device_from_value v
              match stream_r with
              | .error e => .error e
              | .ok stream_v =>
                .ok ⟨inputs, output_shapes, output_dtypes, grid, threadgroup, template_args,
                  init_value_v, verbose_v, stream_v⟩

/-- The method `Kernel#call` (`kernel_call`), up to the arguments of the call
of the wrapped kernel. The wrapper of a Kernel object is never null. -/
def kernel_call {D F E : Type} (N : Numerics D F E) (num2dbl : Int → D)
    (to_s : RValue D E → String) (argv : List (RValue D E)) : Except Raised (KernelCall F E) :=
  try_catch <|
    match argv with
    | [.hash kvs] =>
      let kwargs : RValue D E := .hash kvs
      match hash_fetch_required kwargs "inputs" with
      | .error e => .error e
      | .ok v1 =>
        match array_inputs_from_ruby N v1 with
        | .error e => .error e
        | .ok inputs =>
          match hash_fetch_required kwargs "output_shapes" with
          | .error e => .error e
          | .ok v2 =>
            match shape_vector_from_ruby v2 with
            | .error e => .error e
            | .ok output_shapes =>
              match hash_fetch_required kwargs "output_dtypes" with
              | .error e => .error e
              | .ok v3 =>
                match dtype_vector_from_ruby v3 with
                | .error e => .error e
                | .ok output_dtypes =>
                  match hash_fetch_required kwargs "grid" with
                  | .error e => .error e
                  | .ok v4 =>
                    match int_triple_from_ruby_or_scalar v4 (1, 1, 1) "grid" with
                    | .error e => .error e
                    | .ok grid =>
                      match hash_fetch_required kwargs "threadgroup" with
                      | .error e => .error e
                      | .ok v5 =>
                        match int_triple_from_ruby_or_scalar v5 (1, 1, 1) "threadgroup" with
                        | .error e => .error e
                        | .ok threadgroup =>
                          kernel_call_optional N num2dbl to_s kwargs inputs output_shapes
                            output_dtypes grid threadgroup
    | _ => rb_raise .ArgumentError "Kernel#call expects a single keyword Hash argument"

/-- The keyword `key` is missing from the hash or `nil` in it: the value under
the Symbol key is `nil`, or there is no Symbol key and the value under the
String key is `nil` or there is no String key either. -/
def keyword_missing_or_nil {D E : Type} (kvs : List (RValue D E × RValue D E))
    (key : String) : Bool :=
  match hash_lookup_symbol kvs key with
  | some v => NIL_P v
  | none =>
    match hash_lookup_string kvs key with
    | some v => NIL_P v
    | none => true

/-! ## Unary operations -/

/-- The row-major offset of the multi-index `idx` in an array of shape `s`. -/
def row_major_offset : List Nat → List Nat → Nat
  | _ :: s, i :: idx => i * s.prod + row_major_offset s idx
  | _, _ => 0

/-- The value reached in a nested host sequence by following the multi-index
`idx` from the outside in, if there is one. -/
def node_at {D E : Type} : RValue D E → List Nat → Option (RValue D E)
  | v, [] => some v
  | .ary xs, i :: idx =>
    match xs[i]? with
    | some x => node_at x idx
    | none => none
  | _, _ :: _ => none

/-- The nested sequence of shape `s` whose element at a multi-index is
`value_at` of `off` plus the row-major offset of that index. -/
def nest {D E : Type} (value_at : Nat → RValue D E) : List Nat → Nat → RValue D E
  | [], off => value_at off
  | n :: s, off => .ary ((List.range n).map (fun i => nest value_at s (off + i * s.prod)))

/-! ## Structure of nested host sequences -/

mutual
/-- The leaves of a nested host sequence, in depth-first order. -/
def leaves {D E : Type} : RValue D E → List (RValue D E)
  | .ary xs => leaves_of_entries xs
  | v => [v]
/-- The leaves of the entries of one host array, in order. -/
def leaves_of_entries {D E : Type} : List (RValue D E) → List (RValue D E)
  | [] => []
  | x :: rest => leaves x ++ leaves_of_entries rest
end

mutual
/-- The nested sequence with the same nesting and every leaf `x` replaced by
`f x`. -/
def map_leaves {D E : Type} (f : RValue D E → RValue D E) : RValue D E → RValue D E
  | .ary xs => .ary (map_leaves_of_entries f xs)
  | v => f v
/-- The entries of one host array with `map_leaves` applied to each. -/
def map_leaves_of_entries {D E : Type} (f : RValue D E → RValue D E) :
    List (RValue D E) → List (RValue D E)
  | [] => []
  | x :: rest => map_leaves f x :: map_leaves_of_entries f rest
end

/-- The test `RB_TYPE_P(value, T_ARRAY)`. -/
def is_ary {D E : Type} : RValue D E → Bool
  | .ary _ => true
  | _ => false

/-- The nested sequence `v` is rectangular of shape `s`: a non-sequence has
shape `()`; a sequence of `n` entries that all have shape `s` has shape
`(n, s...)`, and an empty sequence has shape `(0)`. -/
def has_shape {D E : Type} : List Nat → RValue D E → Prop
  | [], v => is_ary v = false
  | n :: s, .ary xs => xs.length = n ∧ (∀ x ∈ xs, has_shape s x) ∧ (n = 0 → s = [])
  | _ :: _, _ => False

/-- A leaf the flattening converts without raising: a boolean, a Float, or an
Integer in the range of `long long`. -/
def leaf_ok {D E : Type} : RValue D E → Prop
  | .int n => -(2 : Int) ^ 63 ≤ n ∧ n < (2 : Int) ^ 63
  | .float _ => True
  | .bool _ => True
  | _ => False

/-- The value `scalar_value_from_ruby<T>` returns on a leaf it accepts. -/
def scalar_of {D F E T : Type} (N : Numerics D F E) (c : ScalarCast D T) : RValue D E → T
  | .int n => c.ofLL n
  | .float x => c.ofDbl x
  | .bool b => c.ofDbl (if b then N.one else N.zero)
  | _ => c.ofDbl N.zero

/-- Binary digit count by repeated halving, at most `fuel` steps. -/
def bit_length_steps : Nat → Nat → Nat
  | 0, _ => 0
  | fuel + 1, m => if m = 0 then 0 else bit_length_steps fuel (m / 2) + 1

/-- Number of binary digits of a natural number. -/
def bit_length (m : Nat) : Nat := bit_length_steps m m

/-- Rounding of an integer to `p` significant binary digits, ties to even: the
value of the conversion of an integer to a binary floating-point format with a
`p`-bit significand (24 for `float`, 53 for `double`) whose exponent range
holds it. -/
def round_to_sig (p : Nat) (n : Int) : Int :=
  let m := n.natAbs
  if bit_length m ≤ p then n
  else
    let s := bit_length m - p
    let q := m / 2 ^ s
    let r := m % 2 ^ s
    let half := 2 ^ (s - 1)
    let q1 := if r < half then q else if half < r then q + 1 else if q % 2 = 0 then q else q + 1
    Int.sign n * ((q1 * 2 ^ s : Nat) : Int)

/-- The numeric conversions on integer-valued data: every `float`, `double`
and engine element is represented by the integer it denotes. Conversions to a
floating type round to its significand; conversions to an integer type and to
a wider floating type are exact on the values in range. -/
def exact_int_numerics : Numerics Int Int Int where
  llToFloat := round_to_sig 24
  llToDouble := round_to_sig 53
  dblToFloat := round_to_sig 24
  one := 1
  zero := 0
  fromFloat := fun _ x => x
  fromDouble := fun dt x =>
    match dt with
    | .bool_ => if x = 0 then 0 else 1
    | .float16 => round_to_sig 11 x
    | .bfloat16 => round_to_sig 8 x
    | _ => x
  astype := fun _ _ x => x
  toBool := fun e => decide (e ≠ 0)
  toInt := fun _ e => e
  toDouble := fun _ e => e
  scalarBool := fun b => if b then 1 else 0
  scalarLL := fun n => n
  scalarDbl := fun x => x
  llDtype := .int64
  dblDtype := .float32
  dblToInt := NUM2INT

/-- Host values over integer-valued numerics. -/
abbrev IValue := RValue Int Int

mutual
/-- The lengths of the sequences at nesting depth `k` inside a host value, in
depth-first order; depth 0 is the value itself. -/
def lengths_at {D E : Type} : Nat → RValue D E → List Nat
  | 0, .ary xs => [xs.length]
  | k + 1, .ary xs => lengths_at_entries k xs
  | _, _ => []
/-- The lengths of the sequences at depth `k` inside the entries of one host
array. -/
def lengths_at_entries {D E : Type} : Nat → List (RValue D E) → List Nat
  | _, [] => []
  | k, x :: rest => lengths_at k x ++ lengths_at_entries k rest
end

/-! ## The round trip in the words of the specification -/

/-- The wrappers behind the Function handles allocated so far: the handle
with index `i` owns the `i`-th wrapper (`TypedData_Wrap_Struct`). -/
abbrev FunctionHeap (E : Type) := List (FunctionWrapper E)

/-- The operations of the extension that create a Function handle or take one
as `self`: the allocator registered for the class (`Function.new`), the three
`function_wrap_*` helpers, through which `compile`, `checkpoint`, `grad`,
`value_and_grad`, `vmap` and `import_function` return their handle, and the
two methods registered on the class, `call` and `[]`. -/
inductive FunctionOp (D E : Type) where
  | alloc
  | wrap_vector (fn : VectorFn E)
  | wrap_args_kwargs (fn : ArgsKwargsFn E) (always_array_output : Bool)
  | wrap_value_grad (fn : ValueGradFn E)
  | call (self : Nat) (argv : List (RValue D E))
  | aref (self : Nat) (argv : List (RValue D E))

/-- The method body `function_call(argc, argv, self)` on the heap.
`TypedData_Get_Struct` fetches the wrapper of `self`, raising `TypeError` when
`self` is no Function handle; the body reads the members of the wrapper and
assigns to none of them, so the heap after the call is the heap before it. -/
def function_call_on {D F E : Type} (N : Numerics D F E) (to_s : RValue D E → String)
    (heap : FunctionHeap E) (self : Nat) (argv : List (RValue D E)) :
    FunctionHeap E × Except Raised (RValue D E) :=
  match heap[self]? with
  | some wrapper => (heap, function_call N to_s wrapper argv)
  | none => (heap, rb_raise .TypeError "wrong argument type (expected MLX::Core::Function)")

/-- One operation on the heap: the heap after it, with the index of the handle
it created or the outcome of the method call. The allocator and the
`function_wrap_*` helpers write only to the wrapper they have just allocated;
`call` and `[]` are both registered as `function_call`. -/
def function_op_step {D F E : Type} (N : Numerics D F E) (to_s : RValue D E → String) :
    FunctionOp D E → FunctionHeap E → FunctionHeap E × (Nat ⊕ Except Raised (RValue D E))
  | .alloc, heap => (heap ++ [function_alloc], .inl heap.length)
  | .wrap_vector fn, heap => (heap ++ [function_wrap_vector fn], .inl heap.length)
  | .wrap_args_kwargs fn always_array_output, heap =>
    (heap ++ [function_wrap_args_kwargs fn always_array_output], .inl heap.length)
  | .wrap_value_grad fn, heap => (heap ++ [function_wrap_value_grad fn], .inl heap.length)
  | .call self argv, heap =>
    ((function_call_on N to_s heap self argv).1, .inr (function_call_on N to_s heap self argv).2)
  | .aref self argv, heap =>
    ((function_call_on N to_s heap self argv).1, .inr (function_call_on N to_s heap self argv).2)

/-- The heap after a sequence of operations, performed in order. -/
def function_ops_run {D F E : Type} (N : Numerics D F E) (to_s : RValue D E → String) :
    List (FunctionOp D E) → FunctionHeap E → FunctionHeap E
  | [], heap => heap
  | op :: ops, heap => function_ops_run N to_s ops (function_op_step N to_s op heap).1

/-! # Theorems -/

/-! ## Lemmas on flattening -/

theorem to_ShapeElem_of_lt (n : Nat) (h : n < 2 ^ 31) : to_ShapeElem (n : Int) = (n : Int) := by
  unfold to_ShapeElem
  omega

theorem leaf_ok_numeric {D E : Type} {x : RValue D E} (h : leaf_ok x) :
    is_numeric_scalar x = true := by
  cases x <;> simp_all [leaf_ok, is_numeric_scalar]

theorem leaf_ok_not_ary {D E : Type} {x : RValue D E} (h : leaf_ok x) : is_ary x = false := by
  cases x <;> simp_all [leaf_ok, is_ary]

theorem leaves_of_not_ary {D E : Type} {x : RValue D E} (h : is_ary x = false) :
    leaves x = [x] := by
  cases x <;> simp_all [leaves, is_ary]

theorem scalar_value_of_leaf_ok {D F E T : Type} (N : Numerics D F E) (c : ScalarCast D T)
    {x : RValue D E} (h : leaf_ok x) :
    scalar_value_from_ruby N c x = .ok (scalar_of N c x) := by
  cases x <;> simp_all [leaf_ok, scalar_value_from_ruby, scalar_of, NUM2LL]

theorem infer_leaf {D F E T : Type} (N : Numerics D F E) (c : ScalarCast D T)
    {x : RValue D E} (h : leaf_ok x) (shape : List Int) (flat : List T) :
    infer_shape_and_flatten_typed N c x shape.length (shape, flat)
      = .ok (shape, flat ++ [scalar_of N c x]) := by
  have h1 := scalar_value_of_leaf_ok N c h
  cases x <;>
    simp_all [leaf_ok, infer_shape_and_flatten_typed, is_numeric_scalar]

theorem leaves_entries_mem {D E : Type} {xs : List (RValue D E)} {y x : RValue D E}
    (hy : y ∈ xs) (hx : x ∈ leaves y) : x ∈ leaves_of_entries xs := by
  induction xs with
  | nil => cases hy
  | cons z rest ih =>
    simp only [leaves_of_entries, List.mem_append]
    rcases List.mem_cons.mp hy with h | h
    · left; rw [← h]; exact hx
    · right; exact ih h

/-- Entries that all have the already recorded shape `s` below `pre` are
flattened without changing the shape. -/
theorem infer_entries_seen {D F E T : Type} (N : Numerics D F E) (c : ScalarCast D T)
    (s : List Nat)
    (ih : ∀ v : RValue D E, has_shape s v → (∀ x ∈ leaves v, leaf_ok x) →
      ∀ (pre : List Int) (fl : List T),
        infer_shape_and_flatten_typed N c v pre.length (pre ++ s.map Int.ofNat, fl)
          = .ok (pre ++ s.map Int.ofNat, fl ++ (leaves v).map (scalar_of N c)))
    (ys : List (RValue D E)) (hall : ∀ y ∈ ys, has_shape s y)
    (hleaf : ∀ x ∈ leaves_of_entries ys, leaf_ok x) (pre : List Int) (fl : List T) :
    infer_entries N c ys pre.length (pre ++ s.map Int.ofNat, fl)
      = .ok (pre ++ s.map Int.ofNat, fl ++ (leaves_of_entries ys).map (scalar_of N c)) := by
  induction ys generalizing fl with
  | nil => simp [infer_entries, leaves_of_entries]
  | cons y rest ihr =>
    have hy := ih y (hall y (List.mem_cons_self _ _))
      (fun x hx => hleaf x (leaves_entries_mem (List.mem_cons_self _ _) hx)) pre fl
    have hrest := ihr (fun z hz => hall z (List.mem_cons_of_mem _ hz))
      (fun x hx => hleaf x (by
        simp only [leaves_of_entries, List.mem_append]; exact Or.inr hx))
      (fl ++ (leaves y).map (scalar_of N c))
    simp only [infer_entries, hy, hrest, leaves_of_entries, List.map_append, List.append_assoc]

/-- Flattening a rectangular sequence of shape `s` whose lengths fit the shape
element type and whose leaves convert: started below a shape prefix `pre`
with nothing recorded yet, and started with `s` already recorded, it ends with
shape `pre ++ s` and has appended the converted leaves in order. -/
theorem infer_rect {D F E T : Type} (N : Numerics D F E) (c : ScalarCast D T) :
    ∀ (s : List Nat) (v : RValue D E), has_shape s v → (∀ n ∈ s, n < 2 ^ 31) →
      (∀ x ∈ leaves v, leaf_ok x) → ∀ (pre : List Int) (fl : List T),
      infer_shape_and_flatten_typed N c v pre.length (pre, fl)
          = .ok (pre ++ s.map Int.ofNat, fl ++ (leaves v).map (scalar_of N c)) ∧
      infer_shape_and_flatten_typed N c v pre.length (pre ++ s.map Int.ofNat, fl)
          = .ok (pre ++ s.map Int.ofNat, fl ++ (leaves v).map (scalar_of N c)) := by
  intro s
  induction s with
  | nil =>
    intro v hs _ hleaf pre fl
    have hna : is_ary v = false := hs
    have hl := leaves_of_not_ary hna
    have hok : leaf_ok v := hleaf v (by rw [hl]; exact List.mem_singleton.mpr rfl)
    simp [hl, infer_leaf N c hok]
  | cons n s ih =>
    intro v hs hfit hleaf pre fl
    cases v with
    | ary xs =>
      obtain ⟨hlen, hall, htight⟩ := hs
      have hn : n < 2 ^ 31 := hfit n (List.mem_cons_self _ _)
      have hfit1 : ∀ m ∈ s, m < 2 ^ 31 := fun m hm => hfit m (List.mem_cons_of_mem _ hm)
      have hcast : to_ShapeElem ((xs.length : Nat) : Int) = (n : Int) := by
        rw [hlen]; exact to_ShapeElem_of_lt n hn
      have hleaf1 : ∀ x ∈ leaves_of_entries xs, leaf_ok x := by
        intro x hx; exact hleaf x (by simpa [leaves] using hx)
      have hseen := fun (ys : List (RValue D E)) (h1 : ∀ y ∈ ys, has_shape s y)
          (h2 : ∀ x ∈ leaves_of_entries ys, leaf_ok x) =>
        infer_entries_seen N c s
          (fun w hw hwl p f => (ih w hw hfit1 hwl p f).2) ys h1 h2
      have hpre : (pre ++ [(n : Int)]).length = pre.length + 1 := by simp
      have happ : pre ++ (n :: s).map Int.ofNat = (pre ++ [(n : Int)]) ++ s.map Int.ofNat := by
        simp
      constructor
      · -- nothing recorded at this depth yet
        simp only [infer_shape_and_flatten_typed, if_true, hcast, leaves]
        rw [← hpre, happ]
        cases xs with
        | nil =>
          have h0 : n = 0 := by simpa using hlen.symm
          have hs0 : s = [] := htight h0
          simp [infer_entries, leaves_of_entries, hs0]
        | cons x rest =>
          have hx := (ih x (hall x (List.mem_cons_self _ _)) hfit1
            (fun y hy => hleaf1 y (leaves_entries_mem (List.mem_cons_self _ _) hy))
            (pre ++ [(n : Int)]) fl).1
          have hrest := hseen rest (fun z hz => hall z (List.mem_cons_of_mem _ hz))
            (fun y hy => hleaf1 y (by
              simp only [leaves_of_entries, List.mem_append]; exact Or.inr hy))
            (pre ++ [(n : Int)]) (fl ++ (leaves x).map (scalar_of N c))
          simp only [infer_entries, hx]
          rw [hrest]
          simp [leaves_of_entries]
      · -- the shape below this depth is recorded already
        have hlen2 : (pre ++ (n :: s).map Int.ofNat).length ≠ pre.length := by
          simp
        have hget : (pre ++ (n :: s).map Int.ofNat).getD pre.length 0 = (xs.length : Int) := by
          rw [List.getD_eq_getElem?_getD, List.getElem?_append_right (le_refl _)]
          simp [hlen]
        simp only [infer_shape_and_flatten_typed, hlen2, if_false, hget, ne_eq,
          not_true_eq_false, leaves]
        rw [← hpre, happ]
        exact hseen xs hall hleaf1 (pre ++ [(n : Int)]) fl
    | _ => exact absurd hs (by simp [has_shape])

/-! ## Lemmas on rebuilding -/

theorem shape_size_foldl (s : List Nat) (a : Int) :
    (s.map Int.ofNat).foldl (fun acc d => acc * d) a = a * ((s.prod : Nat) : Int) := by
  induction s generalizing a with
  | nil => simp
  | cons n s ih =>
    simp only [List.map_cons, List.foldl_cons, List.prod_cons, ih, Int.ofNat_eq_coe,
      Nat.cast_mul]
    ring

theorem shape_size_ofNat (s : List Nat) : shape_size (s.map Int.ofNat) = s.prod := by
  unfold shape_size
  rw [shape_size_foldl, one_mul]
  exact Int.toNat_ofNat _

/-- The sample engine satisfies the flattening contract of `reshape`. -/
theorem sample_reshape_flattens (a : MxArray Int) : reshape_flattens sample_engine a := by
  have h1 : ([(a.size : Int)] = [-1]) = False := by
    simp only [List.cons.injEq, and_true, eq_iff_iff, iff_false]
    omega
  have h2 : shape_size [(a.size : Int)] = a.size := by
    simp [shape_size]
  simp only [reshape_flattens, sample_engine, h1, if_false, h2]
  simp

/-- The method `to_a` on an array of rank at least one with fewer than `2^31`
elements, over an engine whose `reshape` flattens it: the `switch` on the
dtype of the array, with the readers over its row-major data. -/
theorem to_a_of_flat {D F E : Type} (N : Numerics D F E) (eng : Engine E) (a : MxArray E)
    (hnd : a.ndim ≠ 0) (hsize : a.size < 2 ^ 31) (hflat : reshape_flattens eng a) :
    array_to_a N eng a
      = (match element_to_ruby N a.dtype with
         | some conv => .ok (build_nested_ruby_array a.shape 0 0 (read_at a.data conv)).1
         | none => rb_raise .TypeError "to_a unsupported for current dtype in this phase") := by
  have hcast : to_ShapeElem (a.size : Int) = (a.size : Int) := to_ShapeElem_of_lt a.size hsize
  unfold reshape_flattens at hflat
  simp only [array_to_a, hnd, if_false, hcast, hflat, engine_call]

mutual
theorem map_leaves_congr {D E : Type} (f g : RValue D E → RValue D E) :
    ∀ (v : RValue D E), (∀ x ∈ leaves v, f x = g x) → map_leaves f v = map_leaves g v
  | .ary xs, h => by
    simp only [map_leaves]
    rw [map_leaves_entries_congr f g xs (by simpa [leaves] using h)]
  | .nil, h => by simpa [map_leaves, leaves] using h
  | .bool b, h => by simpa [map_leaves, leaves] using h
  | .int n, h => by simpa [map_leaves, leaves] using h
  | .float x, h => by simpa [map_leaves, leaves] using h
  | .str s, h => by simpa [map_leaves, leaves] using h
  | .sym s, h => by simpa [map_leaves, leaves] using h
  | .hash kvs, h => by simpa [map_leaves, leaves] using h
  | .array a, h => by simpa [map_leaves, leaves] using h
  | .dtype d, h => by simpa [map_leaves, leaves] using h
  | .device d, h => by simpa [map_leaves, leaves] using h
  | .stream s, h => by simpa [map_leaves, leaves] using h
theorem map_leaves_entries_congr {D E : Type} (f g : RValue D E → RValue D E) :
    ∀ (xs : List (RValue D E)), (∀ x ∈ leaves_of_entries xs, f x = g x) →
      map_leaves_of_entries f xs = map_leaves_of_entries g xs
  | [], _ => by simp [map_leaves_of_entries]
  | y :: rest, h => by
    simp only [map_leaves_of_entries]
    rw [map_leaves_congr f g y (fun x hx => h x (by simp [leaves_of_entries, hx])),
      map_leaves_entries_congr f g rest (fun x hx => h x (by simp [leaves_of_entries, hx]))]
end

theorem getElem?_append_of_some {α : Type} (l e : List α) (i : Nat) (a : α)
    (h : l[i]? = some a) : (l ++ e)[i]? = some a := by
  have hi : i < l.length := by
    rcases Nat.lt_or_ge i l.length with h1 | h1
    · exact h1
    · rw [List.getElem?_eq_none h1] at h; cases h
  rw [List.getElem?_append_left hi]
  exact h

theorem lengths_at_not_ary {D E : Type} (k : Nat) {v : RValue D E} (h : is_ary v = false) :
    lengths_at k v = [] := by
  cases v <;> cases k <;> simp_all [lengths_at, is_ary]

theorem infer_not_ary_shape {D F E T : Type} (N : Numerics D F E) (c : ScalarCast D T)
    {v : RValue D E} (hv : is_ary v = false) (depth : Nat) (sh : List Int) (fl : List T)
    (sh1 : List Int) (fl1 : List T)
    (h : infer_shape_and_flatten_typed N c v depth (sh, fl) = .ok (sh1, fl1)) : sh1 = sh := by
  cases v <;> simp only [is_ary, reduceCtorEq] at hv <;>
    simp only [infer_shape_and_flatten_typed, is_numeric_scalar, rb_raise, Bool.not_true,
      Bool.not_false, if_true, if_false, Bool.false_eq_true, reduceCtorEq] at h <;>
    (split at h
     · cases h
     · split at h
       · cases h; rfl
       · cases h)

theorem infer_records_not_ary {D F E T : Type} (N : Numerics D F E) (c : ScalarCast D T)
    (v : RValue D E) (hv : is_ary v = false) (depth : Nat) (sh : List Int) (fl : List T)
    (sh1 : List Int) (fl1 : List T)
    (h : infer_shape_and_flatten_typed N c v depth (sh, fl) = .ok (sh1, fl1)) :
    (∃ ext, sh1 = sh ++ ext) ∧
      ∀ k a, a ∈ lengths_at k v → a < 2 ^ 31 → sh1[depth + k]? = some (a : Int) := by
  refine ⟨⟨[], ?_⟩, ?_⟩
  · rw [infer_not_ary_shape N c hv depth sh fl sh1 fl1 h]; simp
  · intro k a ha
    rw [lengths_at_not_ary k hv] at ha
    cases ha

mutual
/-- A successful flattening only extends the recorded shape, and every
sequence met at relative depth `k` has the length recorded at `depth + k`. -/
theorem infer_records_lengths {D F E T : Type} (N : Numerics D F E) (c : ScalarCast D T) :
    ∀ (v : RValue D E) (depth : Nat) (sh : List Int) (fl : List T) (sh1 : List Int)
      (fl1 : List T),
      infer_shape_and_flatten_typed N c v depth (sh, fl) = .ok (sh1, fl1) →
      depth ≤ sh.length →
      (∃ ext, sh1 = sh ++ ext) ∧
      ∀ k a, a ∈ lengths_at k v → a < 2 ^ 31 → sh1[depth + k]? = some (a : Int)
  | .ary xs, depth, sh, fl, sh1, fl1, h, hd => by
    simp only [infer_shape_and_flatten_typed] at h
    split at h
    · -- the length is recorded here
      rename_i hlen
      obtain ⟨⟨ext, hext⟩, hrec⟩ := infer_entries_records_lengths N c xs (depth + 1)
        (sh ++ [to_ShapeElem (xs.length : Int)]) fl sh1 fl1 h (by simp [hlen])
      refine ⟨⟨[to_ShapeElem (xs.length : Int)] ++ ext, by simp [hext]⟩, ?_⟩
      intro k a ha hfit
      cases k with
      | zero =>
        simp only [lengths_at, List.mem_singleton] at ha
        subst ha
        rw [hext, List.append_assoc, Nat.add_zero, ← hlen,
          List.getElem?_append_right (le_refl _)]
        simp [to_ShapeElem_of_lt _ hfit]
      | succ k =>
        simp only [lengths_at] at ha
        have := hrec k a ha hfit
        rw [← this]
        congr 1
        omega
    · rename_i hlen
      split at h
      · cases h
      · rename_i hget
        have hlt : depth < sh.length := lt_of_le_of_ne hd (Ne.symm hlen)
        obtain ⟨⟨ext, hext⟩, hrec⟩ := infer_entries_records_lengths N c xs (depth + 1)
          sh fl sh1 fl1 h hlt
        refine ⟨⟨ext, hext⟩, ?_⟩
        intro k a ha hfit
        cases k with
        | zero =>
          simp only [lengths_at, List.mem_singleton] at ha
          subst ha
          rw [hext, Nat.add_zero]
          apply getElem?_append_of_some
          have hg : sh.getD depth 0 = (xs.length : Int) := by
            by_contra hne
            exact hget hne
          rw [List.getD_eq_getElem?_getD, List.getElem?_eq_getElem hlt] at hg
          rw [List.getElem?_eq_getElem hlt]
          simpa using hg
        | succ k =>
          simp only [lengths_at] at ha
          have := hrec k a ha hfit
          rw [← this]
          congr 1
          omega
  | .nil, depth, sh, fl, sh1, fl1, h, _ =>
    infer_records_not_ary N c .nil rfl depth sh fl sh1 fl1 h
  | .bool w, depth, sh, fl, sh1, fl1, h, _ =>
    infer_records_not_ary N c (.bool w) rfl depth sh fl sh1 fl1 h
  | .int w, depth, sh, fl, sh1, fl1, h, _ =>
    infer_records_not_ary N c (.int w) rfl depth sh fl sh1 fl1 h
  | .float w, depth, sh, fl, sh1, fl1, h, _ =>
    infer_records_not_ary N c (.float w) rfl depth sh fl sh1 fl1 h
  | .str w, depth, sh, fl, sh1, fl1, h, _ =>
    infer_records_not_ary N c (.str w) rfl depth sh fl sh1 fl1 h
  | .sym w, depth, sh, fl, sh1, fl1, h, _ =>
    infer_records_not_ary N c (.sym w) rfl depth sh fl sh1 fl1 h
  | .hash w, depth, sh, fl, sh1, fl1, h, _ =>
    infer_records_not_ary N c (.hash w) rfl depth sh fl sh1 fl1 h
  | .array w, depth, sh, fl, sh1, fl1, h, _ =>
    infer_records_not_ary N c (.array w) rfl depth sh fl sh1 fl1 h
  | .dtype w, depth, sh, fl, sh1, fl1, h, _ =>
    infer_records_not_ary N c (.dtype w) rfl depth sh fl sh1 fl1 h
  | .device w, depth, sh, fl, sh1, fl1, h, _ =>
    infer_records_not_ary N c (.device w) rfl depth sh fl sh1 fl1 h
  | .stream w, depth, sh, fl, sh1, fl1, h, _ =>
    infer_records_not_ary N c (.stream w) rfl depth sh fl sh1 fl1 h
/-- The statement of `infer_records_lengths` for the loop over entries. -/
theorem infer_entries_records_lengths {D F E T : Type} (N : Numerics D F E)
    (c : ScalarCast D T) :
    ∀ (xs : List (RValue D E)) (depth : Nat) (sh : List Int) (fl : List T) (sh1 : List Int)
      (fl1 : List T),
      infer_entries N c xs depth (sh, fl) = .ok (sh1, fl1) →
      depth ≤ sh.length →
      (∃ ext, sh1 = sh ++ ext) ∧
      ∀ k a, a ∈ lengths_at_entries k xs → a < 2 ^ 31 → sh1[depth + k]? = some (a : Int)
  | [], depth, sh, fl, sh1, fl1, h, _ => by
    simp only [infer_entries, Except.ok.injEq, Prod.mk.injEq] at h
    refine ⟨⟨[], by simp [h.1]⟩, ?_⟩
    intro k a ha
    simp [lengths_at_entries] at ha
  | x :: rest, depth, sh, fl, sh1, fl1, h, hd => by
    simp only [infer_entries] at h
    split at h
    · rename_i st1 hx
      obtain ⟨sh2, fl2⟩ := st1
      obtain ⟨⟨e1, he1⟩, hrec1⟩ := infer_records_lengths N c x depth sh fl sh2 fl2 hx hd
      obtain ⟨⟨e2, he2⟩, hrec2⟩ := infer_entries_records_lengths N c rest depth sh2 fl2 sh1 fl1 h
        (by rw [he1]; simp; omega)
      refine ⟨⟨e1 ++ e2, by rw [he2, he1, List.append_assoc]⟩, ?_⟩
      intro k a ha hfit
      simp only [lengths_at_entries, List.mem_append] at ha
      rcases ha with ha | ha
      · rw [he2]
        exact getElem?_append_of_some _ _ _ _ (hrec1 k a ha hfit)
      · exact hrec2 k a ha hfit
    · cases h
end

theorem infer_error_not_ary {D F E T : Type} (N : Numerics D F E) (c : ScalarCast D T)
    (v : RValue D E) (hv : is_ary v = false) (depth : Nat) (st : List Int × List T)
    (e : Raised) (hleaf : ∀ x ∈ leaves v, leaf_ok x)
    (h : infer_shape_and_flatten_typed N c v depth st = .error e) :
    ∃ msg, e = .ruby ⟨.ArgumentError, msg⟩ := by
  have hok : leaf_ok v := hleaf v (by rw [leaves_of_not_ary hv]; exact List.mem_singleton.mpr rfl)
  have hsv := scalar_value_of_leaf_ok N c hok
  obtain ⟨sh, fl⟩ := st
  cases v <;> simp only [leaf_ok] at hok <;>
    simp only [infer_shape_and_flatten_typed, is_numeric_scalar, rb_raise, Bool.not_true,
      Bool.false_eq_true, if_false, hsv] at h <;>
    (split at h
     · cases h; exact ⟨_, rfl⟩
     · cases h)

mutual
/-- When every leaf converts, the only errors of the flattening are the
`ArgumentError`s for ragged input and inconsistent depth. -/
theorem infer_error_class {D F E T : Type} (N : Numerics D F E) (c : ScalarCast D T) :
    ∀ (v : RValue D E) (depth : Nat) (st : List Int × List T) (e : Raised),
      (∀ x ∈ leaves v, leaf_ok x) →
      infer_shape_and_flatten_typed N c v depth st = .error e →
      ∃ msg, e = .ruby ⟨.ArgumentError, msg⟩
  | .ary xs, depth, (sh, fl), e, hleaf, h => by
    have hl : ∀ x ∈ leaves_of_entries xs, leaf_ok x := by
      intro x hx; exact hleaf x (by simpa [leaves] using hx)
    simp only [infer_shape_and_flatten_typed] at h
    split at h
    · exact infer_entries_error_class N c xs (depth + 1) _ e hl h
    · split at h
      · simp only [rb_raise, Except.error.injEq] at h
        exact ⟨_, h.symm⟩
      · exact infer_entries_error_class N c xs (depth + 1) _ e hl h
  | .nil, depth, st, e, hleaf, h => infer_error_not_ary N c .nil rfl depth st e hleaf h
  | .bool w, depth, st, e, hleaf, h => infer_error_not_ary N c (.bool w) rfl depth st e hleaf h
  | .int w, depth, st, e, hleaf, h => infer_error_not_ary N c (.int w) rfl depth st e hleaf h
  | .float w, depth, st, e, hleaf, h => infer_error_not_ary N c (.float w) rfl depth st e hleaf h
  | .str w, depth, st, e, hleaf, h => infer_error_not_ary N c (.str w) rfl depth st e hleaf h
  | .sym w, depth, st, e, hleaf, h => infer_error_not_ary N c (.sym w) rfl depth st e hleaf h
  | .hash w, depth, st, e, hleaf, h => infer_error_not_ary N c (.hash w) rfl depth st e hleaf h
  | .array w, depth, st, e, hleaf, h => infer_error_not_ary N c (.array w) rfl depth st e hleaf h
  | .dtype w, depth, st, e, hleaf, h => infer_error_not_ary N c (.dtype w) rfl depth st e hleaf h
  | .device w, depth, st, e, hleaf, h =>
    infer_error_not_ary N c (.device w) rfl depth st e hleaf h
  | .stream w, depth, st, e, hleaf, h =>
    infer_error_not_ary N c (.stream w) rfl depth st e hleaf h
/-- The statement of `infer_error_class` for the loop over entries. -/
theorem infer_entries_error_class {D F E T : Type} (N : Numerics D F E) (c : ScalarCast D T) :
    ∀ (xs : List (RValue D E)) (depth : Nat) (st : List Int × List T) (e : Raised),
      (∀ x ∈ leaves_of_entries xs, leaf_ok x) →
      infer_entries N c xs depth st = .error e →
      ∃ msg, e = .ruby ⟨.ArgumentError, msg⟩
  | [], depth, st, e, _, h => by
    simp [infer_entries] at h
  | x :: rest, depth, st, e, hleaf, h => by
    simp only [infer_entries] at h
    split at h
    · exact infer_entries_error_class N c rest depth _ e
        (fun y hy => hleaf y (by
          simp only [leaves_of_entries, List.mem_append]; exact Or.inr hy)) h
    · rename_i e1 hx
      cases h
      exact infer_error_class N c x depth st _
        (fun y hy => hleaf y (by
          simp only [leaves_of_entries, List.mem_append]; exact Or.inl hy)) hx
end

/-- Flattening a sequence in which two sequences at one depth differ in length
raises; when every leaf converts, it raises an `ArgumentError`. -/
theorem ragged_infer_fails {D F E T : Type} (N : Numerics D F E) (c : ScalarCast D T)
    (v : RValue D E) (hfit : ∀ k, ∀ a ∈ lengths_at k v, a < 2 ^ 31)
    (hr : ∃ k a b, a ∈ lengths_at k v ∧ b ∈ lengths_at k v ∧ a ≠ b) :
    ∃ e, infer_shape_and_flatten_typed N c v 0 ([], []) = .error e ∧
      ((∀ x ∈ leaves v, leaf_ok x) → ∃ msg, e = .ruby ⟨.ArgumentError, msg⟩) := by
  cases hres : infer_shape_and_flatten_typed N c v 0 ([], []) with
  | error e => exact ⟨e, rfl, fun hleaf => infer_error_class N c v 0 _ e hleaf hres⟩
  | ok st =>
    obtain ⟨sh1, fl1⟩ := st
    obtain ⟨k, a, b, ha, hb, hab⟩ := hr
    have hrec := (infer_records_lengths N c v 0 [] [] sh1 fl1 hres (Nat.le_refl _)).2
    have h1 := hrec k a ha (hfit k a ha)
    have h2 := hrec k b hb (hfit k b hb)
    rw [h1] at h2
    exact absurd (by simpa using h2) hab

/-- C2 (amended). Array construction from a nested sequence (lengths within the
32-bit shape element type) in which two sequences at the same nesting depth
differ in length always raises and returns no array; when every leaf is a
boolean, a Float or an Integer in the range of `long long`, the exception is
an `ArgumentError`, the class of the ragged-shape error. -/
theorem ragged_rejected {D F E : Type} (N : Numerics D F E) (v : RValue D E)
    (dtype : Option Dtype) (hfit : ∀ k, ∀ a ∈ lengths_at k v, a < 2 ^ 31)
    (hr : ∃ k a b, a ∈ lengths_at k v ∧ b ∈ lengths_at k v ∧ a ≠ b) :
    ∃ e, tensor_array_from_ruby N v dtype = .error e ∧
      ((∀ x ∈ leaves v, leaf_ok x) → ∃ msg, e = .ruby ⟨.ArgumentError, msg⟩) := by
  obtain ⟨e1, h1, hc1⟩ := ragged_infer_fails N (float_cast N) v hfit hr
  obtain ⟨e2, h2, hc2⟩ := ragged_infer_fails N (double_cast N) v hfit hr
  unfold tensor_array_from_ruby
  by_cases hb : (if dtype.getD .float32 = .float64 then Dtype.float32
      else dtype.getD .float32) = .float32
  · exact ⟨e1, by simp only [hb, if_true, h1], hc1⟩
  · exact ⟨e2, by simp only [hb, if_false, h2], hc2⟩

/-- Witness for `ragged_rejected`: `[[1, 2], [3]]` has sequences of lengths 2
and 1 at depth 1 and is rejected with the ragged-input `ArgumentError`. -/
theorem ragged_rejected_witness :
    (2 ∈ lengths_at 1 (.ary [.ary [.int 1, .int 2], .ary [.int 3]] : IValue) ∧
     1 ∈ lengths_at 1 (.ary [.ary [.int 1, .int 2], .ary [.int 3]] : IValue)) ∧
    tensor_array_from_ruby exact_int_numerics
        (.ary [.ary [.int 1, .int 2], .ary [.int 3]] : IValue) none
      = .error (.ruby ⟨.ArgumentError, "ragged array input is not supported"⟩) ∧
    ∃ e, tensor_array_from_ruby exact_int_numerics
        (.ary [.ary [.int 1, .int 2], .ary [.int 3]] : IValue) none = .error e ∧
      ((∀ x ∈ leaves (.ary [.ary [.int 1, .int 2], .ary [.int 3]] : IValue), leaf_ok x) →
        ∃ msg, e = .ruby ⟨.ArgumentError, msg⟩) :=
  ⟨by simp [lengths_at, lengths_at_entries], rfl,
   ragged_rejected exact_int_numerics (.ary [.ary [.int 1, .int 2], .ary [.int 3]]) none
    (by
      intro k a ha
      rcases k with _ | _ | _ | k <;>
        simp [lengths_at, lengths_at_entries] at ha <;> omega)
    ⟨1, 2, 1, by simp [lengths_at, lengths_at_entries]⟩⟩

/-- C2 (counterexample). In `[["x", 2], [3]]` the sequences at depth 1 have
lengths 2 and 1, yet construction raises the `TypeError` for the non-numeric
leaf met first, not the ragged-shape error. -/
theorem ragged_preempted_by_type_error :
    (2 ∈ lengths_at 1 (.ary [.ary [.str "x", .int 2], .ary [.int 3]] : IValue) ∧
     1 ∈ lengths_at 1 (.ary [.ary [.str "x", .int 2], .ary [.int 3]] : IValue)) ∧
    tensor_array_from_ruby exact_int_numerics
        (.ary [.ary [.str "x", .int 2], .ary [.int 3]] : IValue) none
      = .error (.ruby ⟨.TypeError, "nested arrays must contain only numeric/boolean scalars"⟩) :=
  ⟨by simp [lengths_at, lengths_at_entries], rfl⟩

/-! ## Indexing -/

/-- C3 (amended). Negative index wraparound: for an array whose first axis has
length `n` (a non-negative 32-bit shape element), `Array#[]` with an Integer
index `i` selects row `i` when `0 <= i < n`, selects row `i + n` when
`-n <= i < 0`, raises `IndexError` for every other `i` in the range of a C
`int`, and raises `RangeError` (from the conversion `NUM2INT`) for an `i`
outside that range; on a rank-0 array an Integer index raises
`ArgumentError`. -/
theorem aref_index_normalisation {D E : Type} (n : Int) (rest : List Int) (dt : Dtype)
    (data : List E) (i : Int) (hn : 0 ≤ n ∧ n < 2 ^ 31) :
    (0 ≤ i → i < n →
      array_aref ⟨n :: rest, dt, data⟩ (.int i : RValue D E)
        = .ok (row_slice (n :: rest) i)) ∧
    (-n ≤ i → i < 0 →
      array_aref ⟨n :: rest, dt, data⟩ (.int i : RValue D E)
        = .ok (row_slice (n :: rest) (i + n))) ∧
    ((i < -n ∨ n ≤ i) → -(2 : Int) ^ 31 ≤ i → i < (2 : Int) ^ 31 →
      array_aref ⟨n :: rest, dt, data⟩ (.int i : RValue D E)
        = .error (.ruby ⟨.IndexError, "index out of range"⟩)) ∧
    ((i < -(2 : Int) ^ 31 ∨ (2 : Int) ^ 31 ≤ i) →
      array_aref ⟨n :: rest, dt, data⟩ (.int i : RValue D E)
        = .error (.ruby ⟨.RangeError, "integer out of range of int"⟩)) ∧
    array_aref ⟨[], dt, data⟩ (.int i : RValue D E)
      = .error (.ruby ⟨.ArgumentError, "cannot index a scalar array"⟩) := by
  obtain ⟨hn0, hn1⟩ := hn
  refine ⟨?_, ?_, ?_, ?_, ?_⟩
  · intro h0 h1
    have hr : -2147483648 ≤ i ∧ i < 2147483648 := by constructor <;> omega
    have h2 : ¬ i < 0 := by omega
    have h3 : ¬ n ≤ i := by omega
    simp [array_aref, try_catch, NUM2INT, MxArray.ndim, hr, h2, h3, row_slice,
      List.replicate_succ]
  · intro h0 h1
    have hr : -2147483648 ≤ i ∧ i < 2147483648 := by constructor <;> omega
    have h3 : ¬ i + n < 0 := by omega
    have h4 : ¬ 0 ≤ i := by omega
    simp [array_aref, try_catch, NUM2INT, MxArray.ndim, hr, h1, h3, h4, row_slice,
      List.replicate_succ]
  · intro h0 h1 h2
    have hr : -2147483648 ≤ i ∧ i < 2147483648 := by constructor <;> omega
    by_cases hneg : i < 0
    · have h3 : i + n < 0 := by omega
      simp [array_aref, try_catch, NUM2INT, MxArray.ndim, hr, hneg, h3, rb_raise]
    · have h3 : n ≤ i := by omega
      simp [array_aref, try_catch, NUM2INT, MxArray.ndim, hr, hneg, h3, rb_raise]
  · intro h0
    have hr : ¬ (-2147483648 ≤ i ∧ i < 2147483648) := by omega
    simp [array_aref, try_catch, NUM2INT, MxArray.ndim, hr, rb_raise]
  · simp [array_aref, try_catch, MxArray.ndim, rb_raise]

/-- Witness for `aref_index_normalisation`: on a first axis of length 5, index
`-1` selects the same row as index `4`. -/
theorem aref_index_normalisation_witness :
    ((0 : Int) ≤ 5 ∧ (5 : Int) < 2 ^ 31) ∧
    array_aref ⟨[5], .float32, [10, 11, 12, 13, 14]⟩ (.int (-1) : IValue)
      = .ok (row_slice [5] (-1 + 5)) :=
  ⟨by decide,
   (@aref_index_normalisation Int Int 5 [] .float32 [10, 11, 12, 13, 14] (-1)
      (by decide)).2.1 (by decide) (by decide)⟩

/-- C3 (counterexample). On a first axis of length 5 the Integer index `2^31`,
which is neither in `[0, 5)` nor in `[-5, 0)`, raises `RangeError`, not the
index-range error `IndexError`. -/
theorem aref_huge_index_raises_range_error :
    array_aref ⟨[5], .float32, [10, 11, 12, 13, 14]⟩ (.int (2 ^ 31) : IValue)
      = .error (.ruby ⟨.RangeError, "integer out of range of int"⟩) ∧
    array_aref ⟨[5], .float32, [10, 11, 12, 13, 14]⟩ (.int (2 ^ 31) : IValue)
      ≠ .error (.ruby ⟨.IndexError, "index out of range"⟩) := by
  constructor
  · rfl
  · simp [array_aref, try_catch, NUM2INT, MxArray.ndim, rb_raise]

/-! ## Scoped stream -/

/-- C5 (the code at the failing input). When the engine operation throws on the
operands, `array_binary_op` lets the C++ exception leave the entry point: the
operators `+`, `-`, `*`, `/` do not re-raise it as `RuntimeError`, whereas
`core_add` on the same operands raises `RuntimeError` with the message of the
engine. -/
theorem array_operator_engine_error_uncaught {D F E : Type} (N : Numerics D F E)
    (eng : Engine E) (self rhs : MxArray E) (other : RValue D E) (what : String)
    (hrhs : array_from_ruby N other none = .ok rhs)
    (hthrow : eng.add self rhs = .error what) :
    (∀ op : MxArray E → MxArray E → Except String (MxArray E), op self rhs = .error what →
      array_binary_op N self other op = .error (.cpp what)) ∧
    array_add N eng self other = .error (.cpp what) ∧
    core_add N eng (.array self) other = .error (.ruby ⟨.RuntimeError, what⟩) := by
  refine ⟨?_, ?_, ?_⟩
  · intro op hop
    simp [array_binary_op, hrhs, hop, engine_call]
  · simp [array_add, array_binary_op, hrhs, hthrow, engine_call]
  · have hself : array_from_ruby N (.array self : RValue D E) none = .ok self := rfl
    simp only [core_add, hself, hrhs, hthrow, engine_call, try_catch, raise_std_exception,
      rb_raise]

/-- Witness for `array_operator_engine_error_uncaught`: adding arrays of shapes
`(3)` and `(2)` with the sample engine. -/
theorem array_operator_engine_error_uncaught_witness :
    sample_engine.add ⟨[3], .float32, [1, 2, 3]⟩ ⟨[2], .float32, [1, 2]⟩
      = .error "Shapes cannot be broadcast" ∧
    array_add exact_int_numerics sample_engine ⟨[3], .float32, [1, 2, 3]⟩
        (.array ⟨[2], .float32, [1, 2]⟩ : IValue)
      = .error (.cpp "Shapes cannot be broadcast") ∧
    core_add exact_int_numerics sample_engine (.array ⟨[3], .float32, [1, 2, 3]⟩ : IValue)
        (.array ⟨[2], .float32, [1, 2]⟩)
      = .error (.ruby ⟨.RuntimeError, "Shapes cannot be broadcast"⟩) :=
  ⟨rfl, (array_operator_engine_error_uncaught exact_int_numerics sample_engine
      ⟨[3], .float32, [1, 2, 3]⟩ ⟨[2], .float32, [1, 2]⟩
      (.array ⟨[2], .float32, [1, 2]⟩) "Shapes cannot be broadcast" rfl rfl).2⟩

/-! ## Validation order of `convolve` -/

/-- The three engine operations `core_convolve` invokes before it looks at the
mode: the reversal slice of the kernel of length `w` and the two reshapes. -/
theorem convolve_raise_trace {D F E : Type} (N : Numerics D F E) (argv : List (RValue D E))
    (tr : List EngineOp) (e : Raised) (h : core_convolve N argv = (tr, .error e)) :
    tr = [] ∨
    (e = .ruby ⟨.ArgumentError, "convolve mode must be one of: full, valid, same"⟩ ∧
      ∃ w : Int, tr = [.slice [w - 1] [-w - 1] [-1], .reshape [1, -1, 1],
        .reshape [1, -1, 1]]) := by
  unfold core_convolve at h
  simp only [convolve_finish] at h
  repeat' split at h
  all_goals first
    | (left; exact (Prod.mk.inj h).1.symm)
    | (right
       obtain ⟨h1, h2⟩ := Prod.mk.inj h
       simp only [rb_raise, Except.error.injEq] at h2
       exact ⟨h2.symm, _, h1.symm⟩)
    | (exfalso; simp only [Prod.mk.injEq, reduceCtorEq, and_false] at h)

/-- C6 (amended). Validation order of `convolve`, for inputs that convert to
the arrays `lhs` and `rhs` and a mode given as a String `m`: an input that is
not 1-D, and an empty input, raise `ArgumentError` before any of the engine
operations slice, reshape, pad, conv1d is invoked; a mode other than full,
valid, same raises `ArgumentError` after the reversal slice and the two
reshapes were invoked and before pad and conv1d. Whenever `convolve` raises,
either no engine operation was invoked or it raises the mode error after
exactly those three. -/
theorem convolve_validation {D F E : Type} (N : Numerics D F E) (a v : RValue D E)
    (m : String) (lhs rhs : MxArray E) (hm : has_null_byte m = false)
    (ha : array_from_ruby N a none = .ok lhs) (hv : array_from_ruby N v none = .ok rhs) :
    ((lhs.ndim ≠ 1 ∨ rhs.ndim ≠ 1) →
      core_convolve N [a, v, .str m]
        = ([], .error (.ruby ⟨.ArgumentError, "convolve inputs must be 1D"⟩))) ∧
    (lhs.ndim = 1 → rhs.ndim = 1 → (lhs.size = 0 ∨ rhs.size = 0) →
      core_convolve N [a, v, .str m]
        = ([], .error (.ruby ⟨.ArgumentError, "convolve inputs cannot be empty"⟩))) ∧
    (lhs.ndim = 1 → rhs.ndim = 1 → lhs.size ≠ 0 → rhs.size ≠ 0 →
      m ≠ "full" → m ≠ "valid" → m ≠ "same" →
      ∃ w : Int, core_convolve N [a, v, .str m]
        = ([.slice [w - 1] [-w - 1] [-1], .reshape [1, -1, 1], .reshape [1, -1, 1]],
           .error (.ruby ⟨.ArgumentError,
             "convolve mode must be one of: full, valid, same"⟩))) ∧
    (∀ (argv : List (RValue D E)) (tr : List EngineOp) (e : Raised),
      core_convolve N argv = (tr, .error e) →
      tr = [] ∨
      (e = .ruby ⟨.ArgumentError, "convolve mode must be one of: full, valid, same"⟩ ∧
        ∃ w : Int, tr = [.slice [w - 1] [-w - 1] [-1], .reshape [1, -1, 1],
          .reshape [1, -1, 1]])) := by
  have hscan : rb_scan_args 2 1 [a, v, .str m] = .ok [a, v, .str m] := by
    simp [rb_scan_args]
  refine ⟨?_, ?_, ?_, fun argv tr e h => convolve_raise_trace N argv tr e h⟩
  · intro h1
    simp [core_convolve, hscan, scanned, NIL_P, StringValueCStr, hm, ha, hv, h1, rb_raise]
  · intro h1 h2 h3
    simp [core_convolve, hscan, scanned, NIL_P, StringValueCStr, hm, ha, hv, h1, h2, h3,
      rb_raise]
  · intro h1 h2 h3 h4 h5 h6 h7
    refine ⟨(if lhs.size < rhs.size then lhs else rhs).shape.headD 0, ?_⟩
    simp only [core_convolve, hscan, scanned, NIL_P, StringValueCStr, hm, ha, hv, h1, h2, h3,
      h4, h5, h6, h7, rb_raise, List.getD_cons_zero, List.getD_cons_succ, Bool.false_eq_true,
      if_false, ne_eq, not_true_eq_false, or_self]

/-- Witness for `convolve_validation`: a two-dimensional first input. -/
theorem convolve_validation_witness :
    array_from_ruby exact_int_numerics (.ary [.ary [.int 1, .int 2]] : IValue) none
      = .ok ⟨[1, 2], .float32, [1, 2]⟩ ∧
    core_convolve exact_int_numerics
        [(.ary [.ary [.int 1, .int 2]] : IValue), .ary [.int 3], .str "full"]
      = ([], .error (.ruby ⟨.ArgumentError, "convolve inputs must be 1D"⟩)) :=
  ⟨rfl, (convolve_validation exact_int_numerics (.ary [.ary [.int 1, .int 2]])
      (.ary [.int 3]) "full" ⟨[1, 2], .float32, [1, 2]⟩ ⟨[1], .float32, [3]⟩
      (by decide) rfl rfl).1 (Or.inl (by decide))⟩

/-- C6 (counterexample). The call `convolve([1, 2], [3], "bogus")` fails the mode
validation only after the engine operations slice, reshape and reshape have
been invoked. -/
theorem convolve_mode_checked_after_engine_calls :
    core_convolve exact_int_numerics
        [(.ary [.int 1, .int 2] : IValue), .ary [.int 3], .str "bogus"]
      = ([.slice [0] [-2] [-1], .reshape [1, -1, 1], .reshape [1, -1, 1]],
         .error (.ruby ⟨.ArgumentError,
           "convolve mode must be one of: full, valid, same"⟩)) := by
  rfl

/-! ## Build precision -/

/-- C7 (amended). Build precision of `tensor_array_from_ruby`: with a float64
target the leaves are flattened into a single-precision buffer, the array is
built as float32 and then cast to float64; with a float32 target, or none, the
leaves are flattened in single precision and the float32 array is returned
without a cast; with any other target the leaves are flattened in double
precision and the array is built directly in the target dtype, without a
cast. On `[1, 2, 3]` with a float64 target the values are exactly 1, 2, 3. -/
theorem tensor_build_precision {D F E : Type} (N : Numerics D F E) (value : RValue D E)
    (t : Dtype) :
    tensor_array_from_ruby N value (some .float64)
      = (infer_shape_and_flatten_typed N (float_cast N) value 0 ([], [])).map
          (fun r => mx_astype N (mx_array_from_buffer (N.fromFloat .float32) r.2 r.1 .float32)
            .float64) ∧
    tensor_array_from_ruby N value none
      = (infer_shape_and_flatten_typed N (float_cast N) value 0 ([], [])).map
          (fun r => mx_array_from_buffer (N.fromFloat .float32) r.2 r.1 .float32) ∧
    tensor_array_from_ruby N value (some .float32)
      = (infer_shape_and_flatten_typed N (float_cast N) value 0 ([], [])).map
          (fun r => mx_array_from_buffer (N.fromFloat .float32) r.2 r.1 .float32) ∧
    tensor_array_from_ruby N value (some t)
      = (if t = .float64 then tensor_array_from_ruby N value (some .float64)
         else if t = .float32 then tensor_array_from_ruby N value (some .float32)
         else (infer_shape_and_flatten_typed N (double_cast N) value 0 ([], [])).map
           (fun r => mx_array_from_buffer (N.fromDouble t) r.2 r.1 t)) ∧
    tensor_array_from_ruby exact_int_numerics (.ary [.int 1, .int 2, .int 3] : IValue)
        (some .float64)
      = .ok ⟨[3], .float64, [1, 2, 3]⟩ := by
  refine ⟨?_, ?_, ?_, ?_, rfl⟩
  · unfold tensor_array_from_ruby
    cases infer_shape_and_flatten_typed N (float_cast N) value 0 ([], []) <;>
      simp [Except.map]
  · unfold tensor_array_from_ruby
    cases infer_shape_and_flatten_typed N (float_cast N) value 0 ([], []) <;>
      simp [Except.map]
  · unfold tensor_array_from_ruby
    cases infer_shape_and_flatten_typed N (float_cast N) value 0 ([], []) <;>
      simp [Except.map]
  · by_cases h64 : t = .float64
    · simp [h64]
    · by_cases h32 : t = .float32
      · simp [h32]
      · unfold tensor_array_from_ruby
        cases infer_shape_and_flatten_typed N (double_cast N) value 0 ([], []) <;>
          simp [Except.map, h64, h32]

/-- C7 (counterexample). With a float64 target the leaf `16777217 = 2^24 + 1`,
which as a double is `16777217`, is stored as `16777216`: it went through
single precision. With the target int32 the same leaf is stored as `16777217`:
the buffer was not built in single precision. -/
theorem float64_target_built_in_single_precision :
    tensor_array_from_ruby exact_int_numerics (.ary [.int 16777217] : IValue) (some .float64)
      = .ok ⟨[1], .float64, [16777216]⟩ ∧
    exact_int_numerics.llToDouble 16777217 = 16777217 ∧
    tensor_array_from_ruby exact_int_numerics (.ary [.int 16777217] : IValue) (some .int32)
      = .ok ⟨[1], .int32, [16777217]⟩ ∧
    exact_int_numerics.llToFloat 16777217 = 16777216 := by
  refine ⟨rfl, rfl, rfl, rfl⟩

/-! ## Axis arguments of reductions -/

/-- C8 (amended). Axis arguments of the reductions, for an Array handle `a`, an
Integer `n` in the range of a C `int` and a host list `xs` of such Integers
with entries `ns`: each of the thirteen reductions called with the axis `n`
makes the engine call with the single axis `n` (with `keepdims` as given for
those that take it); prod, max, min, all, any, var, std, median and logsumexp
called with the axis `xs` make one engine call with the axes `ns`; argmax and
argmin called with the axis `xs` raise `TypeError`. Lists as the axis of sum
and mean are not covered. -/
theorem reduction_axis_forms {D F E : Type} (N : Numerics D F E) (a : MxArray E) (n : Int)
    (xs : List (RValue D E)) (ns : List Int) (kd : RValue D E)
    (hn : -(2 : Int) ^ 31 ≤ n ∧ n < (2 : Int) ^ 31)
    (hxs : int_vector_from_ruby (.ary xs) = .ok ns) :
    (∀ op : ReduceOp, ∃ call, core_reduce N op [.array a, .int n] = .ok call ∧
      call.op = op ∧ call.a = a ∧ call.axes = .one n) ∧
    (∀ op : ReduceOp, op ≠ .sum → op ≠ .mean →
      ∃ call, core_reduce N op [.array a, .int n, kd] = .ok call ∧
        call.op = op ∧ call.a = a ∧ call.axes = .one n ∧ call.keepdims = keepdims_value kd) ∧
    (∀ op : ReduceOp, op ∈ [.prod, .max, .min, .all, .any, .var, .std, .median, .logsumexp] →
      ∃ call, core_reduce N op [.array a, .ary xs] = .ok call ∧
        call.op = op ∧ call.a = a ∧ call.axes = .many ns) ∧
    core_reduce N .argmax [.array a, .ary xs]
      = .error (.ruby ⟨.TypeError, "axis must be an integer for argmax"⟩) ∧
    core_reduce N .argmin [.array a, .ary xs]
      = .error (.ruby ⟨.TypeError, "axis must be an integer for argmin"⟩) := by
  have hnum : NUM2INT n = .ok n := by
    have h : -2147483648 ≤ n ∧ n < 2147483648 := by constructor <;> omega
    simp [NUM2INT, h]
  refine ⟨?_, ?_, ?_, ?_, ?_⟩
  · intro op
    cases op <;>
      simp [core_reduce, core_sum, core_mean, core_prod, core_max, core_min, core_all,
        core_any, core_var, core_std, core_median, core_logsumexp, core_argmax, core_argmin,
        reduce_single_axis, reduce_int_or_list, reduce_with_ddof, reduce_int_only,
        axis_int_or_list, rb_scan_args, scanned, array_unwrap, NIL_P, NUM2INT_value, hnum,
        try_catch, keepdims_value]
  · intro op h1 h2
    cases op <;>
      simp [core_reduce, core_prod, core_max, core_min, core_all,
        core_any, core_var, core_std, core_median, core_logsumexp, core_argmax, core_argmin,
        reduce_int_or_list, reduce_with_ddof, reduce_int_only,
        axis_int_or_list, rb_scan_args, scanned, array_unwrap, NIL_P, hnum,
        try_catch] at h1 h2 ⊢
  · intro op hop
    simp only [List.mem_cons, List.mem_singleton, List.not_mem_nil, or_false] at hop
    rcases hop with h | h | h | h | h | h | h | h | h <;> subst h <;>
      simp [core_reduce, core_prod, core_max, core_min, core_all,
        core_any, core_var, core_std, core_median, core_logsumexp,
        reduce_int_or_list, reduce_with_ddof,
        axis_int_or_list, rb_scan_args, scanned, array_unwrap, NIL_P, hxs,
        try_catch, keepdims_value]
  · simp [core_reduce, core_argmax, reduce_int_only, rb_scan_args, scanned, array_unwrap,
      try_catch, rb_raise]
  · simp [core_reduce, core_argmin, reduce_int_only, rb_scan_args, scanned, array_unwrap,
      try_catch, rb_raise]

/-- Witness for `reduction_axis_forms`: `max` over the axes `[0, 1]` of a
`2 x 2` array is one engine call with both axes. -/
theorem reduction_axis_forms_witness :
    int_vector_from_ruby (.ary [.int 0, .int 1] : IValue) = .ok [0, 1] ∧
    ∃ call, core_reduce exact_int_numerics .max
        [(.array ⟨[2, 2], .float32, [1, 2, 3, 4]⟩ : IValue), .ary [.int 0, .int 1]] = .ok call ∧
      call.op = .max ∧ call.a = ⟨[2, 2], .float32, [1, 2, 3, 4]⟩ ∧ call.axes = .many [0, 1] :=
  ⟨rfl, (reduction_axis_forms exact_int_numerics ⟨[2, 2], .float32, [1, 2, 3, 4]⟩ 0
      [.int 0, .int 1] [0, 1] .nil (by decide) rfl).2.2.1 .max (by simp)⟩

/-- C8 (counterexample). The reduction `argmax` refuses a list of Integers as
its axis with `TypeError`. -/
theorem argmax_rejects_axis_list :
    core_reduce exact_int_numerics .argmax
        [(.array ⟨[2, 2], .float32, [1, 2, 3, 4]⟩ : IValue), .ary [.int 0, .int 1]]
      = .error (.ruby ⟨.TypeError, "axis must be an integer for argmax"⟩) := by
  rfl

/-! ## Projection of results -/

theorem auto_eq_unwrap_rule {D E : Type} (outs : List (MxArray E)) :
    (ruby_from_array_vector_auto outs : RValue D E) = unwrap_rule outs := by
  match outs with
  | [] => simp [ruby_from_array_vector_auto, unwrap_rule, ruby_array_of_arrays]
  | [a] => simp [ruby_from_array_vector_auto, unwrap_rule, array_wrap]
  | a :: b :: rest =>
    simp [ruby_from_array_vector_auto, unwrap_rule, ruby_array_of_arrays, array_wrap]

theorem unwrap_rule_cases {D E : Type} (outs : List (MxArray E)) :
    (outs.length = 1 → ∃ a, outs = [a] ∧ (unwrap_rule outs : RValue D E) = .array a) ∧
    (outs.length ≠ 1 → (unwrap_rule outs : RValue D E) = .ary (outs.map .array)) := by
  constructor
  · intro h
    match outs, h with
    | [a], _ => exact ⟨a, rfl, by simp [unwrap_rule]⟩
  · intro h
    simp [unwrap_rule, h]

/-- C9. Automatic unwrap: for a Function handle whose always-array-output flag
is unset, when the arguments convert and the wrapped computation returns the
list `outs` of `k` arrays, `Function#call` returns the bare array when `k = 1`
and the sequence of the `k` arrays in order otherwise (the empty sequence for
`k = 0`), for the array-list shape and for the (positional, keyword) shape; for
a value-and-gradient handle it returns the 2-element sequence of the value
part and the gradient part, each projected by the same rule. -/
theorem function_call_unwrap {D F E : Type} (N : Numerics D F E)
    (to_s : RValue D E → String) (w : FunctionWrapper E) (argv : List (RValue D E))
    (hflag : w.always_array_output = false) :
    (∀ f args kw outs, w.accepts_args_kwargs = true → w.args_kwargs_fn = some f →
      function_call_args_kwargs N to_s argv = .ok (args, kw) → f args kw = .ok outs →
      function_call N to_s w argv = .ok (unwrap_rule outs)) ∧
    (∀ f inputs outs, w.accepts_args_kwargs = false → w.returns_value_and_grad = false →
      w.vector_fn = some f → arrays_from_args N argv = .ok inputs → f inputs = .ok outs →
      function_call N to_s w argv = .ok (unwrap_rule outs)) ∧
    (∀ g inputs vals grads, w.accepts_args_kwargs = false → w.returns_value_and_grad = true →
      w.value_grad_fn = some g → arrays_from_args N argv = .ok inputs →
      g inputs = .ok (vals, grads) →
      function_call N to_s w argv = .ok (.ary [unwrap_rule vals, unwrap_rule grads])) ∧
    (∀ outs : List (MxArray E),
      (outs.length = 1 → ∃ a, outs = [a] ∧ (unwrap_rule outs : RValue D E) = .array a) ∧
      (outs.length ≠ 1 → (unwrap_rule outs : RValue D E) = .ary (outs.map .array))) := by
  refine ⟨?_, ?_, ?_, unwrap_rule_cases⟩
  · intro f args kw outs h1 h2 h3 h4
    simp [function_call, h1, h2, h3, h4, hflag, call_args_kwargs_fn, call_without_gvl,
      engine_call, try_catch, auto_eq_unwrap_rule]
  · intro f inputs outs h1 h2 h3 h4 h5
    simp [function_call, h1, h2, h3, h4, h5, call_std_function, call_without_gvl,
      engine_call, try_catch, auto_eq_unwrap_rule]
  · intro g inputs vals grads h1 h2 h3 h4 h5
    simp [function_call, h1, h2, h3, h4, h5, call_std_function, call_without_gvl,
      engine_call, try_catch, auto_eq_unwrap_rule]

/-- Witness for `function_call_unwrap`: a handle of the array-list shape that
returns its inputs, called with one array and with two. -/
theorem function_call_unwrap_witness :
    function_call exact_int_numerics (fun _ => "")
        ⟨some (fun xs => .ok xs), none, none, false, false, false, false⟩
        [(.array ⟨[1], .float32, [5]⟩ : IValue)]
      = .ok (.array ⟨[1], .float32, [5]⟩) ∧
    function_call exact_int_numerics (fun _ => "")
        ⟨some (fun xs => .ok xs), none, none, false, false, false, false⟩
        [(.array ⟨[1], .float32, [5]⟩ : IValue), .array ⟨[1], .float32, [6]⟩]
      = .ok (.ary [.array ⟨[1], .float32, [5]⟩, .array ⟨[1], .float32, [6]⟩]) :=
  ⟨(function_call_unwrap exact_int_numerics (fun _ => "")
      ⟨some (fun xs => .ok xs), none, none, false, false, false, false⟩
      [.array ⟨[1], .float32, [5]⟩] rfl).2.1 (fun xs => .ok xs) [⟨[1], .float32, [5]⟩]
      [⟨[1], .float32, [5]⟩] rfl rfl rfl rfl rfl,
   (function_call_unwrap exact_int_numerics (fun _ => "")
      ⟨some (fun xs => .ok xs), none, none, false, false, false, false⟩
      [.array ⟨[1], .float32, [5]⟩, .array ⟨[1], .float32, [6]⟩] rfl).2.1 (fun xs => .ok xs)
      [⟨[1], .float32, [5]⟩, ⟨[1], .float32, [6]⟩]
      [⟨[1], .float32, [5]⟩, ⟨[1], .float32, [6]⟩] rfl rfl rfl rfl rfl⟩

/-! ## Arity of multi-output operations -/

/-- C10. Multi-output arity, for every engine. `split` of an Array handle by a
count `p` (an `int`) or at the indices `xs`, with the optional axis absent,
`nil` or given: when the engine's `split` of these arguments returns the list
`outs`, the entry point returns the host sequence of exactly those arrays in
order, whatever their number. `quantize` of an operand converted to the array
`w` with its optional group size, bits and mode: when the engine's `quantize`
returns `outs`, the entry point returns the host sequence of exactly those
arrays in order. `qr`: when the engine's `qr` returns the pair `(q, r)`, the
entry point returns the 2-element sequence `[q, r]`. `svd`: when the engine's
`svd` returns the one-element list `[e]`, the entry point returns the bare
array `e`, and when it returns a list `outs` of another length, the sequence of
all of `outs` in order. -/
theorem multi_output_arity {D F E : Type} (N : Numerics D F E) (eng : Engine E) :
    (∀ (a : MxArray E) (p : Int) (rest : List (RValue D E)) (axis : Option Int)
        (outs : List (MxArray E)),
      rest.length ≤ 1 → -(2 : Int) ^ 31 ≤ p → p < (2 : Int) ^ 31 →
      optional_axis N (rest.getD 0 .nil) = .ok axis →
      eng.split_parts a p axis = .ok outs →
      core_split N eng (.array a :: .int p :: rest) = .ok (.ary (outs.map .array))) ∧
    (∀ (a : MxArray E) (xs rest : List (RValue D E)) (indices : List Int) (axis : Option Int)
        (outs : List (MxArray E)),
      rest.length ≤ 1 → shape_from_ruby (.ary xs : RValue D E) = .ok indices →
      optional_axis N (rest.getD 0 .nil) = .ok axis →
      eng.split_indices a indices axis = .ok outs →
      core_split N eng (.array a :: .ary xs :: rest) = .ok (.ary (outs.map .array))) ∧
    (∀ (x : RValue D E) (rest : List (RValue D E)) (w : MxArray E) (group_size bits : Option Int)
        (mode : String) (outs : List (MxArray E)),
      rest.length ≤ 3 → array_from_ruby N x none = .ok w →
      optional_int_arg N (x :: rest) 1 = .ok group_size →
      optional_int_arg N (x :: rest) 2 = .ok bits →
      (if 2 < rest.length ∧ !NIL_P (rest.getD 2 .nil) then StringValueCStr (rest.getD 2 .nil)
        else .ok "affine") = .ok mode →
      eng.quantize w group_size bits mode = .ok outs →
      core_quantize N eng (x :: rest) = .ok (.ary (outs.map .array))) ∧
    (∀ (x : RValue D E) (rest : List (RValue D E)) (w : MxArray E) (st : StreamOrDevice)
        (q r : MxArray E),
      rest.length ≤ 1 → array_from_ruby N x none = .ok w →
      stream_or_device_from_value (rest.getD 0 .nil) = .ok st →
      eng.qr w st = .ok (q, r) →
      core_qr N eng (x :: rest) = .ok (.ary [.array q, .array r])) ∧
    (∀ (x : RValue D E) (rest : List (RValue D E)) (w : MxArray E) (st : StreamOrDevice)
        (outs : List (MxArray E)),
      rest.length ≤ 2 → array_from_ruby N x none = .ok w →
      stream_or_device_from_value (rest.getD 1 .nil) = .ok st →
      eng.svd w (if NIL_P (rest.getD 0 .nil) then true else RTEST (rest.getD 0 .nil)) st
        = .ok outs →
      (∀ e, outs = [e] → core_svd N eng (x :: rest) = .ok (.array e)) ∧
      (outs.length ≠ 1 → core_svd N eng (x :: rest) = .ok (.ary (outs.map .array)))) := by
  refine ⟨?_, ?_, ?_, ?_, ?_⟩
  · intro a p rest axis outs hlen hp1 hp2 hax heng
    have hp : NUM2INT p = .ok p := by
      unfold NUM2INT
      rw [if_pos ⟨hp1, hp2⟩]
    match rest, hlen with
    | [], _ =>
      simp only [List.getD_nil] at hax
      simp [core_split, core_split_outputs, rb_scan_args, scanned, array_unwrap, hp, hax, heng,
        engine_call, try_catch, ruby_array_of_arrays, array_wrap]
    | [r], _ =>
      simp only [List.getD_cons_zero] at hax
      simp [core_split, core_split_outputs, rb_scan_args, scanned, array_unwrap, hp, hax, heng,
        engine_call, try_catch, ruby_array_of_arrays, array_wrap]
  · intro a xs rest indices axis outs hlen hsh hax heng
    match rest, hlen with
    | [], _ =>
      simp only [List.getD_nil] at hax
      simp [core_split, core_split_outputs, rb_scan_args, scanned, array_unwrap, hsh, hax, heng,
        engine_call, try_catch, ruby_array_of_arrays, array_wrap]
    | [r], _ =>
      simp only [List.getD_cons_zero] at hax
      simp [core_split, core_split_outputs, rb_scan_args, scanned, array_unwrap, hsh, hax, heng,
        engine_call, try_catch, ruby_array_of_arrays, array_wrap]
  · intro x rest w group_size bits mode outs hlen hw hgs hbits hmode heng
    have hl1 : ¬ (rest.length + 1 < 1 ∨ rest.length + 1 > 4) := by omega
    have h3 : (3 < rest.length + 1) ↔ (2 < rest.length) := by omega
    have hx0 : (x :: rest).getD 0 .nil = x := rfl
    simp only [core_quantize, core_quantize_outputs, List.length_cons, if_neg hl1, hx0, hw, hgs,
      hbits, h3, List.getD_cons_succ, hmode, heng, engine_call, try_catch,
      ruby_array_of_arrays]
    rfl
  · intro x rest w st q r hlen hw hst heng
    match rest, hlen with
    | [], _ =>
      simp only [List.getD_nil] at hst
      simp [core_qr, core_qr_outputs, rb_scan_args, scanned, hw, hst, heng,
        engine_call, try_catch, array_wrap]
    | [r1], _ =>
      simp only [List.getD_cons_zero] at hst
      simp [core_qr, core_qr_outputs, rb_scan_args, scanned, hw, hst, heng,
        engine_call, try_catch, array_wrap]
  · intro x rest w st outs hlen hw hst heng
    have hout : core_svd_outputs N eng (x :: rest) = .ok outs := by
      match rest, hlen with
      | [], _ =>
        simp only [List.getD_nil] at hst heng
        simp at heng
        simp [core_svd_outputs, rb_scan_args, scanned, hw, hst, heng, engine_call]
      | [r1], _ =>
        simp only [List.getD_cons_zero, List.getD_cons_succ, List.getD_nil] at hst heng
        simp at heng
        simp [core_svd_outputs, rb_scan_args, scanned, hw, hst, heng, engine_call]
      | [r1, r2], _ =>
        simp only [List.getD_cons_zero, List.getD_cons_succ] at hst heng
        simp at heng
        simp [core_svd_outputs, rb_scan_args, scanned, hw, hst, heng, engine_call]
    refine ⟨?_, ?_⟩
    · intro e he
      subst he
      simp [core_svd, hout, try_catch, array_wrap]
    · intro hne
      match outs, hne, hout with
      | [], _, hout => simp [core_svd, hout, try_catch, ruby_array_of_arrays]
      | [e], hne, _ => exact absurd rfl hne
      | e1 :: e2 :: tl, _, hout =>
        simp [core_svd, hout, try_catch, ruby_array_of_arrays, array_wrap]

/-- Witness for `multi_output_arity` with the sample engine, whose `split`
into `p` parts returns `p` arrays and at one index two arrays, whose `quantize`
returns three arrays, `qr` a pair, and `svd` three arrays, or the singular
values alone when `compute_uv` is false: `split` into 3 parts gives a 3-element
sequence, `split` into 1 part a 1-element sequence, `split` at one index along
axis 0 a 2-element sequence, `quantize` a 3-element sequence, `qr` a pair,
`svd` without `U` and `Vt` the bare array, and `svd` a 3-element sequence. -/
theorem multi_output_arity_witness :
    sample_engine.split_parts ⟨[3], .float32, [1, 2, 3]⟩ 3 none
      = .ok [⟨[3], .float32, [1, 2, 3]⟩, ⟨[3], .float32, [1, 2, 3]⟩,
          ⟨[3], .float32, [1, 2, 3]⟩] ∧
    core_split exact_int_numerics sample_engine
        [(.array ⟨[3], .float32, [1, 2, 3]⟩ : IValue), .int 3]
      = .ok (.ary [.array ⟨[3], .float32, [1, 2, 3]⟩, .array ⟨[3], .float32, [1, 2, 3]⟩,
          .array ⟨[3], .float32, [1, 2, 3]⟩]) ∧
    core_split exact_int_numerics sample_engine
        [(.array ⟨[3], .float32, [1, 2, 3]⟩ : IValue), .int 1]
      = .ok (.ary [.array ⟨[3], .float32, [1, 2, 3]⟩]) ∧
    core_split exact_int_numerics sample_engine
        [(.array ⟨[3], .float32, [1, 2, 3]⟩ : IValue), .ary [.int 1], .int 0]
      = .ok (.ary [.array ⟨[3], .float32, [1, 2, 3]⟩, .array ⟨[3], .float32, [1, 2, 3]⟩]) ∧
    core_quantize exact_int_numerics sample_engine
        [(.array ⟨[1, 1], .float32, [2]⟩ : IValue)]
      = .ok (.ary [.array ⟨[1, 1], .float32, [2]⟩, .array ⟨[1, 1], .float32, [2]⟩,
          .array ⟨[1, 1], .float32, [2]⟩]) ∧
    core_qr exact_int_numerics sample_engine [(.array ⟨[1, 1], .float32, [2]⟩ : IValue)]
      = .ok (.ary [.array ⟨[1, 1], .float32, [2]⟩, .array ⟨[1, 1], .float32, [2]⟩]) ∧
    core_svd exact_int_numerics sample_engine
        [(.array ⟨[1, 1], .float32, [2]⟩ : IValue), .bool false]
      = .ok (.array ⟨[1, 1], .float32, [2]⟩) ∧
    core_svd exact_int_numerics sample_engine [(.array ⟨[1, 1], .float32, [2]⟩ : IValue)]
      = .ok (.ary [.array ⟨[1, 1], .float32, [2]⟩, .array ⟨[1, 1], .float32, [2]⟩,
          .array ⟨[1, 1], .float32, [2]⟩]) :=
  ⟨rfl,
   (multi_output_arity exact_int_numerics sample_engine).1
      ⟨[3], .float32, [1, 2, 3]⟩ 3 [] none
      [⟨[3], .float32, [1, 2, 3]⟩, ⟨[3], .float32, [1, 2, 3]⟩, ⟨[3], .float32, [1, 2, 3]⟩]
      (by decide) (by norm_num) (by norm_num) rfl rfl,
   (multi_output_arity exact_int_numerics sample_engine).1
      ⟨[3], .float32, [1, 2, 3]⟩ 1 [] none [⟨[3], .float32, [1, 2, 3]⟩]
      (by decide) (by norm_num) (by norm_num) rfl rfl,
   (multi_output_arity exact_int_numerics sample_engine).2.1
      ⟨[3], .float32, [1, 2, 3]⟩ [.int 1] [.int 0] [1] (some 0)
      [⟨[3], .float32, [1, 2, 3]⟩, ⟨[3], .float32, [1, 2, 3]⟩]
      (by decide) rfl rfl rfl,
   (multi_output_arity exact_int_numerics sample_engine).2.2.1
      (.array ⟨[1, 1], .float32, [2]⟩) [] ⟨[1, 1], .float32, [2]⟩ none none "affine"
      [⟨[1, 1], .float32, [2]⟩, ⟨[1, 1], .float32, [2]⟩, ⟨[1, 1], .float32, [2]⟩]
      (by decide) rfl rfl rfl rfl rfl,
   (multi_output_arity exact_int_numerics sample_engine).2.2.2.1
      (.array ⟨[1, 1], .float32, [2]⟩) [] ⟨[1, 1], .float32, [2]⟩ .default
      ⟨[1, 1], .float32, [2]⟩ ⟨[1, 1], .float32, [2]⟩ (by decide) rfl rfl rfl,
   ((multi_output_arity exact_int_numerics sample_engine).2.2.2.2
      (.array ⟨[1, 1], .float32, [2]⟩) [.bool false] ⟨[1, 1], .float32, [2]⟩ .default
      [⟨[1, 1], .float32, [2]⟩] (by decide) rfl rfl rfl).1 _ rfl,
   ((multi_output_arity exact_int_numerics sample_engine).2.2.2.2
      (.array ⟨[1, 1], .float32, [2]⟩) [] ⟨[1, 1], .float32, [2]⟩ .default
      [⟨[1, 1], .float32, [2]⟩, ⟨[1, 1], .float32, [2]⟩, ⟨[1, 1], .float32, [2]⟩]
      (by decide) rfl rfl rfl).2 (by decide)⟩

/-! ## Scalar extraction -/

/-- C11 (amended). Scalar extraction: `Array#item` raises `RuntimeError` on
every array whose size is not 1; on an array of size 1 holding the element
`e`, whatever its shape, it returns `e` as a boolean for bool_, as an Integer
for the integer dtypes and as a Float for float16, bfloat16, float32 and
float64, and raises `TypeError` for complex64; wrapping a host Integer `n` in
the range of `long long` gives a rank-0 array of size 1, whose item is `n`
when the engine gives such a scalar an integer dtype that holds `n`. -/
theorem item_scalar_extraction {D F E : Type} (N : Numerics D F E) (a : MxArray E) (e : E)
    (n : Int) :
    (a.size ≠ 1 →
      array_item N a
        = .error (.ruby ⟨.RuntimeError, "item is only available for size-1 arrays"⟩)) ∧
    (a.size = 1 → a.data = [e] →
      (a.dtype = .bool_ → array_item N a = .ok (.bool (N.toBool e))) ∧
      (is_integer_dtype a.dtype = true → array_item N a = .ok (.int (N.toInt a.dtype e))) ∧
      (is_float_dtype a.dtype = true →
        array_item N a = .ok (.float (N.toDouble a.dtype e))) ∧
      (a.dtype = .complex64 →
        array_item N a
          = .error (.ruby ⟨.TypeError, "unsupported dtype for scalar conversion"⟩))) ∧
    (-(2 : Int) ^ 63 ≤ n → n < (2 : Int) ^ 63 →
      ∃ b, scalar_array_from_ruby N (.int n : RValue D E) none = .ok b ∧
        b.ndim = 0 ∧ b.size = 1 ∧
        (is_integer_dtype N.llDtype = true → N.toInt N.llDtype (N.scalarLL n) = n →
          array_item N b = .ok (.int n))) := by
  refine ⟨?_, ?_, ?_⟩
  · intro h
    simp [array_item, h, rb_raise]
  · intro h hd
    obtain ⟨shape, dt, data⟩ := a
    simp only at hd
    subst hd
    refine ⟨?_, ?_, ?_, ?_⟩ <;> intro hdt <;> cases dt <;>
      simp_all [array_item, ruby_scalar_from_array, element_to_ruby, read_at,
        is_integer_dtype, is_float_dtype, rb_raise]
  · intro h1 h2
    have hr : -9223372036854775808 ≤ n ∧ n < 9223372036854775808 := by
      constructor <;> omega
    refine ⟨⟨[], N.llDtype, [N.scalarLL n]⟩, ?_, rfl, rfl, ?_⟩
    · simp [scalar_array_from_ruby, NUM2LL, hr, cast_if_needed]
    · intro hint hval
      have hsize : (⟨[], N.llDtype, [N.scalarLL n]⟩ : MxArray E).size = 1 := rfl
      generalize hdt : N.llDtype = dt at hint hval hsize
      cases dt <;>
        simp_all [array_item, ruby_scalar_from_array, element_to_ruby, read_at,
          is_integer_dtype]

/-- Witness for `item_scalar_extraction`: the item of the int32 array of shape
`(1, 1)` holding 5 is the Integer 5, and the host Integer 5 wrapped as a
scalar array has item 5. -/
theorem item_scalar_extraction_witness :
    array_item exact_int_numerics ⟨[1, 1], .int32, [5]⟩ = .ok (.int 5 : IValue) ∧
    ∃ b, scalar_array_from_ruby exact_int_numerics (.int 5 : IValue) none = .ok b ∧
      b.ndim = 0 ∧ b.size = 1 ∧
      (is_integer_dtype exact_int_numerics.llDtype = true →
        exact_int_numerics.toInt exact_int_numerics.llDtype (exact_int_numerics.scalarLL 5) = 5 →
        array_item exact_int_numerics b = .ok (.int 5 : IValue)) :=
  ⟨((item_scalar_extraction exact_int_numerics ⟨[1, 1], .int32, [5]⟩ 5 5).2.1 rfl rfl).2.1 rfl,
   (item_scalar_extraction exact_int_numerics ⟨[1, 1], .int32, [5]⟩ 5 5).2.2
     (by decide) (by decide)⟩

/-- C11 (counterexample). The complex64 array of shape `(1)` has size 1, and
`Array#item` raises `TypeError` on it. -/
theorem item_fails_on_complex64_size_one :
    (⟨[1], .complex64, [0]⟩ : MxArray Int).size = 1 ∧
    array_item exact_int_numerics ⟨[1], .complex64, [0]⟩
      = (.error (.ruby ⟨.TypeError, "unsupported dtype for scalar conversion"⟩)
          : Except Raised IValue) :=
  ⟨rfl, rfl⟩

/-! ## Structure of `to_a` -/

theorem build_entries_range {D E : Type} (body : Nat → RValue D E × Nat)
    (g : Nat → RValue D E) (p : Nat) (hbody : ∀ j, body j = (g j, j + p)) :
    ∀ (n idx : Nat) (out : List (RValue D E)),
      build_entries body n idx out
        = (out ++ (List.range n).map (fun i => g (idx + i * p)), idx + n * p) := by
  intro n
  induction n with
  | zero => intro idx out; simp [build_entries]
  | succ n ih =>
    intro idx out
    simp only [build_entries, hbody, ih]
    have hstep : ∀ a, g (idx + p + a * p) = g (idx + (a + 1) * p) := fun a => by
      congr 1
      ring
    refine Prod.ext ?_ ?_
    · simp [List.range_succ_eq_map, Function.comp, hstep]
    · simp only
      ring

/-- The template `build_nested_ruby_array` builds the nested sequence `nest`
and advances the flat index by the product of the dimensions. -/
theorem build_nested_eq_nest {D E : Type} (va : Nat → RValue D E) :
    ∀ (s : List Nat) (idx : Nat),
      build_nested_from va (s.map Int.ofNat) idx = (nest va s idx, idx + s.prod) := by
  intro s
  induction s with
  | nil => intro idx; simp [build_nested_from, nest]
  | cons n s ih =>
    intro idx
    have h := build_entries_range (build_nested_from va (s.map Int.ofNat))
      (fun j => nest va s j) s.prod (fun j => ih j) n idx []
    simp only [List.map_cons, build_nested_from, Int.ofNat_eq_coe, Int.toNat_ofNat]
    simp only [Int.ofNat_eq_coe] at h
    rw [h]
    simp [nest]

theorem node_at_nest {D E : Type} (va : Nat → RValue D E) :
    ∀ (s idx : List Nat) (off : Nat), List.Forall₂ (fun i n => i < n) idx s →
      node_at (nest va s off) idx = some (va (off + row_major_offset s idx)) := by
  intro s
  induction s with
  | nil =>
    intro idx off h
    cases h
    simp [node_at, nest, row_major_offset]
  | cons n s ih =>
    intro idx off h
    cases h with
    | cons hi hrest =>
      rename_i i idx1
      have hget : ((List.range n).map (fun i => nest va s (off + i * s.prod)))[i]?
          = some (nest va s (off + i * s.prod)) := by
        simp [List.getElem?_map, List.getElem?_range hi]
      simp only [nest, node_at, hget, ih idx1 _ hrest, row_major_offset, Nat.add_assoc]

theorem node_at_nest_container {D E : Type} (va : Nat → RValue D E) :
    ∀ (pre idx : List Nat) (n : Nat) (post : List Nat) (off : Nat),
      List.Forall₂ (fun i m => i < m) idx pre →
      ∃ xs, node_at (nest va (pre ++ n :: post) off) idx = some (.ary xs) ∧ xs.length = n := by
  intro pre
  induction pre with
  | nil =>
    intro idx n post off h
    cases h
    exact ⟨(List.range n).map (fun i => nest va post (off + i * post.prod)),
      by simp [node_at, nest], by simp⟩
  | cons m pre ih =>
    intro idx n post off h
    cases h with
    | cons hi hrest =>
      rename_i i idx1
      have hget : ((List.range m).map
          (fun i => nest va (pre ++ n :: post) (off + i * (pre ++ n :: post).prod)))[i]?
          = some (nest va (pre ++ n :: post) (off + i * (pre ++ n :: post).prod)) := by
        simp [List.getElem?_map, List.getElem?_range hi]
      obtain ⟨xs, h1, h2⟩ := ih idx1 n post (off + i * (pre ++ n :: post).prod) hrest
      refine ⟨xs, ?_, h2⟩
      rw [List.cons_append]
      simp only [nest, node_at, hget, h1]

theorem leaves_entries_map_range {D E : Type} (f : Nat → RValue D E) (g : Nat → RValue D E)
    (p : Nat) (off : Nat)
    (h : ∀ i, leaves (f i) = (List.range p).map (fun j => g (off + i * p + j))) :
    ∀ n, leaves_of_entries ((List.range n).map f)
      = (List.range (n * p)).map (fun j => g (off + j)) := by
  have happ : ∀ xs ys : List (RValue D E),
      leaves_of_entries (xs ++ ys) = leaves_of_entries xs ++ leaves_of_entries ys := by
    intro xs ys
    induction xs with
    | nil => simp [leaves_of_entries]
    | cons x xs ihx => simp [leaves_of_entries, ihx]
  intro n
  induction n with
  | zero => simp [leaves_of_entries]
  | succ n ih =>
    rw [List.range_succ, List.map_append, happ, ih, Nat.succ_mul, List.range_add,
      List.map_append]
    congr 1
    simp only [List.map_cons, List.map_nil, leaves_of_entries, List.append_nil, h,
      List.map_map]
    apply List.map_congr_left
    intro j _
    simp only [Function.comp]
    congr 1
    ring

theorem leaves_nest {D E : Type} (va : Nat → RValue D E) (hva : ∀ i, is_ary (va i) = false) :
    ∀ (s : List Nat) (off : Nat),
      leaves (nest va s off) = (List.range s.prod).map (fun j => va (off + j)) := by
  intro s
  induction s with
  | nil =>
    intro off
    simp only [nest, leaves_of_not_ary (hva off), List.prod_nil]
    rfl
  | cons n s ih =>
    intro off
    simp only [nest, leaves, List.prod_cons]
    exact leaves_entries_map_range (fun i => nest va s (off + i * s.prod)) va s.prod off
      (fun i => ih _) n

theorem element_reader_not_ary {D F E : Type} (N : Numerics D F E) (dt : Dtype)
    (conv : E → RValue D E) (h : element_to_ruby N dt = some conv) (e : E) :
    is_ary (conv e) = false := by
  cases dt <;> simp only [element_to_ruby, Option.some.injEq, reduceCtorEq] at h <;>
    subst h <;> rfl

theorem map_read_at_range {D E : Type} (d : List E) (conv : E → RValue D E) :
    (List.range d.length).map (fun j => read_at d conv (0 + j)) = d.map conv := by
  apply List.ext_getElem?
  intro i
  rcases Nat.lt_or_ge i d.length with h | h
  · simp [List.getElem?_map, List.getElem?_range h, read_at, List.getElem?_eq_getElem h]
  · simp [List.getElem?_eq_none, h]

theorem row_major_offset_lt :
    ∀ (s idx : List Nat), List.Forall₂ (fun i n => i < n) idx s →
      row_major_offset s idx < s.prod := by
  intro s
  induction s with
  | nil =>
    intro idx h
    cases h
    simp [row_major_offset]
  | cons n s ih =>
    intro idx h
    cases h with
    | cons hi hrest =>
      rename_i i idx1
      have h1 := ih idx1 hrest
      have h2 : (i + 1) * s.prod ≤ n * s.prod := Nat.mul_le_mul_right _ hi
      simp only [row_major_offset, List.prod_cons]
      have h3 : (i + 1) * s.prod = i * s.prod + s.prod := by ring
      omega

/-- C12 (amended). Array to host structure: for an array of shape `s` with at
least one dimension and fewer than `2^31` elements, row-major data `d` of
`∏ s` elements and a dtype with an element reader `conv`, over an engine whose
`reshape` flattens the array, `to_a` returns a nested sequence `r` such that
(1) following a full multi-index `idx` (one entry below each dimension)
reaches the converted element of `d` at the row-major offset of `idx`, so the
depth is the rank; (2) the container reached by a valid index prefix at level
`j` has length `s_j`; (3) the flat index ends at `∏ s`; and (4) the scalars of
`r`, left to right, are the converted elements of `d` in order, each exactly
once. -/
theorem to_a_structure {D F E : Type} (N : Numerics D F E) (eng : Engine E) (s : List Nat)
    (dt : Dtype) (d : List E) (conv : E → RValue D E)
    (hk : s ≠ []) (hlen : d.length = s.prod) (hbound : s.prod < 2 ^ 31)
    (hflat : reshape_flattens eng ⟨s.map Int.ofNat, dt, d⟩)
    (hconv : element_to_ruby N dt = some conv) :
    ∃ r, array_to_a N eng ⟨s.map Int.ofNat, dt, d⟩ = .ok r ∧
      (∀ idx, List.Forall₂ (fun i n => i < n) idx s →
        ∃ e, d[row_major_offset s idx]? = some e ∧ node_at r idx = some (conv e)) ∧
      (∀ pre n post idx, s = pre ++ n :: post → List.Forall₂ (fun i m => i < m) idx pre →
        ∃ xs, node_at r idx = some (.ary xs) ∧ xs.length = n) ∧
      (build_nested_ruby_array (s.map Int.ofNat) 0 0 (read_at d conv)).2 = s.prod ∧
      leaves r = d.map conv := by
  have hnd : (⟨s.map Int.ofNat, dt, d⟩ : MxArray E).ndim ≠ 0 := by
    cases s with
    | nil => exact absurd rfl hk
    | cons n r => simp [MxArray.ndim]
  have hsz : (⟨s.map Int.ofNat, dt, d⟩ : MxArray E).size < 2 ^ 31 := by
    simpa [MxArray.size, shape_size_ofNat] using hbound
  have hb := build_nested_eq_nest (read_at d conv) s 0
  refine ⟨nest (read_at d conv) s 0, ?_, ?_, ?_, ?_, ?_⟩
  · rw [to_a_of_flat N eng _ hnd hsz hflat]
    simp [hconv, build_nested_ruby_array, hb]
  · intro idx hidx
    have hlt := row_major_offset_lt s idx hidx
    rw [← hlen] at hlt
    refine ⟨d[row_major_offset s idx], List.getElem?_eq_getElem hlt, ?_⟩
    rw [node_at_nest _ s idx 0 hidx]
    simp [read_at, List.getElem?_eq_getElem hlt]
  · intro pre n post idx hs hidx
    rw [hs]
    exact node_at_nest_container _ pre idx n post 0 hidx
  · simp [build_nested_ruby_array, hb]
  · rw [leaves_nest _ (fun i => by
      unfold read_at
      cases d[i]? with
      | none => rfl
      | some e => exact element_reader_not_ary N dt conv hconv e) s 0, ← hlen]
    exact map_read_at_range d conv

/-- Witness for `to_a_structure`: the int32 array of shape `(2, 3)` over the data
`1, …, 6`, with the sample engine. -/
theorem to_a_structure_witness :
    ([2, 3] : List Nat) ≠ [] ∧ ([1, 2, 3, 4, 5, 6] : List Int).length = ([2, 3] : List Nat).prod ∧
    ([2, 3] : List Nat).prod < 2 ^ 31 ∧
    reshape_flattens sample_engine
      ⟨([2, 3] : List Nat).map Int.ofNat, .int32, [1, 2, 3, 4, 5, 6]⟩ ∧
    ∃ r : IValue, array_to_a exact_int_numerics sample_engine
        ⟨([2, 3] : List Nat).map Int.ofNat, .int32, [1, 2, 3, 4, 5, 6]⟩ = .ok r ∧
      (∀ idx, List.Forall₂ (fun i n => i < n) idx [2, 3] →
        ∃ e, ([1, 2, 3, 4, 5, 6] : List Int)[row_major_offset [2, 3] idx]? = some e ∧
          node_at r idx = some (.int (exact_int_numerics.toInt .int32 e))) ∧
      (∀ pre n post idx, [2, 3] = pre ++ n :: post →
        List.Forall₂ (fun i m => i < m) idx pre →
        ∃ xs, node_at r idx = some (.ary xs) ∧ xs.length = n) ∧
      (build_nested_ruby_array (([2, 3] : List Nat).map Int.ofNat) 0 0
        (read_at ([1, 2, 3, 4, 5, 6] : List Int)
          (fun e => (.int (exact_int_numerics.toInt .int32 e) : IValue)))).2
        = ([2, 3] : List Nat).prod ∧
      leaves r = ([1, 2, 3, 4, 5, 6] : List Int).map
        (fun e => (.int (exact_int_numerics.toInt .int32 e) : IValue)) :=
  ⟨by decide, by decide, by decide, sample_reshape_flattens _,
   to_a_structure exact_int_numerics sample_engine [2, 3] .int32 [1, 2, 3, 4, 5, 6]
    (fun e => .int (exact_int_numerics.toInt .int32 e)) (by decide) (by decide) (by decide)
    (sample_reshape_flattens _) rfl⟩

/-- C12 (counterexample). Two arrays with at least one dimension and row-major
data of the product length on which `to_a` returns no nested sequence. The
int8 array of shape `(65536, 65536)` has `2^32` elements and a dtype with an
element reader: the element count is cast to the 32-bit shape element type,
which gives 0, the engine is asked to reshape the array to the shape `(0)`,
and the exception it throws leaves `to_a` uncaught. The complex64 array of
shape `(2)` has no element reader, and `to_a` raises `TypeError`. -/
theorem to_a_returns_no_sequence :
    (([65536, 65536] : List Nat) ≠ [] ∧
     (List.replicate 4294967296 (0 : Int)).length = ([65536, 65536] : List Nat).prod ∧
     (element_to_ruby exact_int_numerics .int8).isSome = true ∧
     to_ShapeElem
       (((⟨[65536, 65536], .int8, List.replicate 4294967296 0⟩ : MxArray Int).size : Nat) : Int)
       = 0 ∧
     array_to_a exact_int_numerics sample_engine
         ⟨[65536, 65536], .int8, List.replicate 4294967296 0⟩
       = (.error (.cpp "[reshape] Cannot reshape array into the given shape") :
           Except Raised IValue)) ∧
    (([0, 0] : List Int).length = ([2] : List Nat).prod ∧
     array_to_a exact_int_numerics sample_engine ⟨[2], .complex64, [0, 0]⟩
       = (.error (.ruby ⟨.TypeError, "to_a unsupported for current dtype in this phase"⟩) :
           Except Raised IValue)) := by
  refine ⟨⟨by simp, (List.length_replicate _ _).trans (by norm_num), rfl, ?_⟩, rfl, rfl⟩
  generalize List.replicate 4294967296 (0 : Int) = d
  have hsize : (⟨[65536, 65536], .int8, d⟩ : MxArray Int).size = 4294967296 := by
    simp [MxArray.size, shape_size]
  have hcast : to_ShapeElem ((4294967296 : Nat) : Int) = 0 := by
    simp [to_ShapeElem]
  refine ⟨by rw [hsize, hcast], ?_⟩
  simp only [array_to_a, MxArray.ndim, hsize, hcast]
  simp [sample_engine, engine_call, shape_size, MxArray.size]

/-! ## Convertible dtypes -/

theorem element_reader_isSome {D F E : Type} (N : Numerics D F E) (dt : Dtype) :
    (element_to_ruby N dt).isSome = true ↔ dt ≠ .complex64 := by
  cases dt <;> simp [element_to_ruby]

/-- C13 (amended). Convertible dtypes: every dtype is named by one of the
fourteen tags `dtype_from_symbol` accepts, and on an array of fewer than
`2^31` elements, over an engine whose `reshape` flattens it, array-to-host
conversion succeeds exactly for the thirteen of them other than complex64:
`to_a` returns a value iff the dtype is not complex64, `item` on a size-1 array
returns a value iff the dtype is not complex64, and on a complex64 array both
raise the `TypeError` of the unsupported dtype. -/
theorem convertible_dtypes {D F E : Type} (N : Numerics D F E) (eng : Engine E)
    (a : MxArray E) (hsize : a.size < 2 ^ 31) (hflat : reshape_flattens eng a) :
    (∃ t, (t, a.dtype) ∈ dtype_tags ∧
      dtype_from_symbol (.sym t : RValue D E) = .ok a.dtype) ∧
    ((∃ r, array_to_a N eng a = .ok r) ↔ a.dtype ≠ .complex64) ∧
    (a.size = 1 → ((∃ r, array_item N a = .ok r) ↔ a.dtype ≠ .complex64)) ∧
    (a.dtype = .complex64 →
      array_to_a N eng a = (if a.ndim = 0
        then .error (.ruby ⟨.TypeError, "unsupported dtype for scalar conversion"⟩)
        else .error (.ruby ⟨.TypeError, "to_a unsupported for current dtype in this phase"⟩)) ∧
      (a.size = 1 → array_item N a
        = .error (.ruby ⟨.TypeError, "unsupported dtype for scalar conversion"⟩))) := by
  have hto : array_to_a N eng a = (if a.ndim = 0 then ruby_scalar_from_array N a
      else match element_to_ruby N a.dtype with
        | some conv => .ok (build_nested_ruby_array a.shape 0 0 (read_at a.data conv)).1
        | none => rb_raise .TypeError "to_a unsupported for current dtype in this phase") := by
    by_cases hn : a.ndim = 0
    · simp [array_to_a, hn]
    · rw [to_a_of_flat N eng a hn hsize hflat]
      simp [hn]
  rw [hto]
  obtain ⟨shape, dt, data⟩ := a
  refine ⟨?_, ?_, ?_, ?_⟩
  · cases dt <;> simp [dtype_tags, dtype_from_symbol]
  · by_cases hn : (⟨shape, dt, data⟩ : MxArray E).ndim = 0 <;>
      cases dt <;>
      simp [hn, ruby_scalar_from_array, element_to_ruby, rb_raise]
  · intro hsz
    cases dt <;>
      simp [array_item, hsz, ruby_scalar_from_array, element_to_ruby, rb_raise]
  · intro hdt
    simp only at hdt
    subst hdt
    refine ⟨?_, ?_⟩
    · by_cases hn : (⟨shape, .complex64, data⟩ : MxArray E).ndim = 0 <;>
        simp [hn, ruby_scalar_from_array, element_to_ruby, rb_raise]
    · intro hsz
      simp [array_item, hsz, ruby_scalar_from_array, element_to_ruby, rb_raise]

/-- Witness for `convertible_dtypes`: the int32 array of shape `(1)` holding 7,
with the sample engine; `to_a` and `item` both return a value. -/
theorem convertible_dtypes_witness :
    (⟨[1], .int32, [7]⟩ : MxArray Int).size < 2 ^ 31 ∧
    reshape_flattens sample_engine ⟨[1], .int32, [7]⟩ ∧
    (∃ r : IValue, array_to_a exact_int_numerics sample_engine ⟨[1], .int32, [7]⟩ = .ok r) ∧
    (∃ r : IValue, array_item exact_int_numerics ⟨[1], .int32, [7]⟩ = .ok r) := by
  have hsize : (⟨[1], .int32, [7]⟩ : MxArray Int).size < 2 ^ 31 := by decide
  have h := @convertible_dtypes Int Int Int exact_int_numerics sample_engine ⟨[1], .int32, [7]⟩
    hsize (sample_reshape_flattens _)
  exact ⟨hsize, sample_reshape_flattens _, h.2.1.mpr (by decide), (h.2.2.1 rfl).mpr (by decide)⟩

/-- C13 (counterexample). The tag `complex64` is accepted by `dtype_from_symbol`,
and `to_a` on the complex64 array of shape `(1)` raises `TypeError` instead of
returning a sequence. Also, on the int8 array of shape `(32768, 65536)`, whose
dtype has an element reader, `to_a` does not succeed either: its `2^31`
elements are cast to the shape element `-2^31`, and the engine throws on the
reshape to that shape. -/
theorem to_a_fails_on_complex64 :
    dtype_from_symbol (.sym "complex64" : IValue) = .ok .complex64 ∧
    array_to_a exact_int_numerics sample_engine ⟨[1], .complex64, [0]⟩
      = (.error (.ruby ⟨.TypeError, "to_a unsupported for current dtype in this phase"⟩) :
          Except Raised IValue) ∧
    (element_to_ruby exact_int_numerics .int8).isSome = true ∧
    to_ShapeElem
      (((⟨[32768, 65536], .int8, List.replicate 2147483648 0⟩ : MxArray Int).size : Nat) : Int)
      = -2147483648 ∧
    array_to_a exact_int_numerics sample_engine
        ⟨[32768, 65536], .int8, List.replicate 2147483648 0⟩
      = (.error (.cpp "[reshape] Cannot reshape array into the given shape") :
          Except Raised IValue) := by
  refine ⟨rfl, rfl, rfl, ?_⟩
  generalize List.replicate 2147483648 (0 : Int) = d
  have hsize : (⟨[32768, 65536], .int8, d⟩ : MxArray Int).size = 2147483648 := by
    simp [MxArray.size, shape_size]
  have hcast : to_ShapeElem ((2147483648 : Nat) : Int) = -2147483648 := by
    simp [to_ShapeElem]
  refine ⟨by rw [hsize, hcast], ?_⟩
  simp only [array_to_a, MxArray.ndim, hsize, hcast]
  simp [sample_engine, engine_call, shape_size, MxArray.size]

/-! ## Leaf type check -/

theorem infer_ok_not_ary {D F E T : Type} (N : Numerics D F E) (c : ScalarCast D T)
    (v : RValue D E) (hv : is_ary v = false) (depth : Nat) (st st1 : List Int × List T)
    (h : infer_shape_and_flatten_typed N c v depth st = .ok st1) :
    ∀ x ∈ leaves v, is_numeric_scalar x = true := by
  intro x hx
  rw [leaves_of_not_ary hv] at hx
  have hxv : x = v := List.mem_singleton.mp hx
  subst hxv
  obtain ⟨sh, fl⟩ := st
  cases x
  case ary xs => simp [is_ary] at hv
  all_goals first
    | rfl
    | (simp [infer_shape_and_flatten_typed, is_numeric_scalar, rb_raise] at h)

mutual
/-- A flattening that returns has met only numeric or boolean leaves. -/
theorem infer_ok_leaves_numeric {D F E T : Type} (N : Numerics D F E) (c : ScalarCast D T) :
    ∀ (v : RValue D E) (depth : Nat) (st st1 : List Int × List T),
      infer_shape_and_flatten_typed N c v depth st = .ok st1 →
      ∀ x ∈ leaves v, is_numeric_scalar x = true
  | .ary xs, depth, (sh, fl), st1, h => by
    intro x hx
    have hx1 : x ∈ leaves_of_entries xs := by simpa [leaves] using hx
    simp only [infer_shape_and_flatten_typed] at h
    split at h
    · exact infer_entries_ok_leaves_numeric N c xs (depth + 1) _ st1 h x hx1
    · split at h
      · simp [rb_raise] at h
      · exact infer_entries_ok_leaves_numeric N c xs (depth + 1) _ st1 h x hx1
  | .nil, depth, st, st1, h => infer_ok_not_ary N c .nil rfl depth st st1 h
  | .bool w, depth, st, st1, h => infer_ok_not_ary N c (.bool w) rfl depth st st1 h
  | .int w, depth, st, st1, h => infer_ok_not_ary N c (.int w) rfl depth st st1 h
  | .float w, depth, st, st1, h => infer_ok_not_ary N c (.float w) rfl depth st st1 h
  | .str w, depth, st, st1, h => infer_ok_not_ary N c (.str w) rfl depth st st1 h
  | .sym w, depth, st, st1, h => infer_ok_not_ary N c (.sym w) rfl depth st st1 h
  | .hash w, depth, st, st1, h => infer_ok_not_ary N c (.hash w) rfl depth st st1 h
  | .array w, depth, st, st1, h => infer_ok_not_ary N c (.array w) rfl depth st st1 h
  | .dtype w, depth, st, st1, h => infer_ok_not_ary N c (.dtype w) rfl depth st st1 h
  | .device w, depth, st, st1, h => infer_ok_not_ary N c (.device w) rfl depth st st1 h
  | .stream w, depth, st, st1, h => infer_ok_not_ary N c (.stream w) rfl depth st st1 h
/-- The statement of `infer_ok_leaves_numeric` for the loop over entries. -/
theorem infer_entries_ok_leaves_numeric {D F E T : Type} (N : Numerics D F E)
    (c : ScalarCast D T) :
    ∀ (xs : List (RValue D E)) (depth : Nat) (st st1 : List Int × List T),
      infer_entries N c xs depth st = .ok st1 →
      ∀ x ∈ leaves_of_entries xs, is_numeric_scalar x = true
  | [], depth, st, st1, _ => by
    intro x hx
    simp [leaves_of_entries] at hx
  | y :: rest, depth, st, st1, h => by
    intro x hx
    simp only [infer_entries] at h
    simp only [leaves_of_entries, List.mem_append] at hx
    split at h
    · rename_i st2 hy
      rcases hx with hx | hx
      · exact infer_ok_leaves_numeric N c y depth st st2 hy x hx
      · exact infer_entries_ok_leaves_numeric N c rest depth st2 st1 h x hx
    · cases h
end

theorem infer_bad_leaf {D F E T : Type} (N : Numerics D F E) (c : ScalarCast D T)
    (v : RValue D E) (hv : is_ary v = false) (hbad : is_numeric_scalar v = false)
    (depth : Nat) (st : List Int × List T) :
    infer_shape_and_flatten_typed N c v depth st
      = .error (.ruby ⟨.TypeError, "nested arrays must contain only numeric/boolean scalars"⟩) := by
  obtain ⟨sh, fl⟩ := st
  cases v
  case ary xs => simp [is_ary] at hv
  all_goals first
    | (simp [is_numeric_scalar] at hbad; done)
    | simp [infer_shape_and_flatten_typed, is_numeric_scalar, rb_raise]

/-- Entries of the already recorded shape `s`, one of which holds a leaf that
is not numeric, the numeric leaves all converting: the loop raises the leaf
`TypeError`. -/
theorem infer_entries_seen_bad {D F E T : Type} (N : Numerics D F E) (c : ScalarCast D T)
    (s : List Nat)
    (ihok : ∀ v : RValue D E, has_shape s v → (∀ x ∈ leaves v, leaf_ok x) →
      ∀ (pre : List Int) (fl : List T),
        infer_shape_and_flatten_typed N c v pre.length (pre ++ s.map Int.ofNat, fl)
          = .ok (pre ++ s.map Int.ofNat, fl ++ (leaves v).map (scalar_of N c)))
    (ihbad : ∀ v : RValue D E, has_shape s v →
      (∀ x ∈ leaves v, is_numeric_scalar x = true → leaf_ok x) →
      (∃ x ∈ leaves v, is_numeric_scalar x = false) →
      ∀ (pre : List Int) (fl : List T),
        infer_shape_and_flatten_typed N c v pre.length (pre ++ s.map Int.ofNat, fl)
          = .error (.ruby ⟨.TypeError,
              "nested arrays must contain only numeric/boolean scalars"⟩))
    (ys : List (RValue D E)) (hall : ∀ y ∈ ys, has_shape s y)
    (hleaf : ∀ x ∈ leaves_of_entries ys, is_numeric_scalar x = true → leaf_ok x)
    (hbad : ∃ x ∈ leaves_of_entries ys, is_numeric_scalar x = false)
    (pre : List Int) (fl : List T) :
    infer_entries N c ys pre.length (pre ++ s.map Int.ofNat, fl)
      = .error (.ruby ⟨.TypeError,
          "nested arrays must contain only numeric/boolean scalars"⟩) := by
  induction ys generalizing fl with
  | nil =>
    obtain ⟨x, hx, _⟩ := hbad
    simp [leaves_of_entries] at hx
  | cons y rest ihr =>
    have hys : has_shape s y := hall y (List.mem_cons_self _ _)
    have hly : ∀ x ∈ leaves y, is_numeric_scalar x = true → leaf_ok x := fun x hx =>
      hleaf x (leaves_entries_mem (List.mem_cons_self _ _) hx)
    by_cases hy : ∃ x ∈ leaves y, is_numeric_scalar x = false
    · simp only [infer_entries, ihbad y hys hly hy pre fl]
    · have hgood : ∀ x ∈ leaves y, leaf_ok x := by
        intro x hx
        apply hly x hx
        by_contra hc
        exact hy ⟨x, hx, by simpa using hc⟩
      have hrest := ihr (fun z hz => hall z (List.mem_cons_of_mem _ hz))
        (fun x hx => hleaf x (by
          simp only [leaves_of_entries, List.mem_append]; exact Or.inr hx))
        (by
          obtain ⟨x, hx, hxb⟩ := hbad
          simp only [leaves_of_entries, List.mem_append] at hx
          rcases hx with hx | hx
          · exact absurd ⟨x, hx, hxb⟩ hy
          · exact ⟨x, hx, hxb⟩)
        (fl ++ (leaves y).map (scalar_of N c))
      simp only [infer_entries, ihok y hys hgood pre fl, hrest]

/-- Flattening a rectangular sequence of shape `s` that holds a leaf which is
not numeric, its numeric leaves all converting, raises the leaf `TypeError`,
whether or not the shape below the current depth is recorded already. -/
theorem infer_rect_bad {D F E T : Type} (N : Numerics D F E) (c : ScalarCast D T) :
    ∀ (s : List Nat) (v : RValue D E), has_shape s v → (∀ n ∈ s, n < 2 ^ 31) →
      (∀ x ∈ leaves v, is_numeric_scalar x = true → leaf_ok x) →
      (∃ x ∈ leaves v, is_numeric_scalar x = false) → ∀ (pre : List Int) (fl : List T),
      infer_shape_and_flatten_typed N c v pre.length (pre, fl)
          = .error (.ruby ⟨.TypeError,
              "nested arrays must contain only numeric/boolean scalars"⟩) ∧
      infer_shape_and_flatten_typed N c v pre.length (pre ++ s.map Int.ofNat, fl)
          = .error (.ruby ⟨.TypeError,
              "nested arrays must contain only numeric/boolean scalars"⟩) := by
  intro s
  induction s with
  | nil =>
    intro v hs _ _ hbad pre fl
    have hna : is_ary v = false := hs
    obtain ⟨x, hx, hxb⟩ := hbad
    rw [leaves_of_not_ary hna] at hx
    have hxv : x = v := List.mem_singleton.mp hx
    subst hxv
    exact ⟨infer_bad_leaf N c x hna hxb _ _, infer_bad_leaf N c x hna hxb _ _⟩
  | cons n s ih =>
    intro v hs hfit hleaf hbad pre fl
    cases v with
    | ary xs =>
      obtain ⟨hlen, hall, htight⟩ := hs
      have hn : n < 2 ^ 31 := hfit n (List.mem_cons_self _ _)
      have hfit1 : ∀ m ∈ s, m < 2 ^ 31 := fun m hm => hfit m (List.mem_cons_of_mem _ hm)
      have hcast : to_ShapeElem ((xs.length : Nat) : Int) = (n : Int) := by
        rw [hlen]; exact to_ShapeElem_of_lt n hn
      have hleaf1 : ∀ x ∈ leaves_of_entries xs, is_numeric_scalar x = true → leaf_ok x := by
        intro x hx; exact hleaf x (by simpa [leaves] using hx)
      have hbad1 : ∃ x ∈ leaves_of_entries xs, is_numeric_scalar x = false := by
        obtain ⟨x, hx, hxb⟩ := hbad
        exact ⟨x, by simpa [leaves] using hx, hxb⟩
      have hseen := fun (ys : List (RValue D E)) (h1 : ∀ y ∈ ys, has_shape s y)
          (h2 : ∀ x ∈ leaves_of_entries ys, is_numeric_scalar x = true → leaf_ok x)
          (h3 : ∃ x ∈ leaves_of_entries ys, is_numeric_scalar x = false) =>
        infer_entries_seen_bad N c s
          (fun w hw hwl p f => (infer_rect N c s w hw hfit1 hwl p f).2)
          (fun w hw hwl hwb p f => (ih w hw hfit1 hwl hwb p f).2) ys h1 h2 h3
      have hpre : (pre ++ [(n : Int)]).length = pre.length + 1 := by simp
      have happ : pre ++ (n :: s).map Int.ofNat = (pre ++ [(n : Int)]) ++ s.map Int.ofNat := by
        simp
      constructor
      · -- nothing recorded at this depth yet
        simp only [infer_shape_and_flatten_typed, if_true, hcast]
        rw [← hpre]
        cases xs with
        | nil =>
          obtain ⟨x, hx, _⟩ := hbad1
          simp [leaves_of_entries] at hx
        | cons x rest =>
          have hxs : has_shape s x := hall x (List.mem_cons_self _ _)
          have hlx : ∀ y ∈ leaves x, is_numeric_scalar y = true → leaf_ok y := fun y hy =>
            hleaf1 y (leaves_entries_mem (List.mem_cons_self _ _) hy)
          by_cases hxb : ∃ y ∈ leaves x, is_numeric_scalar y = false
          · simp only [infer_entries, (ih x hxs hfit1 hlx hxb (pre ++ [(n : Int)]) fl).1]
          · have hgood : ∀ y ∈ leaves x, leaf_ok y := by
              intro y hy
              apply hlx y hy
              by_contra hc
              exact hxb ⟨y, hy, by simpa using hc⟩
            have hx := (infer_rect N c s x hxs hfit1 hgood (pre ++ [(n : Int)]) fl).1
            have hrest := hseen rest (fun z hz => hall z (List.mem_cons_of_mem _ hz))
              (fun y hy => hleaf1 y (by
                simp only [leaves_of_entries, List.mem_append]; exact Or.inr hy))
              (by
                obtain ⟨y, hy, hyb⟩ := hbad1
                simp only [leaves_of_entries, List.mem_append] at hy
                rcases hy with hy | hy
                · exact absurd ⟨y, hy, hyb⟩ hxb
                · exact ⟨y, hy, hyb⟩)
              (pre ++ [(n : Int)]) (fl ++ (leaves x).map (scalar_of N c))
            simp only [infer_entries, hx]
            rw [hrest]
      · -- the shape below this depth is recorded already
        have hlen2 : (pre ++ (n :: s).map Int.ofNat).length ≠ pre.length := by
          simp
        have hget : (pre ++ (n :: s).map Int.ofNat).getD pre.length 0 = (xs.length : Int) := by
          rw [List.getD_eq_getElem?_getD, List.getElem?_append_right (le_refl _)]
          simp [hlen]
        simp only [infer_shape_and_flatten_typed, hlen2, if_false, hget, ne_eq,
          not_true_eq_false]
        rw [← hpre, happ]
        exact hseen xs hall hleaf1 hbad1 (pre ++ [(n : Int)]) fl
    | _ => exact absurd hs (by simp [has_shape])

/-- C14 (amended). Leaf type check: array construction from a nested sequence
in which some leaf is not an Integer, a Float or a boolean never returns an
array, wherever that leaf stands; and when the sequence is rectangular (lengths
within the 32-bit shape element type) and its Integer leaves are in the range
of `long long`, the exception is the `TypeError` of the leaf check. -/
theorem leaf_type_check {D F E : Type} (N : Numerics D F E) (v : RValue D E)
    (dtype : Option Dtype) (hbad : ∃ x ∈ leaves v, is_numeric_scalar x = false) :
    (∃ e, tensor_array_from_ruby N v dtype = .error e) ∧
    (∀ s, has_shape s v → (∀ n ∈ s, n < 2 ^ 31) →
      (∀ x ∈ leaves v, is_numeric_scalar x = true → leaf_ok x) →
      tensor_array_from_ruby N v dtype
        = .error (.ruby ⟨.TypeError,
            "nested arrays must contain only numeric/boolean scalars"⟩)) := by
  have hnum : ∀ (T : Type) (c : ScalarCast D T) (st1 : List Int × List T),
      infer_shape_and_flatten_typed N c v 0 ([], []) ≠ .ok st1 := by
    intro T c st1 hok
    obtain ⟨x, hx, hxb⟩ := hbad
    have := infer_ok_leaves_numeric N c v 0 ([], []) st1 hok x hx
    rw [hxb] at this
    cases this
  constructor
  · unfold tensor_array_from_ruby
    by_cases hb : (if dtype.getD .float32 = .float64 then Dtype.float32
        else dtype.getD .float32) = .float32
    · cases h1 : infer_shape_and_flatten_typed N (float_cast N) v 0 ([], []) with
      | error e => exact ⟨e, by simp only [hb, if_true, h1]⟩
      | ok st1 => exact absurd h1 (hnum _ _ st1)
    · cases h2 : infer_shape_and_flatten_typed N (double_cast N) v 0 ([], []) with
      | error e => exact ⟨e, by simp only [hb, if_false, h2]⟩
      | ok st1 => exact absurd h2 (hnum _ _ st1)
  · intro s hs hfit hleaf
    have h1 := (infer_rect_bad N (float_cast N) s v hs hfit hleaf hbad [] []).1
    have h2 := (infer_rect_bad N (double_cast N) s v hs hfit hleaf hbad [] []).1
    simp only [List.length_nil] at h1 h2
    unfold tensor_array_from_ruby
    by_cases hb : (if dtype.getD .float32 = .float64 then Dtype.float32
        else dtype.getD .float32) = .float32
    · simp only [hb, if_true, h1]
    · simp only [hb, if_false, h2]

/-- Witness for `leaf_type_check`: in `[[1, 2], [3, nil]]` the leaf `nil` in the
last position makes construction raise the leaf `TypeError`. -/
theorem leaf_type_check_witness :
    (∃ x ∈ leaves (.ary [.ary [.int 1, .int 2], .ary [.int 3, .nil]] : IValue),
      is_numeric_scalar x = false) ∧
    has_shape [2, 2] (.ary [.ary [.int 1, .int 2], .ary [.int 3, .nil]] : IValue) ∧
    tensor_array_from_ruby exact_int_numerics
        (.ary [.ary [.int 1, .int 2], .ary [.int 3, .nil]] : IValue) none
      = .error (.ruby ⟨.TypeError,
          "nested arrays must contain only numeric/boolean scalars"⟩) :=
  ⟨⟨.nil, by simp [leaves, leaves_of_entries], rfl⟩,
   by simp [has_shape, is_ary],
   (leaf_type_check exact_int_numerics
      (.ary [.ary [.int 1, .int 2], .ary [.int 3, .nil]]) none
      ⟨.nil, by simp [leaves, leaves_of_entries], rfl⟩).2 [2, 2]
      (by simp [has_shape, is_ary]) (by simp)
      (by simp [leaves, leaves_of_entries, leaf_ok, is_numeric_scalar])⟩

/-- C14 (counterexample). In `[[1, 2], [nil]]` the leaf `nil` is not numeric, yet
construction raises the ragged-shape `ArgumentError`, met before the leaf is
looked at, not the `TypeError` of the leaf check. -/
theorem bad_leaf_preempted_by_ragged_error :
    (.nil : IValue) ∈ leaves (.ary [.ary [.int 1, .int 2], .ary [.nil]] : IValue) ∧
    is_numeric_scalar (.nil : IValue) = false ∧
    tensor_array_from_ruby exact_int_numerics
        (.ary [.ary [.int 1, .int 2], .ary [.nil]] : IValue) none
      = .error (.ruby ⟨.ArgumentError, "ragged array input is not supported"⟩) :=
  ⟨by simp [leaves, leaves_of_entries], rfl, rfl⟩

/-! ## Shape vectors -/

/-- A prefix of non-negative Integers within the range of a C `int` is kept by
the loop of `shape_from_ruby`, which goes on with the entries after it. -/
theorem shape_entries_append {D E : Type} (pre : List Int)
    (hpre : ∀ n ∈ pre, 0 ≤ n ∧ n < 2147483648) (tail : List (RValue D E)) :
    shape_entries (pre.map (fun n => (.int n : RValue D E)) ++ tail)
      = match shape_entries tail with
        | .ok out => .ok (pre ++ out)
        | .error e => .error e := by
  induction pre with
  | nil =>
    simp only [List.map_nil, List.nil_append]
    cases shape_entries tail <;> rfl
  | cons n pre ih =>
    have hn := hpre n (List.mem_cons_self _ _)
    have h1 : -2147483648 ≤ n := by omega
    have h2 : ¬ n < 0 := by omega
    have ih1 := ih (fun m hm => hpre m (List.mem_cons_of_mem _ hm))
    rw [List.map_cons, List.cons_append]
    simp only [shape_entries, NUM2INT]
    rw [ih1]
    cases shape_entries tail <;> simp [h1, hn.2, h2]

/-- C15 (amended). Shape vectors: on a sequence of non-negative Integers within
the range of a C `int` (the empty sequence included) `shape_from_ruby` returns
the entries unchanged and in order; when such entries are followed by a first
offending entry, it raises `ArgumentError` if that entry is a negative Integer
within the range of a C `int`, `RangeError` if it is an Integer outside that
range, and `TypeError` if it is not an Integer; it raises `TypeError` when the
argument is not a sequence; and `reshape` with `[-1]` is rejected with
`ArgumentError`. -/
theorem shape_vector_validation {D E : Type} (pre : List Int) (rest : List (RValue D E))
    (a : MxArray E) (hpre : ∀ n ∈ pre, 0 ≤ n ∧ n < 2147483648) :
    shape_from_ruby (.ary (pre.map (fun n => (.int n : RValue D E)))) = .ok pre ∧
    (∀ n : Int, -2147483648 ≤ n → n < 0 →
      shape_from_ruby (.ary (pre.map (fun n => (.int n : RValue D E)) ++ .int n :: rest))
        = .error (.ruby ⟨.ArgumentError, "shape dimensions must be non-negative"⟩)) ∧
    (∀ n : Int, n < -2147483648 ∨ 2147483648 ≤ n →
      shape_from_ruby (.ary (pre.map (fun n => (.int n : RValue D E)) ++ .int n :: rest))
        = .error (.ruby ⟨.RangeError, "integer out of range of int"⟩)) ∧
    (∀ x : RValue D E, RB_INTEGER_TYPE_P x = false →
      shape_from_ruby (.ary (pre.map (fun n => (.int n : RValue D E)) ++ x :: rest))
        = .error (.ruby ⟨.TypeError, "shape dimensions must be integers"⟩)) ∧
    (∀ v : RValue D E, is_ary v = false →
      shape_from_ruby v = .error (.ruby ⟨.TypeError, "shape must be an Array of integers"⟩)) ∧
    core_reshape (.array a : RValue D E) (.ary [.int (-1)])
      = .error (.ruby ⟨.ArgumentError, "shape dimensions must be non-negative"⟩) := by
  refine ⟨?_, ?_, ?_, ?_, ?_, rfl⟩
  · have h := shape_entries_append pre hpre ([] : List (RValue D E))
    simpa [shape_from_ruby, shape_entries] using h
  · intro n h1 h2
    have h3 : n < 2147483648 := by omega
    simp [shape_from_ruby, shape_entries_append pre hpre, shape_entries, NUM2INT, rb_raise,
      h1, h2, h3]
  · intro n hn
    have h3 : ¬ (-2147483648 ≤ n ∧ n < 2147483648) := by omega
    simp [shape_from_ruby, shape_entries_append pre hpre, shape_entries, NUM2INT, rb_raise, h3]
  · intro x hx
    cases x <;> first
      | (simp [RB_INTEGER_TYPE_P] at hx; done)
      | simp [shape_from_ruby, shape_entries_append pre hpre, shape_entries, rb_raise]
  · intro v hv
    cases v <;> first
      | (simp [is_ary] at hv; done)
      | rfl

/-- Witness for `shape_vector_validation`: the shape `[2, 0, 3]` is returned
unchanged, and `[2, 0, 3, -1]` is rejected. -/
theorem shape_vector_validation_witness :
    (∀ n ∈ ([2, 0, 3] : List Int), 0 ≤ n ∧ n < 2147483648) ∧
    shape_from_ruby (.ary [.int 2, .int 0, .int 3] : IValue) = .ok [2, 0, 3] ∧
    shape_from_ruby (.ary [.int 2, .int 0, .int 3, .int (-1)] : IValue)
      = .error (.ruby ⟨.ArgumentError, "shape dimensions must be non-negative"⟩) :=
  ⟨by decide,
   (@shape_vector_validation Int Int [2, 0, 3] [] ⟨[], .float32, []⟩ (by decide)).1,
   (@shape_vector_validation Int Int [2, 0, 3] [] ⟨[], .float32, []⟩ (by decide)).2.1 (-1)
      (by decide) (by decide)⟩

/-- C15 (counterexample). The one-entry sequence `[2^31]` holds a non-negative
Integer, and `shape_from_ruby` raises `RangeError` on it instead of returning
the entry: the entry does not convert to a C `int`. -/
theorem shape_entry_beyond_int_raises :
    (0 : Int) ≤ 2 ^ 31 ∧
    shape_from_ruby (.ary [.int (2 ^ 31)] : IValue)
      = .error (.ruby ⟨.RangeError, "integer out of range of int"⟩) :=
  ⟨by decide, rfl⟩

/-! ## Strides -/

theorem strides_entries_ok {D E : Type} (strides : List Int)
    (hr : ∀ n ∈ strides, -9223372036854775808 ≤ n ∧ n < 9223372036854775808) :
    strides_entries (strides.map (fun n => (.int n : RValue D E))) = .ok strides := by
  induction strides with
  | nil => rfl
  | cons n rest ih =>
    have hn := hr n (List.mem_cons_self _ _)
    have ih1 := ih (fun m hm => hr m (List.mem_cons_of_mem _ hm))
    simp [strides_entries, NUM2LL, ih1, hn.1, hn.2]

theorem shape_from_ruby_negative_entry {D E : Type} (pre : List Int) (n : Int)
    (rest : List Int) (hpre : ∀ m ∈ pre, 0 ≤ m ∧ m < 2147483648)
    (h1 : -2147483648 ≤ n) (h2 : n < 0) :
    shape_from_ruby (.ary ((pre ++ n :: rest).map (fun n => (.int n : RValue D E))))
      = .error (.ruby ⟨.ArgumentError, "shape dimensions must be non-negative"⟩) := by
  have h3 : n < 2147483648 := by omega
  simp [shape_from_ruby, shape_entries_append pre hpre, shape_entries, NUM2INT, rb_raise,
    h1, h2, h3]

/-- C16. Strides handed to the code: `as_strided` accepts a strides vector of
Integers in the range of `long long`, negative ones included, and forwards the
entries unchanged; `slice` and `slice_update`, whose strides go through
`shape_from_ruby`, raise `ArgumentError` on a strides vector whose first entry
that is not a non-negative C `int` is a negative one, and forward nothing. -/
theorem strides_validation {D E : Type} (dbl_to_ull : D → Except Raised Nat)
    (a u : MxArray E) (start stop shape : RValue D E) (s1 s2 sh : List Int)
    (strides : List Int)
    (hstart : shape_from_ruby start = .ok s1) (hstop : shape_from_ruby stop = .ok s2)
    (hshape : shape_from_ruby shape = .ok sh)
    (hr : ∀ n ∈ strides, -9223372036854775808 ≤ n ∧ n < 9223372036854775808) :
    core_as_strided dbl_to_ull
        [.array a, shape, .ary (strides.map (fun n => (.int n : RValue D E)))]
      = .ok ⟨a, sh, strides, 0⟩ ∧
    (∀ pre n rest, strides = pre ++ n :: rest → (∀ m ∈ pre, 0 ≤ m ∧ m < 2147483648) →
      -2147483648 ≤ n → n < 0 →
      core_slice [.array a, start, stop, .ary (strides.map (fun n => (.int n : RValue D E)))]
        = .error (.ruby ⟨.ArgumentError, "shape dimensions must be non-negative"⟩) ∧
      core_slice_update
          [.array a, .array u, start, stop,
            .ary (strides.map (fun n => (.int n : RValue D E)))]
        = .error (.ruby ⟨.ArgumentError, "shape dimensions must be non-negative"⟩)) := by
  constructor
  · simp [core_as_strided, rb_scan_args, scanned, NIL_P, array_unwrap, hshape,
      strides_from_ruby, strides_entries_ok strides hr, try_catch]
  · intro pre n rest hs hpre h1 h2
    have hneg := @shape_from_ruby_negative_entry D E pre n rest hpre h1 h2
    rw [← hs] at hneg
    constructor
    · simp [core_slice, rb_scan_args, scanned, NIL_P, array_unwrap, hstart, hstop, hneg,
        try_catch]
    · simp [core_slice_update, rb_scan_args, scanned, NIL_P, array_unwrap, hstart, hstop,
        hneg, try_catch]

/-- Witness for `strides_validation`: on a one-dimensional array of three
elements, `as_strided` with strides `[-1]` forwards `[-1]`, and `slice` and
`slice_update` with start `[2]`, stop `[0]` and strides `[-1]` raise
`ArgumentError`. -/
theorem strides_validation_witness :
    shape_from_ruby (.ary [.int 2] : IValue) = .ok [2] ∧
    shape_from_ruby (.ary [.int 0] : IValue) = .ok [0] ∧
    shape_from_ruby (.ary [.int 3] : IValue) = .ok [3] ∧
    core_as_strided (fun (_ : Int) => .ok 0)
        [(.array ⟨[3], .int32, [1, 2, 3]⟩ : IValue), .ary [.int 3], .ary [.int (-1)]]
      = .ok ⟨⟨[3], .int32, [1, 2, 3]⟩, [3], [-1], 0⟩ ∧
    core_slice [(.array ⟨[3], .int32, [1, 2, 3]⟩ : IValue), .ary [.int 2], .ary [.int 0],
        .ary [.int (-1)]]
      = .error (.ruby ⟨.ArgumentError, "shape dimensions must be non-negative"⟩) ∧
    core_slice_update
        [(.array ⟨[3], .int32, [1, 2, 3]⟩ : IValue), .array ⟨[3], .int32, [4, 5, 6]⟩,
          .ary [.int 2], .ary [.int 0], .ary [.int (-1)]]
      = .error (.ruby ⟨.ArgumentError, "shape dimensions must be non-negative"⟩) :=
  have h := strides_validation (fun (_ : Int) => .ok 0) ⟨[3], .int32, [1, 2, 3]⟩
    ⟨[3], .int32, [4, 5, 6]⟩ (.ary [.int 2] : IValue) (.ary [.int 0]) (.ary [.int 3])
    [2] [0] [3] [-1] rfl rfl rfl (by decide)
  ⟨rfl, rfl, rfl, h.1, h.2 [] (-1) [] rfl (by simp) (by decide) (by decide)⟩

/-! ## Dtype and category resolution -/

theorem dtype_tag_resolves {D E : Type} (t : String) (d : Dtype) (h : (t, d) ∈ dtype_tags) :
    dtype_from_symbol (.sym t : RValue D E) = .ok d ∧
    symbol_is_dtype (.sym t : RValue D E) = true := by
  simp only [dtype_tags, List.mem_cons, Prod.mk.injEq, List.mem_singleton, List.not_mem_nil,
    or_false] at h
  rcases h with h | h | h | h | h | h | h | h | h | h | h | h | h | h <;>
    (obtain ⟨h1, h2⟩ := h; subst h1; subst h2; exact ⟨rfl, rfl⟩)

theorem not_dtype_tag {D E : Type} (t : String) (h : ∀ d, (t, d) ∉ dtype_tags) :
    dtype_from_symbol (.sym t : RValue D E)
      = .error (.ruby ⟨.ArgumentError, "unsupported dtype symbol"⟩) ∧
    symbol_is_dtype (.sym t : RValue D E) = false := by
  have h1 := h .bool_
  have h2 := h .uint8
  have h3 := h .uint16
  have h4 := h .uint32
  have h5 := h .uint64
  have h6 := h .int8
  have h7 := h .int16
  have h8 := h .int32
  have h9 := h .int64
  have h10 := h .float16
  have h11 := h .float32
  have h12 := h .float64
  have h13 := h .bfloat16
  have h14 := h .complex64
  simp only [dtype_tags, List.mem_cons, Prod.mk.injEq, List.mem_singleton, List.not_mem_nil,
    or_false, and_true, and_false, false_or, or_false, reduceCtorEq] at h1 h2 h3 h4 h5 h6 h7
  simp only [dtype_tags, List.mem_cons, Prod.mk.injEq, List.mem_singleton, List.not_mem_nil,
    or_false, and_true, and_false, false_or, or_false, reduceCtorEq] at h8 h9 h10 h11 h12 h13
  simp only [dtype_tags, List.mem_cons, Prod.mk.injEq, List.mem_singleton, List.not_mem_nil,
    or_false, and_true, and_false, false_or, or_false, reduceCtorEq] at h14
  simp [dtype_from_symbol, symbol_is_dtype, rb_raise, h1, h2, h3, h4, h5, h6, h7, h8, h9, h10,
    h11, h12, h13, h14]

theorem category_tag_resolves {D E : Type} (t : String) (c : Category)
    (h : (t, c) ∈ category_tags) :
    category_from_symbol (.sym t : RValue D E) = .ok c ∧
    symbol_is_dtype (.sym t : RValue D E) = false := by
  simp only [category_tags, List.mem_cons, Prod.mk.injEq, List.mem_singleton,
    List.not_mem_nil, or_false] at h
  rcases h with h | h | h | h | h | h | h | h <;>
    (obtain ⟨h1, h2⟩ := h; subst h1; subst h2; exact ⟨rfl, rfl⟩)

theorem not_category_tag {D E : Type} (t : String) (h : ∀ c, (t, c) ∉ category_tags) :
    category_from_symbol (.sym t : RValue D E)
      = .error (.ruby ⟨.ArgumentError, "unsupported dtype category symbol"⟩) := by
  have h1 := h .complexfloating
  have h2 := h .floating
  have h3 := h .inexact
  have h4 := h .signedinteger
  have h5 := h .unsignedinteger
  have h6 := h .integer
  have h7 := h .number
  have h8 := h .generic
  simp only [category_tags, List.mem_cons, Prod.mk.injEq, List.mem_singleton,
    List.not_mem_nil, or_false, and_true, and_false, false_or, reduceCtorEq] at h1 h2 h3 h4
  simp only [category_tags, List.mem_cons, Prod.mk.injEq, List.mem_singleton,
    List.not_mem_nil, or_false, and_true, and_false, false_or, reduceCtorEq] at h5 h6 h7 h8
  simp [category_from_symbol, rb_raise, h1, h2, h3, h4, h5, h6, h7, h8]

/-- C17. Dtype and category resolution: `optional_dtype_from_value` maps each of
the fourteen dtype tags, given as a Symbol or as a String, to the dtype it
names, returns the dtype of a Dtype handle, and raises `ArgumentError` for
every other Symbol or String; `dtype_or_category_from_value` returns the dtype
for a Dtype handle and for the fourteen dtype tags, which it tests first, the
category for the eight category tags, and raises `ArgumentError` for any other
tag; and no tag names both a dtype and a category. -/
theorem dtype_category_resolution {D E : Type} :
    (∀ t d, (t, d) ∈ dtype_tags →
      optional_dtype_from_value (.sym t : RValue D E) = .ok (some d) ∧
      optional_dtype_from_value (.str t : RValue D E) = .ok (some d) ∧
      dtype_or_category_from_value (.sym t : RValue D E) = .ok (.dtype d) ∧
      dtype_or_category_from_value (.str t : RValue D E) = .ok (.dtype d)) ∧
    (∀ d, optional_dtype_from_value (.dtype d : RValue D E) = .ok (some d) ∧
      dtype_or_category_from_value (.dtype d : RValue D E) = .ok (.dtype d)) ∧
    (∀ t, (∀ d, (t, d) ∉ dtype_tags) →
      optional_dtype_from_value (.sym t : RValue D E)
        = .error (.ruby ⟨.ArgumentError, "unsupported dtype symbol"⟩) ∧
      optional_dtype_from_value (.str t : RValue D E)
        = .error (.ruby ⟨.ArgumentError, "unsupported dtype symbol"⟩)) ∧
    (∀ t c, (t, c) ∈ category_tags →
      dtype_or_category_from_value (.sym t : RValue D E) = .ok (.category c) ∧
      dtype_or_category_from_value (.str t : RValue D E) = .ok (.category c)) ∧
    (∀ t, (∀ d, (t, d) ∉ dtype_tags) → (∀ c, (t, c) ∉ category_tags) →
      dtype_or_category_from_value (.sym t : RValue D E)
        = .error (.ruby ⟨.ArgumentError, "unsupported dtype category symbol"⟩) ∧
      dtype_or_category_from_value (.str t : RValue D E)
        = .error (.ruby ⟨.ArgumentError, "unsupported dtype category symbol"⟩)) ∧
    (∀ t d c, (t, d) ∈ dtype_tags → (t, c) ∉ category_tags) ∧
    dtype_tags.length = 14 ∧ category_tags.length = 8 ∧
    (dtype_tags.map Prod.fst).Nodup ∧ (category_tags.map Prod.fst).Nodup := by
  refine ⟨?_, ?_, ?_, ?_, ?_, ?_, rfl, rfl, by decide, by decide⟩
  · intro t d h
    obtain ⟨h1, h2⟩ := @dtype_tag_resolves D E t d h
    simp [optional_dtype_from_value, dtype_or_category_from_value, intern_if_string, SYMBOL_P,
      h1, h2]
  · intro d
    exact ⟨rfl, rfl⟩
  · intro t h
    obtain ⟨h1, h2⟩ := @not_dtype_tag D E t h
    simp [optional_dtype_from_value, intern_if_string, SYMBOL_P, h1]
  · intro t c h
    obtain ⟨h1, h2⟩ := @category_tag_resolves D E t c h
    simp [dtype_or_category_from_value, intern_if_string, SYMBOL_P, h1, h2]
  · intro t hd hc
    obtain ⟨h1, h2⟩ := @not_dtype_tag D E t hd
    have h3 := @not_category_tag D E t hc
    simp [dtype_or_category_from_value, intern_if_string, SYMBOL_P, h2, h3]
  · intro t d c hd hc
    have h2 := (@category_tag_resolves Int Int t c hc).2
    have h1 := (@dtype_tag_resolves Int Int t d hd).2
    rw [h1] at h2
    cases h2

/-- Witness for `dtype_category_resolution`: the tag `float32` resolves to the
dtype float32, the tag `floating` to the category of that name, and the tag
`float` to neither. -/
theorem dtype_category_resolution_witness :
    optional_dtype_from_value (.str "float32" : IValue) = .ok (some .float32) ∧
    dtype_or_category_from_value (.sym "floating" : IValue) = .ok (.category .floating) ∧
    dtype_or_category_from_value (.sym "float" : IValue)
      = .error (.ruby ⟨.ArgumentError, "unsupported dtype category symbol"⟩) :=
  ⟨((@dtype_category_resolution Int Int).1 "float32" .float32 (by decide)).2.1,
   ((@dtype_category_resolution Int Int).2.2.2.1 "floating" .floating (by decide)).1,
   ((@dtype_category_resolution Int Int).2.2.2.2.1 "float"
      (by intro d; cases d <;> decide) (by intro c; cases c <;> decide)).1⟩

/-! ## Dtype-vs-positional disambiguation -/

theorem symbol_is_dtype_iff {D E : Type} (t : String) :
    symbol_is_dtype (.sym t : RValue D E) = true ↔ ∃ d, (t, d) ∈ dtype_tags := by
  by_cases h : ∃ d, (t, d) ∈ dtype_tags
  · obtain ⟨d, hd⟩ := h
    exact ⟨fun _ => ⟨d, hd⟩, fun _ => (@dtype_tag_resolves D E t d hd).2⟩
  · have h1 := (@not_dtype_tag D E t (fun d hd => h ⟨d, hd⟩)).2
    constructor
    · intro h2
      rw [h1] at h2
      cases h2
    · intro h2
      exact absurd h2 h

theorem looks_like_dtype_iff {D E : Type} (v : RValue D E) :
    value_looks_like_dtype v = true ↔
      (∃ d, v = .dtype d) ∨ ∃ t d, (t, d) ∈ dtype_tags ∧ (v = .sym t ∨ v = .str t) := by
  cases v
  case dtype d => exact ⟨fun _ => Or.inl ⟨d, rfl⟩, fun _ => rfl⟩
  case sym t =>
    have h := @symbol_is_dtype_iff D E t
    simp only [value_looks_like_dtype, intern_if_string, h, reduceCtorEq, exists_false,
      RValue.sym.injEq, or_false, false_or]
    constructor
    · rintro ⟨d, hd⟩
      exact ⟨t, d, hd, rfl⟩
    · rintro ⟨t1, d, hd, ht⟩
      subst ht
      exact ⟨d, hd⟩
  case str t =>
    have h := @symbol_is_dtype_iff D E t
    simp only [value_looks_like_dtype, intern_if_string, h, reduceCtorEq, exists_false,
      RValue.str.injEq, or_false, false_or]
    constructor
    · rintro ⟨d, hd⟩
      exact ⟨t, d, hd, rfl⟩
    · rintro ⟨t1, d, hd, ht⟩
      subst ht
      exact ⟨d, hd⟩
  all_goals simp [value_looks_like_dtype, intern_if_string, symbol_is_dtype]

theorem looks_like_dtype_resolves {D E : Type} (v : RValue D E)
    (h : value_looks_like_dtype v = true) :
    ∃ d, optional_dtype_from_value v = .ok (some d) := by
  rcases (looks_like_dtype_iff v).mp h with ⟨d, hd⟩ | ⟨t, d, hd, ht | ht⟩
  · exact ⟨d, by rw [hd]; rfl⟩
  · have h1 := (@dtype_tag_resolves D E t d hd).1
    exact ⟨d, by simp [ht, optional_dtype_from_value, intern_if_string, SYMBOL_P, h1]⟩
  · have h1 := (@dtype_tag_resolves D E t d hd).1
    exact ⟨d, by simp [ht, optional_dtype_from_value, intern_if_string, SYMBOL_P, h1]⟩

theorem num2dbl_not_dtype {D E : Type} (num2dbl : Int → D) (v : RValue D E) (x : D)
    (h : NUM2DBL num2dbl v = .ok x) : value_looks_like_dtype v = false := by
  cases v <;> first
    | rfl
    | simp [NUM2DBL, rb_raise] at h

theorem num2int_not_dtype {D F E : Type} (N : Numerics D F E) (v : RValue D E) (n : Int)
    (h : NUM2INT_value N v = .ok n) : value_looks_like_dtype v = false := by
  cases v <;> first
    | rfl
    | simp [NUM2INT_value, rb_raise] at h

/-- C18. Dtype-vs-positional disambiguation: a value looks like a dtype iff it
is a Dtype handle or a Symbol or String naming one of the fourteen dtype tags.
For numbers `a`, `b`, `c` (converting to the doubles `x`, `y`, `z`), values
`p`, `q`, `r` converting to the C ints `n`, `m`, `k`, and a value `t` that looks
like a dtype and resolves to `d`: `arange(a, t)` calls the engine with start 0,
stop `x`, step 1, dtype `d`, and `arange(a, b)` with start `x`, stop `y`, step
1, dtype float32; `arange(a, b, t)` uses `t` as the dtype and `arange(a, b, c)`
uses `c` as the step; `eye` and `tri` resolve their second and third slot, and
`linspace` its third slot, by the same test. -/
theorem dtype_vs_positional {D F E : Type} (N : Numerics D F E) (num2dbl : Int → D)
    (a b c p q r t : RValue D E) (x y z : D) (n m k : Int)
    (ha : NUM2DBL num2dbl a = .ok x) (hb : NUM2DBL num2dbl b = .ok y)
    (hc : NUM2DBL num2dbl c = .ok z)
    (hp : NUM2INT_value N p = .ok n) (hq : NUM2INT_value N q = .ok m)
    (hr : NUM2INT_value N r = .ok k)
    (ht : value_looks_like_dtype t = true) :
    (∀ v : RValue D E, value_looks_like_dtype v = true ↔
      (∃ d, v = .dtype d) ∨ ∃ s d, (s, d) ∈ dtype_tags ∧ (v = .sym s ∨ v = .str s)) ∧
    ∃ d, optional_dtype_from_value t = .ok (some d) ∧
      core_arange N num2dbl [a, t] = .ok ⟨N.zero, x, N.one, d⟩ ∧
      core_arange N num2dbl [a, b] = .ok ⟨x, y, N.one, .float32⟩ ∧
      core_arange N num2dbl [a, b, t] = .ok ⟨x, y, N.one, d⟩ ∧
      core_arange N num2dbl [a, b, c] = .ok ⟨x, y, z, .float32⟩ ∧
      core_eye N [p, t] = .ok ⟨n, n, 0, d⟩ ∧
      core_eye N [p, q] = .ok ⟨n, m, 0, .float32⟩ ∧
      core_eye N [p, q, t] = .ok ⟨n, m, 0, d⟩ ∧
      core_eye N [p, q, r] = .ok ⟨n, m, k, .float32⟩ ∧
      core_tri N [p, t] = .ok ⟨n, n, 0, d⟩ ∧
      core_tri N [p, q] = .ok ⟨n, m, 0, .float32⟩ ∧
      core_tri N [p, q, t] = .ok ⟨n, m, 0, d⟩ ∧
      core_tri N [p, q, r] = .ok ⟨n, m, k, .float32⟩ ∧
      core_linspace N num2dbl [a, b, t] = .ok ⟨x, y, 50, d⟩ ∧
      core_linspace N num2dbl [a, b, q] = .ok ⟨x, y, m, .float32⟩ := by
  refine ⟨looks_like_dtype_iff, ?_⟩
  obtain ⟨d, hd⟩ := looks_like_dtype_resolves t ht
  have hb1 := num2dbl_not_dtype num2dbl b y hb
  have hc1 := num2dbl_not_dtype num2dbl c z hc
  have hq1 := num2int_not_dtype N q m hq
  have hr1 := num2int_not_dtype N r k hr
  refine ⟨d, hd, ?_, ?_, ?_, ?_, ?_, ?_, ?_, ?_, ?_, ?_, ?_, ?_, ?_, ?_⟩
  · simp [core_arange, ha, ht, hd, try_catch]
  · simp [core_arange, ha, hb, hb1, try_catch]
  · simp [core_arange, ha, hb, ht, hd, try_catch]
  · simp [core_arange, ha, hb, hc, hc1, try_catch]
  · simp [core_eye, eye_finish, hp, ht, hd, try_catch]
  · simp [core_eye, eye_finish, hp, hq, hq1, try_catch]
  · simp [core_eye, eye_finish, hp, hq, ht, hd, try_catch]
  · simp [core_eye, eye_finish, hp, hq, hr, hr1, try_catch]
  · simp [core_tri, eye_finish, hp, ht, hd, try_catch]
  · simp [core_tri, eye_finish, hp, hq, hq1, try_catch]
  · simp [core_tri, eye_finish, hp, hq, ht, hd, try_catch]
  · simp [core_tri, eye_finish, hp, hq, hr, hr1, try_catch]
  · simp [core_linspace, linspace_finish, ha, hb, ht, hd, try_catch]
  · simp [core_linspace, linspace_finish, ha, hb, hq, hq1, try_catch]

/-- Witness for `dtype_vs_positional`: `arange(5, :int32)` against
`arange(5, 10)`, `arange(5, 10, :int32)` against `arange(5, 10, 2)`,
`eye(3, :int32)` against `eye(3, 4)`, and `linspace(5, 10, :int32)` against
`linspace(5, 10, 4)`. -/
theorem dtype_vs_positional_witness :
    value_looks_like_dtype (.sym "int32" : IValue) = true ∧
    core_arange exact_int_numerics id [(.int 5 : IValue), .sym "int32"]
      = .ok ⟨exact_int_numerics.zero, 5, exact_int_numerics.one, .int32⟩ ∧
    core_arange exact_int_numerics id [(.int 5 : IValue), .int 10]
      = .ok ⟨5, 10, exact_int_numerics.one, .float32⟩ ∧
    core_arange exact_int_numerics id [(.int 5 : IValue), .int 10, .sym "int32"]
      = .ok ⟨5, 10, exact_int_numerics.one, .int32⟩ ∧
    core_arange exact_int_numerics id [(.int 5 : IValue), .int 10, .int 2]
      = .ok ⟨5, 10, 2, .float32⟩ ∧
    core_eye exact_int_numerics [(.int 3 : IValue), .sym "int32"] = .ok ⟨3, 3, 0, .int32⟩ ∧
    core_eye exact_int_numerics [(.int 3 : IValue), .int 4] = .ok ⟨3, 4, 0, .float32⟩ ∧
    core_linspace exact_int_numerics id [(.int 5 : IValue), .int 10, .sym "int32"]
      = .ok ⟨5, 10, 50, .int32⟩ ∧
    core_linspace exact_int_numerics id [(.int 5 : IValue), .int 10, .int 4]
      = .ok ⟨5, 10, 4, .float32⟩ := by
  obtain ⟨d, hd, h1, h2, h3, h4, h5, h6, _, _, _, _, _, _, h13, h14⟩ :=
    (dtype_vs_positional exact_int_numerics id
      (.int 5 : IValue) (.int 10) (.int 2) (.int 3) (.int 4) (.int 1) (.sym "int32")
      5 10 2 3 4 1 rfl rfl rfl rfl rfl rfl rfl).2
  have hd1 : d = .int32 := by
    have h0 : (Except.ok (some Dtype.int32) : Except Raised (Option Dtype)) = .ok (some d) := hd
    injection h0 with h0
    injection h0 with h0
    exact h0.symm
  subst hd1
  exact ⟨rfl, h1, h2, h3, h4, h5, h6, h13, h14⟩

/-! ## Explicit `nil` for an optional argument -/

/-- C19. Explicit `nil` in `arange`, `linspace`, `eye` and `tri`, for numbers
`a`, `b`, `c` and C ints `p`, `q`, `r`: a `nil` in the fourth position gives the
engine call of the three-argument form, the dtype default applied; a `nil` in
the second or third position is not taken as an omitted argument but converted
as a number, which raises `TypeError`, while the shorter call without it
succeeds with the defaults. -/
theorem nil_optional_argument {D F E : Type} (N : Numerics D F E) (num2dbl : Int → D)
    (a b c p q r : RValue D E) (x y z : D) (n m k : Int)
    (ha : NUM2DBL num2dbl a = .ok x) (hb : NUM2DBL num2dbl b = .ok y)
    (hc : NUM2DBL num2dbl c = .ok z)
    (hp : NUM2INT_value N p = .ok n) (hq : NUM2INT_value N q = .ok m)
    (hr : NUM2INT_value N r = .ok k) :
    (core_arange N num2dbl [a] = .ok ⟨N.zero, x, N.one, .float32⟩ ∧
     core_arange N num2dbl [a, .nil]
       = .error (.ruby ⟨.TypeError, "can't convert into Float"⟩) ∧
     core_arange N num2dbl [a, b, .nil]
       = .error (.ruby ⟨.TypeError, "can't convert into Float"⟩) ∧
     core_arange N num2dbl [a, b, c, .nil] = core_arange N num2dbl [a, b, c]) ∧
    (core_linspace N num2dbl [a, b] = .ok ⟨x, y, 50, .float32⟩ ∧
     core_linspace N num2dbl [a, b, .nil]
       = .error (.ruby ⟨.TypeError, "no implicit conversion into Integer"⟩) ∧
     core_linspace N num2dbl [a, b, q, .nil] = core_linspace N num2dbl [a, b, q]) ∧
    (core_eye N [p] = .ok ⟨n, n, 0, .float32⟩ ∧
     core_eye N [p, .nil]
       = .error (.ruby ⟨.TypeError, "no implicit conversion into Integer"⟩) ∧
     core_eye N [p, q, .nil]
       = .error (.ruby ⟨.TypeError, "no implicit conversion into Integer"⟩) ∧
     core_eye N [p, q, r, .nil] = core_eye N [p, q, r]) ∧
    (core_tri N [p] = .ok ⟨n, n, 0, .float32⟩ ∧
     core_tri N [p, .nil]
       = .error (.ruby ⟨.TypeError, "no implicit conversion into Integer"⟩) ∧
     core_tri N [p, q, .nil]
       = .error (.ruby ⟨.TypeError, "no implicit conversion into Integer"⟩) ∧
     core_tri N [p, q, r, .nil] = core_tri N [p, q, r]) := by
  have hc1 := num2dbl_not_dtype num2dbl c z hc
  have hq1 := num2int_not_dtype N q m hq
  have hr1 := num2int_not_dtype N r k hr
  have hnil : value_looks_like_dtype (.nil : RValue D E) = false := rfl
  have hnil1 : optional_dtype_from_value (.nil : RValue D E) = .ok none := rfl
  have hnild : NUM2DBL num2dbl (.nil : RValue D E)
      = .error (.ruby ⟨.TypeError, "can't convert into Float"⟩) := rfl
  have hnili : NUM2INT_value N (.nil : RValue D E)
      = .error (.ruby ⟨.TypeError, "no implicit conversion into Integer"⟩) := rfl
  refine ⟨⟨?_, ?_, ?_, ?_⟩, ⟨?_, ?_, ?_⟩, ⟨?_, ?_, ?_, ?_⟩, ⟨?_, ?_, ?_, ?_⟩⟩
  · simp [core_arange, ha, try_catch]
  · simp [core_arange, ha, hnil, hnild, try_catch]
  · simp [core_arange, ha, hb, hnil, hnild, try_catch]
  · simp [core_arange, ha, hb, hc, hc1, hnil1, try_catch]
  · simp [core_linspace, linspace_finish, ha, hb, try_catch]
  · simp [core_linspace, linspace_finish, ha, hb, hnil, hnili, try_catch]
  · simp [core_linspace, linspace_finish, ha, hb, hq, hq1, hnil1, try_catch]
  · simp [core_eye, eye_finish, hp, try_catch]
  · simp [core_eye, eye_finish, hp, hnil, hnili, try_catch]
  · simp [core_eye, eye_finish, hp, hq, hnil, hnili, try_catch]
  · simp [core_eye, eye_finish, hp, hq, hr, hr1, hnil1, try_catch]
  · simp [core_tri, eye_finish, hp, try_catch]
  · simp [core_tri, eye_finish, hp, hnil, hnili, try_catch]
  · simp [core_tri, eye_finish, hp, hq, hnil, hnili, try_catch]
  · simp [core_tri, eye_finish, hp, hq, hr, hr1, hnil1, try_catch]

/-- Witness for `nil_optional_argument`: `arange(5)` succeeds and
`arange(5, nil)` raises `TypeError`; likewise `linspace(0, 1, nil)` against
`linspace(0, 1)` and `eye(3, nil)` against `eye(3)`. -/
theorem nil_optional_argument_witness :
    core_arange exact_int_numerics id [(.int 5 : IValue)]
      = .ok ⟨exact_int_numerics.zero, 5, exact_int_numerics.one, .float32⟩ ∧
    core_arange exact_int_numerics id [(.int 5 : IValue), .nil]
      = .error (.ruby ⟨.TypeError, "can't convert into Float"⟩) ∧
    core_linspace exact_int_numerics id [(.int 0 : IValue), .int 1]
      = .ok ⟨0, 1, 50, .float32⟩ ∧
    core_linspace exact_int_numerics id [(.int 0 : IValue), .int 1, .nil]
      = .error (.ruby ⟨.TypeError, "no implicit conversion into Integer"⟩) ∧
    core_eye exact_int_numerics [(.int 3 : IValue)] = .ok ⟨3, 3, 0, .float32⟩ ∧
    core_eye exact_int_numerics [(.int 3 : IValue), .nil]
      = .error (.ruby ⟨.TypeError, "no implicit conversion into Integer"⟩) :=
  have h1 := nil_optional_argument exact_int_numerics id
    (.int 5 : IValue) (.int 10) (.int 2) (.int 3) (.int 4) (.int 1)
    5 10 2 3 4 1 rfl rfl rfl rfl rfl rfl
  have h2 := nil_optional_argument exact_int_numerics id
    (.int 0 : IValue) (.int 1) (.int 2) (.int 3) (.int 4) (.int 1)
    0 1 2 3 4 1 rfl rfl rfl rfl rfl rfl
  ⟨h1.1.1, h1.1.2.1, h2.2.1.1, h2.2.1.2.1, h1.2.2.1.1, h1.2.2.1.2.1⟩

/-! ## Trailing hash as keywords -/

theorem find_last_of_from_absent (c : Char) (cs : List Char) (h : c ∉ cs) (i : Nat)
    (found : Option Nat) : find_last_of_from c cs i found = found := by
  induction cs generalizing i found with
  | nil => rfl
  | cons x rest ih =>
    have hx : ¬ x = c := fun e => h (by rw [e]; exact List.mem_cons_self _ _)
    have hr : c ∉ rest := fun e => h (List.mem_cons_of_mem _ e)
    simp [find_last_of_from, hx, ih hr]

theorem find_last_of_from_last (c : Char) (pre ext : List Char) (h : c ∉ ext) (i : Nat)
    (found : Option Nat) :
    find_last_of_from c (pre ++ c :: ext) i found = some (i + pre.length) := by
  induction pre generalizing i found with
  | nil => simp [find_last_of_from, find_last_of_from_absent c ext h]
  | cons x rest ih =>
    rw [List.cons_append]
    simp only [find_last_of_from, ih, List.length_cons]
    congr 1
    omega

theorem infer_load_format_ext (file : String) (pre ext : List Char)
    (hd : file.data = pre ++ '.' :: ext) (hdot : '.' ∉ ext) (hne : ext ≠ []) :
    infer_load_format file = .ok (String.mk ext) := by
  have hl : ¬ pre.length + 1 = pre.length + (ext.length + 1) := by
    have : 0 < ext.length := List.length_pos.mpr hne
    omega
  simp [infer_load_format, find_last_of, hd, find_last_of_from_last '.' pre ext hdot, hl]

theorem infer_load_format_no_dot (file : String) (h : '.' ∉ file.data) :
    infer_load_format file
      = .error (.ruby ⟨.ArgumentError, "could not infer load format from file extension"⟩) := by
  simp [infer_load_format, find_last_of, find_last_of_from_absent '.' file.data h, rb_raise]

theorem infer_load_format_trailing_dot (file : String) (pre : List Char)
    (hd : file.data = pre ++ ['.']) :
    infer_load_format file
      = .error (.ruby ⟨.ArgumentError, "could not infer load format from file extension"⟩) := by
  simp [infer_load_format, find_last_of, hd,
    find_last_of_from_last '.' pre [] (List.not_mem_nil _), rb_raise]

/-- C21. Load format inference: for a file name without a null byte, `load`
with no explicit format uses the text after the last `.` of the name as the
format, and raises `ArgumentError` when the name has no `.` or ends with `.`;
with the format `f` given explicitly, whatever the name, it loads npy,
safetensors or gguf, raises `ArgumentError` for any other format but npz and
for npy with metadata requested, and raises `NotImplementedError` for npz, as
`savez` and `savez_compressed` do on every argument list. -/
theorem load_format_inference {D E : Type} (to_s : RValue D E → String) (file : String)
    (rm : RValue D E) (hfile : has_null_byte file = false) :
    (∀ pre ext : List Char, file.data = pre ++ '.' :: ext → '.' ∉ ext → ext ≠ [] →
      infer_load_format file = .ok (String.mk ext) ∧
      core_load to_s [.str file] = core_load to_s [.str file, .str (String.mk ext)] ∧
      core_load to_s [.str file, .nil, rm]
        = core_load to_s [.str file, .str (String.mk ext), rm]) ∧
    ('.' ∉ file.data → core_load to_s [.str file, .nil, rm]
      = .error (.ruby ⟨.ArgumentError,
          "could not infer load format from file extension"⟩)) ∧
    (∀ pre : List Char, file.data = pre ++ ['.'] → core_load to_s [.str file, .nil, rm]
      = .error (.ruby ⟨.ArgumentError,
          "could not infer load format from file extension"⟩)) ∧
    (∀ f : String, has_null_byte f = false →
      (f = "npy" → RTEST rm = false →
        core_load to_s [.str file, .str f, rm] = .ok (.npy file)) ∧
      (f = "npy" → RTEST rm = true →
        core_load to_s [.str file, .str f, rm]
          = .error (.ruby ⟨.ArgumentError, "metadata not supported for format npy"⟩)) ∧
      (f = "npz" →
        core_load to_s [.str file, .str f, rm]
          = .error (.ruby ⟨.NotImplementedError,
              "npz load is not yet supported in the Ruby binding"⟩)) ∧
      (f = "safetensors" →
        core_load to_s [.str file, .str f, rm] = .ok (.safetensors file (RTEST rm))) ∧
      (f = "gguf" →
        core_load to_s [.str file, .str f, rm] = .ok (.gguf file (RTEST rm))) ∧
      (f ≠ "npy" → f ≠ "npz" → f ≠ "safetensors" → f ≠ "gguf" →
        core_load to_s [.str file, .str f, rm]
          = .error (.ruby ⟨.ArgumentError, "unknown load format"⟩))) ∧
    (∀ argv : List (RValue D E),
      core_savez argv
        = .error (.ruby ⟨.NotImplementedError,
            "savez is not yet supported in the Ruby binding"⟩) ∧
      core_savez_compressed argv
        = .error (.ruby ⟨.NotImplementedError,
            "savez_compressed is not yet supported in the Ruby binding"⟩)) := by
  have hf : string_from_ruby to_s (.str file) = .ok file := by
    simp [string_from_ruby, hfile]
  have hrm : (if NIL_P rm = true then false else RTEST rm) = RTEST rm := by
    cases rm <;> rfl
  refine ⟨?_, ?_, ?_, ?_, fun _ => ⟨rfl, rfl⟩⟩
  · intro pre ext hd hdot hne
    have hinf := infer_load_format_ext file pre ext hd hdot hne
    have hext : has_null_byte (String.mk ext) = false := by
      have h := hfile
      simp only [has_null_byte, hd, List.any_append, List.any_cons, Bool.or_eq_false_iff] at h
      simpa [has_null_byte] using h.2.2
    have hx : string_from_ruby to_s (.str (String.mk ext)) = .ok (String.mk ext) := by
      simp [string_from_ruby, hext]
    refine ⟨hinf, ?_, ?_⟩
    · simp [core_load, rb_scan_args, scanned, NIL_P, hf, hinf, hx]
    · simp [core_load, rb_scan_args, scanned, NIL_P, hf, hinf, hx]
  · intro hdot
    simp [core_load, rb_scan_args, scanned, NIL_P, hf, infer_load_format_no_dot file hdot,
      try_catch]
  · intro pre hd
    simp [core_load, rb_scan_args, scanned, NIL_P, hf,
      infer_load_format_trailing_dot file pre hd, try_catch]
  · intro f hnf
    have hx : string_from_ruby to_s (.str f) = .ok f := by
      simp [string_from_ruby, hnf]
    have hnil1 : ∀ t : String, NIL_P (.str t : RValue D E) = false := fun _ => rfl
    refine ⟨?_, ?_, ?_, ?_, ?_, ?_⟩
    · intro h1 h2
      subst h1
      simp [core_load, rb_scan_args, scanned, hnil1, hf, hx, hrm, h2, try_catch]
    · intro h1 h2
      subst h1
      have hnp : NIL_P rm = false := by
        cases rm <;> first
          | rfl
          | simp [RTEST] at h2
      simp [core_load, rb_scan_args, scanned, hnil1, hf, hx, hnp, h2, try_catch, rb_raise]
    · intro h1
      subst h1
      simp [core_load, rb_scan_args, scanned, hnil1, hf, hx, try_catch, rb_raise]
    · intro h1
      subst h1
      simp [core_load, rb_scan_args, scanned, hnil1, hf, hx, hrm, try_catch]
    · intro h1
      subst h1
      simp [core_load, rb_scan_args, scanned, hnil1, hf, hx, hrm, try_catch]
    · intro h1 h2 h3 h4
      simp [core_load, rb_scan_args, scanned, hnil1, hf, hx, h1, h2, h3, h4, try_catch,
        rb_raise]

/-- Witness for `load_format_inference`: `load("w.gguf")` loads gguf,
`load("w.gguf", "npy")` loads npy, `load("w.npz")` raises
`NotImplementedError`, and `load("weights")` raises `ArgumentError`. -/
theorem load_format_inference_witness :
    has_null_byte "w.gguf" = false ∧
    core_load (fun (_ : IValue) => "") [.str "w.gguf"] = .ok (.gguf "w.gguf" false) ∧
    core_load (fun (_ : IValue) => "") [.str "w.gguf", .str "npy", .nil] = .ok (.npy "w.gguf") ∧
    core_load (fun (_ : IValue) => "") [.str "w.npz", .nil, .nil]
      = .error (.ruby ⟨.NotImplementedError,
          "npz load is not yet supported in the Ruby binding"⟩) ∧
    core_load (fun (_ : IValue) => "") [.str "weights", .nil, .nil]
      = .error (.ruby ⟨.ArgumentError,
          "could not infer load format from file extension"⟩) :=
  have h1 := load_format_inference (fun (_ : IValue) => "") "w.gguf" .nil rfl
  have h2 := load_format_inference (fun (_ : IValue) => "") "w.npz" .nil rfl
  have h3 := load_format_inference (fun (_ : IValue) => "") "weights" .nil rfl
  ⟨rfl,
   ((h1.1 ['w'] ['g', 'g', 'u', 'f'] rfl (by decide) (by decide)).2.1).trans rfl,
   (h1.2.2.2.1 "npy" rfl).1 rfl rfl,
   ((h2.1 ['w'] ['n', 'p', 'z'] rfl (by decide) (by decide)).2.2).trans rfl,
   h3.2.1 (by decide)⟩

/-! ## Function handles: shapes and the lock flag -/

theorem try_catch_ok {α : Type} (body : Except Raised α) (w : α)
    (h : try_catch body = .ok w) : body = .ok w := by
  cases body with
  | ok v => exact h
  | error e =>
    cases e with
    | ruby r => cases h
    | cpp what => cases h

theorem core_compile_wraps {D E : Type} (H : Host D E) (T : Transforms E)
    (argv : List (RValue D E)) (w : FunctionWrapper E) (h : core_compile H T argv = .ok w) :
    ∃ fn, w = function_wrap_vector fn := by
  have h1 := try_catch_ok _ _ h
  repeat (split at h1 <;> try cases h1)
  exact ⟨_, rfl⟩

theorem core_checkpoint_wraps {D E : Type} (H : Host D E) (T : Transforms E)
    (callable : RValue D E) (w : FunctionWrapper E)
    (h : core_checkpoint H T callable = .ok w) :
    ∃ fn, w = function_wrap_vector fn := by
  have h1 := try_catch_ok _ _ h
  repeat (split at h1 <;> try cases h1)
  exact ⟨_, rfl⟩

theorem core_grad_wraps {D E : Type} (H : Host D E) (T : Transforms E)
    (argv : List (RValue D E)) (w : FunctionWrapper E) (h : core_grad H T argv = .ok w) :
    ∃ fn, w = function_wrap_vector fn := by
  have h1 := try_catch_ok _ _ h
  repeat (split at h1 <;> try cases h1)
  exact ⟨_, rfl⟩

theorem core_value_and_grad_wraps {D E : Type} (H : Host D E) (T : Transforms E)
    (argv : List (RValue D E)) (w : FunctionWrapper E)
    (h : core_value_and_grad H T argv = .ok w) :
    ∃ fn, w = function_wrap_value_grad fn := by
  have h1 := try_catch_ok _ _ h
  repeat (split at h1 <;> try cases h1)
  exact ⟨_, rfl⟩

theorem core_vmap_wraps {D E : Type} (H : Host D E) (T : Transforms E)
    (argv : List (RValue D E)) (w : FunctionWrapper E) (h : core_vmap H T argv = .ok w) :
    ∃ fn, w = function_wrap_vector fn := by
  have h1 := try_catch_ok _ _ h
  repeat (split at h1 <;> try cases h1)
  exact ⟨_, rfl⟩

theorem core_import_function_wraps {D E : Type} (to_s : RValue D E → String)
    (T : Transforms E) (file : RValue D E) (w : FunctionWrapper E)
    (h : core_import_function to_s T file = .ok w) :
    ∃ fn, w = function_wrap_args_kwargs fn false := by
  have h1 := try_catch_ok _ _ h
  repeat (split at h1 <;> try cases h1)
  exact ⟨_, rfl⟩

theorem function_op_step_keeps {D F E : Type} (N : Numerics D F E)
    (to_s : RValue D E → String) (op : FunctionOp D E) (heap : FunctionHeap E) (h : Nat)
    (w : FunctionWrapper E) (hw : heap[h]? = some w) :
    (function_op_step N to_s op heap).1[h]? = some w := by
  cases op with
  | alloc => exact getElem?_append_of_some heap _ h w hw
  | wrap_vector fn => exact getElem?_append_of_some heap _ h w hw
  | wrap_args_kwargs fn b => exact getElem?_append_of_some heap _ h w hw
  | wrap_value_grad fn => exact getElem?_append_of_some heap _ h w hw
  | call self argv =>
    simp only [function_op_step, function_call_on]
    split <;> exact hw
  | aref self argv =>
    simp only [function_op_step, function_call_on]
    split <;> exact hw

theorem function_ops_run_keeps {D F E : Type} (N : Numerics D F E)
    (to_s : RValue D E → String) (ops : List (FunctionOp D E)) :
    ∀ (heap : FunctionHeap E) (h : Nat) (w : FunctionWrapper E), heap[h]? = some w →
      (function_ops_run N to_s ops heap)[h]? = some w := by
  induction ops with
  | nil => intro heap h w hw; exact hw
  | cons op ops ih =>
    intro heap h w hw
    exact ih _ h w (function_op_step_keeps N to_s op heap h w hw)

theorem function_op_step_shapes {D F E : Type} (N : Numerics D F E)
    (to_s : RValue D E → String) (op : FunctionOp D E) (heap : FunctionHeap E)
    (hinv : ∀ w ∈ heap, w = function_alloc ∨
      (populated_count w = 1 ∧ selected_callable_populated w = true)) :
    ∀ w ∈ (function_op_step N to_s op heap).1, w = function_alloc ∨
      (populated_count w = 1 ∧ selected_callable_populated w = true) := by
  cases op with
  | alloc =>
    intro w hw
    rcases List.mem_append.mp hw with h | h
    · exact hinv w h
    · exact Or.inl (List.mem_singleton.mp h)
  | wrap_vector fn =>
    intro w hw
    rcases List.mem_append.mp hw with h | h
    · exact hinv w h
    · rw [List.mem_singleton.mp h]; exact Or.inr ⟨rfl, rfl⟩
  | wrap_args_kwargs fn b =>
    intro w hw
    rcases List.mem_append.mp hw with h | h
    · exact hinv w h
    · rw [List.mem_singleton.mp h]; exact Or.inr ⟨rfl, rfl⟩
  | wrap_value_grad fn =>
    intro w hw
    rcases List.mem_append.mp hw with h | h
    · exact hinv w h
    · rw [List.mem_singleton.mp h]; exact Or.inr ⟨rfl, rfl⟩
  | call self argv =>
    simp only [function_op_step, function_call_on]
    split <;> exact hinv
  | aref self argv =>
    simp only [function_op_step, function_call_on]
    split <;> exact hinv

theorem function_ops_run_shapes {D F E : Type} (N : Numerics D F E)
    (to_s : RValue D E → String) (ops : List (FunctionOp D E)) :
    ∀ (heap : FunctionHeap E),
      (∀ w ∈ heap, w = function_alloc ∨
        (populated_count w = 1 ∧ selected_callable_populated w = true)) →
      ∀ w ∈ function_ops_run N to_s ops heap, w = function_alloc ∨
        (populated_count w = 1 ∧ selected_callable_populated w = true) := by
  induction ops with
  | nil => intro heap hinv; exact hinv
  | cons op ops ih =>
    intro heap hinv
    exact ih _ (function_op_step_shapes N to_s op heap hinv)

/-- C22 (amended). One active shape per Function handle: a handle made by
`function_wrap_vector`, `function_wrap_args_kwargs` or
`function_wrap_value_grad`, hence every handle returned by `compile`,
`checkpoint`, `grad`, `value_and_grad`, `vmap` and `import_function`, has
exactly one of its three callables populated, and its shape flags select that
callable; a handle made by the class allocator alone has none populated, and
calling it on arguments that convert raises `RuntimeError`. No operation
changes a handle after its creation: over every sequence of allocations,
`function_wrap_*` creations and calls of the methods `call` and `[]`, on any
handles and arguments, a handle that exists keeps its wrapper, callables and
flags included; a method call returns the outcome of `function_call` on the
wrapper of its handle and leaves the heap as it was; and every handle reached
from the empty heap is either as the allocator made it or has exactly one
callable populated, the selected one. -/
theorem one_active_shape {D F E : Type} (N : Numerics D F E) (H : Host D E)
    (T : Transforms E) (to_s : RValue D E → String) :
    (∀ fn : VectorFn E, populated_count (function_wrap_vector fn) = 1 ∧
      selected_callable_populated (function_wrap_vector fn) = true) ∧
    (∀ (fn : ArgsKwargsFn E) (b : Bool),
      populated_count (function_wrap_args_kwargs fn b) = 1 ∧
      selected_callable_populated (function_wrap_args_kwargs fn b) = true) ∧
    (∀ fn : ValueGradFn E, populated_count (function_wrap_value_grad fn) = 1 ∧
      selected_callable_populated (function_wrap_value_grad fn) = true) ∧
    (∀ (argv : List (RValue D E)) (x : RValue D E) (w : FunctionWrapper E),
      (core_compile H T argv = .ok w ∨ core_checkpoint H T x = .ok w ∨
        core_grad H T argv = .ok w ∨ core_value_and_grad H T argv = .ok w ∨
        core_vmap H T argv = .ok w ∨ core_import_function to_s T x = .ok w) →
      populated_count w = 1 ∧ selected_callable_populated w = true) ∧
    populated_count (function_alloc : FunctionWrapper E) = 0 ∧
    selected_callable_populated (function_alloc : FunctionWrapper E) = false ∧
    (∀ (argv : List (RValue D E)) (inputs : List (MxArray E)),
      arrays_from_args N argv = .ok inputs →
      function_call N to_s function_alloc argv
        = .error (.ruby ⟨.RuntimeError, "bad_function_call"⟩)) ∧
    (∀ (ops : List (FunctionOp D E)) (heap : FunctionHeap E) (h : Nat) (w : FunctionWrapper E),
      heap[h]? = some w → (function_ops_run N to_s ops heap)[h]? = some w) ∧
    (∀ (heap : FunctionHeap E) (h : Nat) (w : FunctionWrapper E) (argv : List (RValue D E)),
      heap[h]? = some w →
      function_op_step N to_s (.call h argv) heap = (heap, .inr (function_call N to_s w argv)) ∧
      function_op_step N to_s (.aref h argv) heap
        = (heap, .inr (function_call N to_s w argv))) ∧
    (∀ (ops : List (FunctionOp D E)) (w : FunctionWrapper E),
      w ∈ function_ops_run N to_s ops [] →
      (w = function_alloc ∧ populated_count w = 0) ∨
        (populated_count w = 1 ∧ selected_callable_populated w = true)) := by
  refine ⟨fun _ => ⟨rfl, rfl⟩, ?_, fun _ => ⟨rfl, rfl⟩, ?_, rfl, rfl, ?_, ?_, ?_, ?_⟩
  · intro fn b
    exact ⟨rfl, rfl⟩
  · intro argv x w h
    rcases h with h | h | h | h | h | h
    · obtain ⟨fn, hw⟩ := core_compile_wraps H T argv w h
      rw [hw]; exact ⟨rfl, rfl⟩
    · obtain ⟨fn, hw⟩ := core_checkpoint_wraps H T x w h
      rw [hw]; exact ⟨rfl, rfl⟩
    · obtain ⟨fn, hw⟩ := core_grad_wraps H T argv w h
      rw [hw]; exact ⟨rfl, rfl⟩
    · obtain ⟨fn, hw⟩ := core_value_and_grad_wraps H T argv w h
      rw [hw]; exact ⟨rfl, rfl⟩
    · obtain ⟨fn, hw⟩ := core_vmap_wraps H T argv w h
      rw [hw]; exact ⟨rfl, rfl⟩
    · obtain ⟨fn, hw⟩ := core_import_function_wraps to_s T x w h
      rw [hw]; exact ⟨rfl, rfl⟩
  · intro argv inputs h
    simp [function_call, function_alloc, h, call_std_function, try_catch, raise_std_exception,
      rb_raise]
  · exact function_ops_run_keeps N to_s
  · intro heap h w argv hw
    simp [function_op_step, function_call_on, hw]
  · intro ops w hw
    rcases function_ops_run_shapes N to_s ops [] (by simp) w hw with h | h
    · exact Or.inl ⟨h, by rw [h]; rfl⟩
    · exact Or.inr h

/-- Witness for `one_active_shape`: the handle `compile` returns for the
callable `"identity"` has exactly one callable populated, the selected one,
and after it is called, another handle is allocated and it is called through
`[]`, it still owns the wrapper it was created with. -/
theorem one_active_shape_witness :
    ∃ w, core_compile sample_host sample_transforms [.str "identity"] = .ok w ∧
      populated_count w = 1 ∧ selected_callable_populated w = true ∧
      (function_ops_run exact_int_numerics (fun _ => "")
        [.call 0 [.array ⟨[1], .float32, [5]⟩], .alloc, .aref 0 []] [w])[0]? = some w :=
  ⟨function_wrap_vector (fun inputs => .ok inputs), rfl,
   ((one_active_shape exact_int_numerics sample_host sample_transforms
      (fun _ => "")).2.2.2.1 [.str "identity"] .nil _ (Or.inl rfl)).1,
   ((one_active_shape exact_int_numerics sample_host sample_transforms
      (fun _ => "")).2.2.2.1 [.str "identity"] .nil _ (Or.inl rfl)).2,
   (one_active_shape exact_int_numerics sample_host sample_transforms
      (fun _ => "")).2.2.2.2.2.2.2.1 _ _ 0 _ rfl⟩

/-- C22 (counterexample). The handle behind `Function.new`, made by the class
allocator, has none of its three callables populated, and calling it raises
`RuntimeError`. -/
theorem allocated_function_has_no_callable :
    populated_count (function_alloc : FunctionWrapper Int) = 0 ∧
    function_call exact_int_numerics (fun _ => "") function_alloc ([] : List IValue)
      = .error (.ruby ⟨.RuntimeError, "bad_function_call"⟩) :=
  ⟨rfl, rfl⟩

/-- C23. No lock release around host callables: a handle returned by `compile`,
`checkpoint`, `grad`, `value_and_grad` or `vmap` has its flag `release_gvl`
unset, so a call of it never reaches `rb_thread_call_without_gvl`, whatever the
arguments. -/
theorem host_callable_keeps_lock {D F E : Type} (N : Numerics D F E) (H : Host D E)
    (T : Transforms E) (to_s : RValue D E → String) (argv : List (RValue D E))
    (x : RValue D E) (w : FunctionWrapper E)
    (h : core_compile H T argv = .ok w ∨ core_checkpoint H T x = .ok w ∨
      core_grad H T argv = .ok w ∨ core_value_and_grad H T argv = .ok w ∨
      core_vmap H T argv = .ok w) :
    w.release_gvl = false ∧
    ∀ call_argv : List (RValue D E), function_call_releases_gvl N to_s w call_argv = false := by
  have hflag : w.release_gvl = false := by
    rcases h with h | h | h | h | h
    · obtain ⟨fn, hw⟩ := core_compile_wraps H T argv w h
      rw [hw]; rfl
    · obtain ⟨fn, hw⟩ := core_checkpoint_wraps H T x w h
      rw [hw]; rfl
    · obtain ⟨fn, hw⟩ := core_grad_wraps H T argv w h
      rw [hw]; rfl
    · obtain ⟨fn, hw⟩ := core_value_and_grad_wraps H T argv w h
      rw [hw]; rfl
    · obtain ⟨fn, hw⟩ := core_vmap_wraps H T argv w h
      rw [hw]; rfl
  refine ⟨hflag, ?_⟩
  intro call_argv
  unfold function_call_releases_gvl
  rw [hflag]
  split
  · split <;> rfl
  · split <;> rfl

/-- Witness for `host_callable_keeps_lock`: `value_and_grad` of the callable
`"identity"` returns a handle, and that handle has the flag unset. -/
theorem host_callable_keeps_lock_witness :
    ∃ w, core_value_and_grad sample_host sample_transforms [.str "identity"] = .ok w ∧
      w.release_gvl = false ∧
      ∀ call_argv : List IValue,
        function_call_releases_gvl exact_int_numerics (fun _ => "") w call_argv = false :=
  ⟨_, rfl,
   host_callable_keeps_lock exact_int_numerics sample_host sample_transforms (fun _ => "")
    [.str "identity"] .nil _ (Or.inr (Or.inr (Or.inr (Or.inl rfl))))⟩

/-! ## Dtype equality and hashing -/

/-- C24. Dtype equality and hashing: `==` and `eql?` on two Dtype handles hold
iff the tags are equal; comparing with a value that is not a Dtype returns
false; the hash is the value of the engine's enumerator, so equal tags have
equal hashes, and, the enumerators of an enumeration having distinct values,
different tags have different hashes. -/
theorem dtype_equality_and_hash {D E : Type} (val : Dtype → Int) (a b : Dtype)
    (hval : Function.Injective val) :
    (dtype_equal a (.dtype b : RValue D E) = true ↔ a = b) ∧
    (a = b → dtype_hash val a = dtype_hash val b) ∧
    (a ≠ b → dtype_hash val a ≠ dtype_hash val b) ∧
    (∀ v : RValue D E, (∀ d, v ≠ .dtype d) → dtype_equal a v = false) := by
  refine ⟨by simp [dtype_equal], fun h => by rw [h], fun h e => h (hval e), ?_⟩
  intro v hv
  cases v
  case dtype d => exact absurd rfl (hv d)
  all_goals rfl

/-- Witness for `dtype_equality_and_hash`, with the enumerators numbered in the
order of declaration: int32 and float32 are unequal and hash differently, and
a Dtype is not equal to the Symbol of its name. -/
theorem dtype_equality_and_hash_witness :
    dtype_equal .int32 (.dtype .float32 : IValue) = false ∧
    dtype_hash (fun d => (d.toCtorIdx : Int)) .int32
      ≠ dtype_hash (fun d => (d.toCtorIdx : Int)) .float32 ∧
    dtype_equal .int32 (.sym "int32" : IValue) = false :=
  have h := @dtype_equality_and_hash Int Int (fun d => (d.toCtorIdx : Int)) .int32 .float32
    (by intro x y hxy; cases x <;> cases y <;> first | rfl | (exact absurd hxy (by decide)))
  ⟨rfl, h.2.2.1 (by decide), h.2.2.2 (.sym "int32") (fun _ => by simp)⟩

/-! ## Pair and triple helpers -/

/-- C25 (amended). Scalar-or-pair-or-triple helpers: given a single Integer `v`
in the range of a C `int` the pair helper returns `(v, v)` and the triple
helper `(v, v, v)`; given `nil` each returns the default unchanged; given a
sequence of exactly 2 (respectively 3) Integers in that range each returns
them in order; an Integer outside the range of a C `int`, alone or as an entry
of a sequence of 2 (respectively 3) Integers, raises `RangeError`; every other
argument (a sequence of another length, a sequence with an entry
that is not an Integer, any other value) raises `TypeError`. -/
theorem pair_triple_helpers {D E : Type} (dp : Int × Int) (dt : Int × Int × Int)
    (name : String) (v a b c : Int)
    (hv : -2147483648 ≤ v ∧ v < 2147483648) (ha : -2147483648 ≤ a ∧ a < 2147483648)
    (hb : -2147483648 ≤ b ∧ b < 2147483648) (hc : -2147483648 ≤ c ∧ c < 2147483648) :
    (int_pair_from_ruby_or_scalar (.int v : RValue D E) dp name = .ok (v, v) ∧
     int_triple_from_ruby_or_scalar (.int v : RValue D E) dt name = .ok (v, v, v)) ∧
    (int_pair_from_ruby_or_scalar (.nil : RValue D E) dp name = .ok dp ∧
     int_triple_from_ruby_or_scalar (.nil : RValue D E) dt name = .ok dt) ∧
    (int_pair_from_ruby_or_scalar (.ary [.int a, .int b] : RValue D E) dp name = .ok (a, b) ∧
     int_triple_from_ruby_or_scalar (.ary [.int a, .int b, .int c] : RValue D E) dt name
       = .ok (a, b, c)) ∧
    (∀ n : Int, n < -2147483648 ∨ 2147483648 ≤ n →
      int_pair_from_ruby_or_scalar (.int n : RValue D E) dp name
        = .error (.ruby ⟨.RangeError, "integer out of range of int"⟩) ∧
      int_triple_from_ruby_or_scalar (.int n : RValue D E) dt name
        = .error (.ruby ⟨.RangeError, "integer out of range of int"⟩)) ∧
    (∀ x y z : Int,
      ((x < -2147483648 ∨ 2147483648 ≤ x) ∨ (y < -2147483648 ∨ 2147483648 ≤ y) →
        int_pair_from_ruby_or_scalar (.ary [.int x, .int y] : RValue D E) dp name
          = .error (.ruby ⟨.RangeError, "integer out of range of int"⟩)) ∧
      ((x < -2147483648 ∨ 2147483648 ≤ x) ∨ (y < -2147483648 ∨ 2147483648 ≤ y) ∨
          (z < -2147483648 ∨ 2147483648 ≤ z) →
        int_triple_from_ruby_or_scalar (.ary [.int x, .int y, .int z] : RValue D E) dt name
          = .error (.ruby ⟨.RangeError, "integer out of range of int"⟩))) ∧
    (∀ xs : List (RValue D E),
      (xs.length ≠ 2 → int_pair_from_ruby_or_scalar (.ary xs) dp name
        = .error (.ruby ⟨.TypeError, name ++ " must be an integer or a 2-element Array"⟩)) ∧
      (xs.length ≠ 3 → int_triple_from_ruby_or_scalar (.ary xs) dt name
        = .error (.ruby ⟨.TypeError, name ++ " must be an integer or a 3-element Array"⟩))) ∧
    (∀ x y z : RValue D E,
      (RB_INTEGER_TYPE_P x = false ∨ RB_INTEGER_TYPE_P y = false →
        int_pair_from_ruby_or_scalar (.ary [x, y]) dp name
          = .error (.ruby ⟨.TypeError, name ++ " entries must be integers"⟩)) ∧
      (RB_INTEGER_TYPE_P x = false ∨ RB_INTEGER_TYPE_P y = false ∨
          RB_INTEGER_TYPE_P z = false →
        int_triple_from_ruby_or_scalar (.ary [x, y, z]) dt name
          = .error (.ruby ⟨.TypeError, name ++ " entries must be integers"⟩))) ∧
    (∀ value : RValue D E, NIL_P value = false → RB_INTEGER_TYPE_P value = false →
      is_ary value = false →
      int_pair_from_ruby_or_scalar value dp name
        = .error (.ruby ⟨.TypeError, name ++ " must be an integer or a 2-element Array"⟩) ∧
      int_triple_from_ruby_or_scalar value dt name
        = .error (.ruby ⟨.TypeError, name ++ " must be an integer or a 3-element Array"⟩)) := by
  refine ⟨?_, ⟨rfl, rfl⟩, ?_, ?_, ?_, ?_, ?_, ?_⟩
  · simp [int_pair_from_ruby_or_scalar, int_triple_from_ruby_or_scalar, NUM2INT, hv.1, hv.2]
  · simp [int_pair_from_ruby_or_scalar, int_triple_from_ruby_or_scalar, NUM2INT, ha.1, ha.2,
      hb.1, hb.2, hc.1, hc.2]
  · intro n hn
    have h3 : ¬ (-2147483648 ≤ n ∧ n < 2147483648) := by omega
    simp [int_pair_from_ruby_or_scalar, int_triple_from_ruby_or_scalar, NUM2INT, h3, rb_raise]
  · intro x y z
    constructor
    · intro h
      by_cases hx : -2147483648 ≤ x ∧ x < 2147483648
      · have hy : ¬ (-2147483648 ≤ y ∧ y < 2147483648) := by omega
        simp [int_pair_from_ruby_or_scalar, NUM2INT, hx, hy, rb_raise]
      · simp [int_pair_from_ruby_or_scalar, NUM2INT, hx, rb_raise]
    · intro h
      by_cases hx : -2147483648 ≤ x ∧ x < 2147483648
      · by_cases hy : -2147483648 ≤ y ∧ y < 2147483648
        · have hz : ¬ (-2147483648 ≤ z ∧ z < 2147483648) := by omega
          simp [int_triple_from_ruby_or_scalar, NUM2INT, hx, hy, hz, rb_raise]
        · simp [int_triple_from_ruby_or_scalar, NUM2INT, hx, hy, rb_raise]
      · simp [int_triple_from_ruby_or_scalar, NUM2INT, hx, rb_raise]
  · intro xs
    constructor
    · intro hl
      match xs, hl with
      | [], _ => rfl
      | [_], _ => rfl
      | [_, _], hl => exact absurd rfl hl
      | _ :: _ :: _ :: _, _ => rfl
    · intro hl
      match xs, hl with
      | [], _ => rfl
      | [_], _ => rfl
      | [_, _], _ => rfl
      | [_, _, _], hl => exact absurd rfl hl
      | _ :: _ :: _ :: _ :: _, _ => rfl
  · intro x y z
    constructor
    · intro h
      cases x <;> cases y <;> first
        | rfl
        | simp [RB_INTEGER_TYPE_P] at h
    · intro h
      cases x <;> cases y <;> cases z <;> first
        | rfl
        | simp [RB_INTEGER_TYPE_P] at h
  · intro value h1 h2 h3
    cases value
    case nil => simp [NIL_P] at h1
    case int n => simp [RB_INTEGER_TYPE_P] at h2
    case ary xs => simp [is_ary] at h3
    all_goals exact ⟨rfl, rfl⟩

/-- Witness for `pair_triple_helpers`: the stride `2` gives `(2, 2)`, and the
sequence `[1, 2, 3]` gives the triple `(1, 2, 3)`. -/
theorem pair_triple_helpers_witness :
    int_pair_from_ruby_or_scalar (.int 2 : IValue) (1, 1) "stride" = .ok (2, 2) ∧
    int_triple_from_ruby_or_scalar (.ary [.int 1, .int 2, .int 3] : IValue) (1, 1, 1) "grid"
      = .ok (1, 2, 3) :=
  have h := @pair_triple_helpers Int Int (1, 1) (1, 1, 1) "stride" 2 1 2 3
    (by decide) (by decide) (by decide) (by decide)
  ⟨h.1.1, (@pair_triple_helpers Int Int (1, 1) (1, 1, 1) "grid" 2 1 2 3
    (by decide) (by decide) (by decide) (by decide)).2.2.1.2⟩

/-- C25 (counterexample). Given the single Integer `2^31` the pair helper raises
`RangeError` instead of returning `(2^31, 2^31)`. -/
theorem pair_helper_integer_beyond_int_raises :
    int_pair_from_ruby_or_scalar (.int (2 ^ 31) : IValue) (1, 1) "stride"
      = .error (.ruby ⟨.RangeError, "integer out of range of int"⟩) :=
  rfl

/-! ## Required kernel keywords -/

theorem hash_fetch_required_missing {D E : Type} (kvs : List (RValue D E × RValue D E))
    (key : String) (h : keyword_missing_or_nil kvs key = true) :
    hash_fetch_required (.hash kvs) key
      = .error (.ruby ⟨.ArgumentError, "missing required keyword: " ++ key⟩) := by
  unfold keyword_missing_or_nil at h
  cases h1 : hash_lookup_symbol kvs key with
  | some v =>
    rw [h1] at h
    simp only at h
    simp [hash_fetch_required, hash_fetch_optional, h1, h, rb_raise]
  | none =>
    rw [h1] at h
    simp only at h
    cases h2 : hash_lookup_string kvs key with
    | some v =>
      rw [h2] at h
      simp only at h
      simp [hash_fetch_required, hash_fetch_optional, h1, h2, h, rb_raise]
    | none => simp [hash_fetch_required, hash_fetch_optional, h1, h2, rb_raise]

theorem hash_fetch_optional_absent {D E : Type} (kvs : List (RValue D E × RValue D E))
    (key : String) (h1 : hash_lookup_symbol kvs key = none)
    (h2 : hash_lookup_string kvs key = none) :
    hash_fetch_optional (.hash kvs) key = .ok none := by
  simp [hash_fetch_optional, h1, h2]

/-- C26 (amended). Required kernel keywords: `Kernel#call` raises
`ArgumentError` when it is not given exactly one hash argument; it raises
`ArgumentError` for the first of inputs, output_shapes, output_dtypes, grid,
threadgroup, in this order, that is missing or `nil` in the hash, provided the
values of the keywords before it convert; a key is looked up first as a Symbol
and, only if there is no Symbol key, as a String; and when the five required
keywords convert and template, init_value, verbose and stream are absent, the
kernel is called with no template arguments, no initial value, verbose false
and the default stream. -/
theorem kernel_required_keywords {D F E : Type} (N : Numerics D F E) (num2dbl : Int → D)
    (to_s : RValue D E → String) (kvs : List (RValue D E × RValue D E))
    (v1 v2 v3 v4 v5 : RValue D E) (inputs : List (MxArray E))
    (output_shapes : List (List Int)) (output_dtypes : List Dtype)
    (grid threadgroup : Int × Int × Int) :
    (∀ argv : List (RValue D E), (∀ h, argv ≠ [.hash h]) →
      kernel_call N num2dbl to_s argv
        = (.error (.ruby ⟨.ArgumentError,
            "Kernel#call expects a single keyword Hash argument"⟩) :
            Except Raised (KernelCall F E))) ∧
    (∀ key value, hash_lookup_symbol kvs key = some value →
      hash_fetch_optional (.hash kvs) key = .ok (some value)) ∧
    (∀ key, hash_lookup_symbol kvs key = none →
      hash_fetch_optional (.hash kvs) key = .ok (hash_lookup_string kvs key)) ∧
    (keyword_missing_or_nil kvs "inputs" = true →
      kernel_call N num2dbl to_s [.hash kvs]
        = (.error (.ruby ⟨.ArgumentError, "missing required keyword: inputs"⟩) :
            Except Raised (KernelCall F E))) ∧
    (hash_fetch_required (.hash kvs) "inputs" = .ok v1 →
      array_inputs_from_ruby N v1 = .ok inputs →
      (keyword_missing_or_nil kvs "output_shapes" = true →
        kernel_call N num2dbl to_s [.hash kvs]
          = (.error (.ruby ⟨.ArgumentError, "missing required keyword: output_shapes"⟩) :
              Except Raised (KernelCall F E))) ∧
      (hash_fetch_required (.hash kvs) "output_shapes" = .ok v2 →
        shape_vector_from_ruby v2 = .ok output_shapes →
        (keyword_missing_or_nil kvs "output_dtypes" = true →
          kernel_call N num2dbl to_s [.hash kvs]
            = (.error (.ruby ⟨.ArgumentError, "missing required keyword: output_dtypes"⟩) :
                Except Raised (KernelCall F E))) ∧
        (hash_fetch_required (.hash kvs) "output_dtypes" = .ok v3 →
          dtype_vector_from_ruby v3 = .ok output_dtypes →
          (keyword_missing_or_nil kvs "grid" = true →
            kernel_call N num2dbl to_s [.hash kvs]
              = (.error (.ruby ⟨.ArgumentError, "missing required keyword: grid"⟩) :
                  Except Raised (KernelCall F E))) ∧
          (hash_fetch_required (.hash kvs) "grid" = .ok v4 →
            int_triple_from_ruby_or_scalar v4 (1, 1, 1) "grid" = .ok grid →
            (keyword_missing_or_nil kvs "threadgroup" = true →
              kernel_call N num2dbl to_s [.hash kvs]
                = (.error (.ruby ⟨.ArgumentError,
                    "missing required keyword: threadgroup"⟩) :
                    Except Raised (KernelCall F E))) ∧
            (hash_fetch_required (.hash kvs) "threadgroup" = .ok v5 →
              int_triple_from_ruby_or_scalar v5 (1, 1, 1) "threadgroup" = .ok threadgroup →
              (∀ key ∈ ["template", "init_value", "verbose", "stream"],
                hash_lookup_symbol kvs key = none ∧ hash_lookup_string kvs key = none) →
              kernel_call N num2dbl to_s [.hash kvs]
                = .ok ⟨inputs, output_shapes, output_dtypes, grid, threadgroup, [], none,
                    false, .default⟩))))) := by
  refine ⟨?_, ?_, ?_, ?_, ?_⟩
  · intro argv h
    match argv, h with
    | [], _ => rfl
    | [x], h =>
      cases x
      case hash kvs1 => exact absurd rfl (h kvs1)
      all_goals rfl
    | x :: y :: rest, _ =>
      cases x <;> rfl
  · intro key value h
    simp [hash_fetch_optional, h]
  · intro key h
    simp [hash_fetch_optional, h]
  · intro h
    have h1 := hash_fetch_required_missing kvs "inputs" h
    simp [kernel_call, h1, try_catch]
  · intro h1 c1
    refine ⟨?_, ?_⟩
    · intro h
      have h2 := hash_fetch_required_missing kvs "output_shapes" h
      simp [kernel_call, h1, c1, h2, try_catch]
    · intro h2 c2
      refine ⟨?_, ?_⟩
      · intro h
        have h3 := hash_fetch_required_missing kvs "output_dtypes" h
        simp [kernel_call, h1, c1, h2, c2, h3, try_catch]
      · intro h3 c3
        refine ⟨?_, ?_⟩
        · intro h
          have h4 := hash_fetch_required_missing kvs "grid" h
          simp [kernel_call, h1, c1, h2, c2, h3, c3, h4, try_catch]
        · intro h4 c4
          refine ⟨?_, ?_⟩
          · intro h
            have h5 := hash_fetch_required_missing kvs "threadgroup" h
            simp [-Prod.mk_one_one, kernel_call, h1, c1, h2, c2, h3, c3, h4, c4, h5, try_catch]
          · intro h5 c5 habs
            have a1 := hash_fetch_optional_absent kvs "template"
              (habs "template" (by simp)).1 (habs "template" (by simp)).2
            have a2 := hash_fetch_optional_absent kvs "init_value"
              (habs "init_value" (by simp)).1 (habs "init_value" (by simp)).2
            have a3 := hash_fetch_optional_absent kvs "verbose"
              (habs "verbose" (by simp)).1 (habs "verbose" (by simp)).2
            have a4 := hash_fetch_optional_absent kvs "stream"
              (habs "stream" (by simp)).1 (habs "stream" (by simp)).2
            simp [-Prod.mk_one_one, kernel_call, kernel_call_optional, h1, c1, h2, c2, h3, c3, h4, c4,
              h5, c5,
              a1, a2, a3, a4, template_args_from_ruby, try_catch]

/-- Witness for `kernel_required_keywords`: with inputs, output_shapes,
output_dtypes and grid under Symbol keys and threadgroup under a String key the
kernel is called with the defaults of the optional keywords; with inputs alone
the call raises for output_shapes. -/
theorem kernel_required_keywords_witness :
    kernel_call exact_int_numerics id (fun _ => "")
        [(.hash [(.sym "inputs", .ary []), (.sym "output_shapes", .ary [.ary [.int 2]]),
          (.sym "output_dtypes", .ary [.sym "float32"]), (.sym "grid", .int 4),
          (.str "threadgroup", .int 1)] : IValue)]
      = .ok ⟨[], [[2]], [.float32], (4, 4, 4), (1, 1, 1), [], none, false, .default⟩ ∧
    kernel_call exact_int_numerics id (fun _ => "")
        [(.hash [(.sym "inputs", .ary [])] : IValue)]
      = (.error (.ruby ⟨.ArgumentError, "missing required keyword: output_shapes"⟩) :
          Except Raised (KernelCall Int Int)) :=
  have h := (kernel_required_keywords exact_int_numerics id (fun _ => "")
    [((.sym "inputs" : IValue), .ary []), (.sym "output_shapes", .ary [.ary [.int 2]]),
      (.sym "output_dtypes", .ary [.sym "float32"]), (.sym "grid", .int 4),
      (.str "threadgroup", .int 1)]
    (.ary []) (.ary [.ary [.int 2]]) (.ary [.sym "float32"]) (.int 4) (.int 1)
    [] [[2]] [.float32] (4, 4, 4) (1, 1, 1)).2.2.2.2 rfl rfl
  have h2 := (kernel_required_keywords exact_int_numerics id (fun _ => "")
    [((.sym "inputs" : IValue), .ary [])]
    (.ary []) .nil .nil .nil .nil [] [] [] (1, 1, 1) (1, 1, 1)).2.2.2.2 rfl rfl
  ⟨(((h.2 rfl rfl).2 rfl rfl).2 rfl rfl).2 rfl rfl (by
      intro key hk
      simp only [List.mem_cons, List.mem_singleton, List.not_mem_nil, or_false] at hk
      rcases hk with hk | hk | hk | hk <;> subst hk <;> exact ⟨rfl, rfl⟩),
   h2.1 rfl⟩

/-- C26 (counterexample). In the hash `{inputs: 5}` the keyword output_shapes is
missing, yet `Kernel#call` raises the `TypeError` of the inputs value, met
first, not `ArgumentError`. -/
theorem kernel_missing_keyword_preempted_by_type_error :
    keyword_missing_or_nil [((.sym "inputs" : IValue), .int 5)] "output_shapes" = true ∧
    kernel_call exact_int_numerics id (fun _ => "")
        [(.hash [(.sym "inputs", .int 5)] : IValue)]
      = (.error (.ruby ⟨.TypeError, "inputs must be an Array"⟩) :
          Except Raised (KernelCall Int Int)) :=
  ⟨rfl, rfl⟩

/-! ## Flatten size -/

/-- C27. Flattening without a size guarantee: on `[1, [2, 3]]` shape inference
and flattening finish without raising, with inferred shape `(2, 2)`, whose
product is 4, and a flat buffer of 3 elements; `tensor_array_from_ruby` then
builds an array of shape `(2, 2)` from a buffer that is one element short. -/
theorem flatten_size_mismatch :
    infer_shape_and_flatten_typed exact_int_numerics (float_cast exact_int_numerics)
        (.ary [.int 1, .ary [.int 2, .int 3]] : IValue) 0 ([], [])
      = .ok ([2, 2], [1, 2, 3]) ∧
    shape_size [2, 2] = 4 ∧ ([1, 2, 3] : List Int).length = 3 ∧
    tensor_array_from_ruby exact_int_numerics
        (.ary [.int 1, .ary [.int 2, .int 3]] : IValue) none
      = .ok ⟨[2, 2], .float32, [1, 2, 3]⟩ :=
  ⟨rfl, rfl, rfl, rfl⟩

/-! ## Scoped-stream frame -/

/-- C28 (amended). Scoped-stream frame, for a block that leaves the engine state
as it found it: after `core_stream` returns, the default device and the default
stream of the device that was default before the call are as before; so is the
default stream of every device other than the target device; the default
stream of the target device, when that device differs from the one that was
default before the call, is the target stream, which is the value before the
call for a Device argument but not for a Stream argument in general. -/
theorem scoped_stream_frame {D E : Type} (arg : RValue D E) (blk : Block D E)
    (st : EngineState) (dev : Device) (strm : Stream)
    (ht : core_stream_target arg st = .ok (dev, strm))
    (hblk : ∀ s, (blk s).2 = s) :
    mx_default_device (core_stream arg (some blk) st).2 = mx_default_device st ∧
    mx_default_stream (core_stream arg (some blk) st).2 (mx_default_device st)
      = mx_default_stream st (mx_default_device st) ∧
    (∀ d, d ≠ dev →
      mx_default_stream (core_stream arg (some blk) st).2 d = mx_default_stream st d) ∧
    (dev ≠ mx_default_device st →
      mx_default_stream (core_stream arg (some blk) st).2 dev = strm) ∧
    (∀ d0, arg = .device d0 → ∀ d,
      mx_default_stream (core_stream arg (some blk) st).2 d = mx_default_stream st d) := by
  have hdev : strm.device = dev := by
    unfold core_stream_target at ht
    split at ht
    · cases ht; rfl
    · split at ht
      · cases ht; rfl
      · cases ht
  obtain ⟨idx, sdev⟩ := strm
  simp only at hdev
  subst hdev
  have hafter : (core_stream arg (some blk) st).2
      = core_stream_restore ⟨mx_default_device st, mx_default_stream st (mx_default_device st)⟩
          (mx_set_default_stream (mx_set_default_device st sdev) ⟨idx, sdev⟩) := by
    simp [core_stream, core_stream_enter, ht, rb_ensure, hblk]
  rw [hafter]
  refine ⟨?_, ?_, ?_, ?_, ?_⟩
  · simp [core_stream_restore, mx_default_device, mx_set_default_stream, mx_set_default_device]
  · simp [core_stream_restore, mx_default_device, mx_default_stream, mx_set_default_stream,
      mx_set_default_device]
  · intro d hd
    by_cases h0 : d = st.default_device
    · simp [core_stream_restore, mx_default_device, mx_default_stream, mx_set_default_stream,
        mx_set_default_device, h0]
    · simp [core_stream_restore, mx_default_device, mx_default_stream, mx_set_default_stream,
        mx_set_default_device, h0, hd]
  · intro hd
    have hd1 : ¬ sdev = st.default_device := hd
    simp [core_stream_restore, mx_default_device, mx_default_stream, mx_set_default_stream,
      mx_set_default_device, hd1]
  · intro d0 harg d
    subst harg
    simp only [core_stream_target, device_from_object_or_type, Except.ok.injEq,
      Prod.mk.injEq] at ht
    obtain ⟨h1, h2⟩ := ht
    subst h1
    simp only [mx_default_stream, Stream.mk.injEq, and_true] at h2
    by_cases h0 : d = st.default_device
    · simp [core_stream_restore, mx_default_device, mx_default_stream, mx_set_default_stream,
        mx_set_default_device, h0]
    · by_cases h3 : d = d0
      · subst h3
        simp [core_stream_restore, mx_default_device, mx_default_stream,
          mx_set_default_stream, mx_set_default_device, h0, h2]
      · simp [core_stream_restore, mx_default_device, mx_default_stream,
          mx_set_default_stream, mx_set_default_device, h0, h3]

/-- Witness for `scoped_stream_frame`: the default device is cpu 0, the call
targets stream 7 of gpu 0 with a block that does nothing; afterwards the
default device is cpu 0 again and the default stream of gpu 1 is untouched. -/
theorem scoped_stream_frame_witness :
    core_stream_target (.stream ⟨7, ⟨.gpu, 0⟩⟩ : IValue) ⟨⟨.cpu, 0⟩, fun _ => 0⟩
      = .ok (⟨.gpu, 0⟩, ⟨7, ⟨.gpu, 0⟩⟩) ∧
    mx_default_device (core_stream (.stream ⟨7, ⟨.gpu, 0⟩⟩ : IValue)
        (some (fun s => (.ok .nil, s))) ⟨⟨.cpu, 0⟩, fun _ => 0⟩).2 = ⟨.cpu, 0⟩ ∧
    mx_default_stream (core_stream (.stream ⟨7, ⟨.gpu, 0⟩⟩ : IValue)
        (some (fun s => (.ok .nil, s))) ⟨⟨.cpu, 0⟩, fun _ => 0⟩).2 ⟨.gpu, 1⟩
      = ⟨0, ⟨.gpu, 1⟩⟩ :=
  have h := scoped_stream_frame (.stream ⟨7, ⟨.gpu, 0⟩⟩ : IValue) (fun s => (.ok .nil, s))
    ⟨⟨.cpu, 0⟩, fun _ => 0⟩ ⟨.gpu, 0⟩ ⟨7, ⟨.gpu, 0⟩⟩ rfl (fun _ => rfl)
  ⟨rfl, h.1, h.2.2.1 ⟨.gpu, 1⟩ (by decide)⟩

/-- C28 (counterexample). With cpu 0 as the default device and stream 0 as the
default stream of gpu 0, the call with the target stream 7 of gpu 0 and a block
that does nothing leaves stream 7 as the default stream of gpu 0. -/
theorem scoped_stream_leaves_target_device_stream :
    mx_default_stream (⟨⟨.cpu, 0⟩, fun _ => 0⟩ : EngineState) ⟨.gpu, 0⟩ = ⟨0, ⟨.gpu, 0⟩⟩ ∧
    (core_stream (.stream ⟨7, ⟨.gpu, 0⟩⟩ : IValue) (some (fun s => (.ok .nil, s)))
        ⟨⟨.cpu, 0⟩, fun _ => 0⟩).1 = .ok .nil ∧
    mx_default_stream (core_stream (.stream ⟨7, ⟨.gpu, 0⟩⟩ : IValue)
        (some (fun s => (.ok .nil, s))) ⟨⟨.cpu, 0⟩, fun _ => 0⟩).2 ⟨.gpu, 0⟩
      = ⟨7, ⟨.gpu, 0⟩⟩ :=
  ⟨rfl, rfl, by decide⟩

/-! ## Convolve output length -/

theorem size_of_vector {E : Type} (n : Nat) (dt : Dtype) (d : List E) :
    (⟨[(n : Int)], dt, d⟩ : MxArray E).size = n ∧ (⟨[(n : Int)], dt, d⟩ : MxArray E).ndim = 1 := by
  simp [MxArray.size, MxArray.ndim, shape_size]

/-- The length `core_convolve` returns on one-dimensional arrays of `n` and `m`
elements, by mode. -/
theorem convolve_length_of {D F E : Type} (N : Numerics D F E) (n m : Nat) (dt1 dt2 : Dtype)
    (d1 d2 : List E) (hn : 1 ≤ n) (hm : 1 ≤ m) :
    (core_convolve N [(.array ⟨[(n : Int)], dt1, d1⟩ : RValue D E),
        .array ⟨[(m : Int)], dt2, d2⟩, .str "full"]).2
      = .ok ((max n m : Nat) + (min n m : Nat) - 1 : Int) ∧
    (core_convolve N [(.array ⟨[(n : Int)], dt1, d1⟩ : RValue D E),
        .array ⟨[(m : Int)], dt2, d2⟩, .nil]).2
      = .ok ((max n m : Nat) + (min n m : Nat) - 1 : Int) ∧
    (core_convolve N [(.array ⟨[(n : Int)], dt1, d1⟩ : RValue D E),
        .array ⟨[(m : Int)], dt2, d2⟩, .str "valid"]).2
      = .ok ((max n m : Nat) - (min n m : Nat) + 1 : Int) ∧
    (core_convolve N [(.array ⟨[(n : Int)], dt1, d1⟩ : RValue D E),
        .array ⟨[(m : Int)], dt2, d2⟩, .str "same"]).2
      = .ok ((max n m : Nat) : Int) := by
  have h1 := size_of_vector n dt1 d1
  have h2 := size_of_vector m dt2 d2
  have hn0 : ¬ n = 0 := by omega
  have hm0 : ¬ m = 0 := by omega
  have hfull : has_null_byte "full" = false := rfl
  have hvalid : has_null_byte "valid" = false := rfl
  have hsame : has_null_byte "same" = false := rfl
  refine ⟨?_, ?_, ?_, ?_⟩
  · by_cases hlt : n < m
    · simp [core_convolve, rb_scan_args, scanned, NIL_P, StringValueCStr, hfull,
        array_from_ruby, cast_if_needed, h1.1, h1.2, h2.1, h2.2, hn0, hm0, hlt, convolve_finish,
        mx_conv1d_length]
      omega
    · simp [core_convolve, rb_scan_args, scanned, NIL_P, StringValueCStr, hfull,
        array_from_ruby, cast_if_needed, h1.1, h1.2, h2.1, h2.2, hn0, hm0, hlt, convolve_finish,
        mx_conv1d_length]
      omega
  · by_cases hlt : n < m
    · simp [core_convolve, rb_scan_args, scanned, NIL_P,
        array_from_ruby, cast_if_needed, h1.1, h1.2, h2.1, h2.2, hn0, hm0, hlt, convolve_finish,
        mx_conv1d_length]
      omega
    · simp [core_convolve, rb_scan_args, scanned, NIL_P,
        array_from_ruby, cast_if_needed, h1.1, h1.2, h2.1, h2.2, hn0, hm0, hlt, convolve_finish,
        mx_conv1d_length]
      omega
  · by_cases hlt : n < m
    · simp [core_convolve, rb_scan_args, scanned, NIL_P, StringValueCStr, hvalid,
        array_from_ruby, cast_if_needed, h1.1, h1.2, h2.1, h2.2, hn0, hm0, hlt, convolve_finish,
        mx_conv1d_length]
      omega
    · simp [core_convolve, rb_scan_args, scanned, NIL_P, StringValueCStr, hvalid,
        array_from_ruby, cast_if_needed, h1.1, h1.2, h2.1, h2.2, hn0, hm0, hlt, convolve_finish,
        mx_conv1d_length]
      omega
  · by_cases hlt : n < m
    · by_cases hpar : n % 2 = 0
      · simp [core_convolve, rb_scan_args, scanned, NIL_P, StringValueCStr, hsame,
          array_from_ruby, cast_if_needed, h1.1, h1.2, h2.1, h2.2, hn0, hm0, hlt, hpar,
          convolve_finish, mx_conv1d_length]
        omega
      · simp [core_convolve, rb_scan_args, scanned, NIL_P, StringValueCStr, hsame,
          array_from_ruby, cast_if_needed, h1.1, h1.2, h2.1, h2.2, hn0, hm0, hlt, hpar,
          convolve_finish, mx_conv1d_length]
        omega
    · by_cases hpar : m % 2 = 0
      · simp [core_convolve, rb_scan_args, scanned, NIL_P, StringValueCStr, hsame,
          array_from_ruby, cast_if_needed, h1.1, h1.2, h2.1, h2.2, hn0, hm0, hlt, hpar,
          convolve_finish, mx_conv1d_length]
        omega
      · simp [core_convolve, rb_scan_args, scanned, NIL_P, StringValueCStr, hsame,
          array_from_ruby, cast_if_needed, h1.1, h1.2, h2.1, h2.2, hn0, hm0, hlt, hpar,
          convolve_finish, mx_conv1d_length]
        omega

/-- C29. Convolve output length: for one-dimensional inputs of `n >= 1` and
`m >= 1` elements, with `L = max n m` and `K = min n m`, `convolve` returns an
array of length `L + K - 1` in mode full (also the default mode), `L - K + 1`
in mode valid and `L` in mode same; in mode full the kernel reversed by the
slice has `K` elements and `conv1d` runs on a signal of `L` elements; and the
length is the same when the two arguments are exchanged. -/
theorem convolve_output_length {D F E : Type} (N : Numerics D F E) (n m : Nat)
    (dt1 dt2 : Dtype) (d1 d2 : List E) (hn : 1 ≤ n) (hm : 1 ≤ m) :
    ((core_convolve N [(.array ⟨[(n : Int)], dt1, d1⟩ : RValue D E),
        .array ⟨[(m : Int)], dt2, d2⟩, .str "full"]).2
      = .ok ((max n m : Nat) + (min n m : Nat) - 1 : Int) ∧
     (core_convolve N [(.array ⟨[(n : Int)], dt1, d1⟩ : RValue D E),
        .array ⟨[(m : Int)], dt2, d2⟩, .nil]).2
      = .ok ((max n m : Nat) + (min n m : Nat) - 1 : Int) ∧
     (core_convolve N [(.array ⟨[(n : Int)], dt1, d1⟩ : RValue D E),
        .array ⟨[(m : Int)], dt2, d2⟩, .str "valid"]).2
      = .ok ((max n m : Nat) - (min n m : Nat) + 1 : Int) ∧
     (core_convolve N [(.array ⟨[(n : Int)], dt1, d1⟩ : RValue D E),
        .array ⟨[(m : Int)], dt2, d2⟩, .str "same"]).2
      = .ok ((max n m : Nat) : Int)) ∧
    (core_convolve N [(.array ⟨[(n : Int)], dt1, d1⟩ : RValue D E),
        .array ⟨[(m : Int)], dt2, d2⟩, .str "full"]).1
      = [.slice [(min n m : Nat) - 1] [-((min n m : Nat) : Int) - 1] [-1],
         .reshape [1, -1, 1], .reshape [1, -1, 1],
         .conv1d (max n m : Nat) (min n m : Nat) 1 ((min n m : Nat) - 1) 1 1,
         .reshape [-1]] ∧
    (∀ mode : RValue D E,
      mode = .str "full" ∨ mode = .nil ∨ mode = .str "valid" ∨ mode = .str "same" →
      (core_convolve N [(.array ⟨[(n : Int)], dt1, d1⟩ : RValue D E),
          .array ⟨[(m : Int)], dt2, d2⟩, mode]).2
        = (core_convolve N [(.array ⟨[(m : Int)], dt2, d2⟩ : RValue D E),
            .array ⟨[(n : Int)], dt1, d1⟩, mode]).2) := by
  have hA := convolve_length_of N n m dt1 dt2 d1 d2 hn hm
  have hB := convolve_length_of N m n dt2 dt1 d2 d1 hm hn
  refine ⟨hA, ?_, ?_⟩
  · have h1 := size_of_vector n dt1 d1
    have h2 := size_of_vector m dt2 d2
    have hn0 : ¬ n = 0 := by omega
    have hm0 : ¬ m = 0 := by omega
    have hfull : has_null_byte "full" = false := rfl
    by_cases hlt : n < m
    · have e1 : min n m = n := by omega
      have e2 : max n m = m := by omega
      simp [core_convolve, rb_scan_args, scanned, NIL_P, StringValueCStr, hfull,
        array_from_ruby, cast_if_needed, h1.1, h1.2, h2.1, h2.2, hn0, hm0, hlt, convolve_finish,
        e1, e2]
    · have e1 : min n m = m := by omega
      have e2 : max n m = n := by omega
      simp [core_convolve, rb_scan_args, scanned, NIL_P, StringValueCStr, hfull,
        array_from_ruby, cast_if_needed, h1.1, h1.2, h2.1, h2.2, hn0, hm0, hlt, convolve_finish,
        e1, e2]
  · intro mode hmode
    rcases hmode with h | h | h | h <;> subst h
    · rw [hA.1, hB.1, max_comm m n, min_comm m n]
    · rw [hA.2.1, hB.2.1, max_comm m n, min_comm m n]
    · rw [hA.2.2.1, hB.2.2.1, max_comm m n, min_comm m n]
    · rw [hA.2.2.2, hB.2.2.2, max_comm m n]

/-- Witness for `convolve_output_length`: inputs of 5 and 2 elements give
lengths 6, 4 and 5 in the modes full, valid and same. -/
theorem convolve_output_length_witness :
    (core_convolve exact_int_numerics [(.array ⟨[5], .float32, [1, 2, 3, 4, 5]⟩ : IValue),
        .array ⟨[2], .float32, [1, 1]⟩, .str "full"]).2 = .ok 6 ∧
    (core_convolve exact_int_numerics [(.array ⟨[5], .float32, [1, 2, 3, 4, 5]⟩ : IValue),
        .array ⟨[2], .float32, [1, 1]⟩, .str "valid"]).2 = .ok 4 ∧
    (core_convolve exact_int_numerics [(.array ⟨[5], .float32, [1, 2, 3, 4, 5]⟩ : IValue),
        .array ⟨[2], .float32, [1, 1]⟩, .str "same"]).2 = .ok 5 ∧
    (core_convolve exact_int_numerics [(.array ⟨[2], .float32, [1, 1]⟩ : IValue),
        .array ⟨[5], .float32, [1, 2, 3, 4, 5]⟩, .str "same"]).2 = .ok 5 :=
  have h := (convolve_output_length exact_int_numerics 5 2 .float32 .float32
    [1, 2, 3, 4, 5] [1, 1] (by decide) (by decide)).1
  have h2 := (convolve_output_length exact_int_numerics 2 5 .float32 .float32
    [1, 1] [1, 2, 3, 4, 5] (by decide) (by decide)).1
  ⟨h.1, h.2.2.1, h.2.2.2, h2.2.2.2⟩

/-! ## Operand coercion of unary operations -/

end MlxRuby
